import Mathlib

/-! # dragon/analysis.c — semantic analysis and IR lowering

A shallow embedding of `src/dragon/analysis.c`.  The C heap is represented by
arenas of instructions, basic blocks and compiled functions held next to the
fields of `struct acx`; a pointer is an index into its arena.  Every analysis
function is a state transformer `M α = Acx → Option (α × Acx)`, where `none`
stands for a run that does not return (`abort()`, a failed `assert`, or a read
through an invalid pointer).
-/

namespace Dragon

/-! ## Constants -/

/-- Modelled from the spec: `ABI_POINTER_SIZE` comes from the target descriptor
(§6: 8 in the reference configuration). -/
def ABI_POINTER_SIZE : Int := 8

/-- Modelled from the spec: `ABI_POINTER_ALIGN` comes from the target descriptor
(§6: 8 in the reference configuration). -/
def ABI_POINTER_ALIGN : Int := 8

/-- Modelled from the spec: the well-known type ids are pre-interned at registry
construction (§3); their numeric values are not in `src/`, only their being
distinct matters. -/
def INTEGER_TYPE_IDX : Nat := 0

/-- Modelled from the spec: see `INTEGER_TYPE_IDX`. -/
def REAL_TYPE_IDX : Nat := 1

/-- Modelled from the spec: see `INTEGER_TYPE_IDX`. -/
def STRING_TYPE_IDX : Nat := 2

/-- Modelled from the spec: see `INTEGER_TYPE_IDX`. -/
def BOOLEAN_TYPE_IDX : Nat := 3

/-- Modelled from the spec: see `INTEGER_TYPE_IDX`. -/
def CHAR_TYPE_IDX : Nat := 4

/-- Modelled from the spec: see `INTEGER_TYPE_IDX`. -/
def VOID_TYPE_IDX : Nat := 5

/-- Modelled from the spec: the magic discriminators (§4.B `add_magic_func`);
`analyze_call` treats `magic = 0` as "not a built-in", so they are non-zero. -/
def MAGIC_READ : Nat := 1

/-- Modelled from the spec: see `MAGIC_READ`. -/
def MAGIC_READLN : Nat := 2

/-- Modelled from the spec: see `MAGIC_READ`. -/
def MAGIC_WRITE : Nat := 3

/-- Modelled from the spec: see `MAGIC_READ`. -/
def MAGIC_WRITELN : Nat := 4

/-! ## Symbol table data (symbol.h) -/

/-- The tags of `enum types` (spec §3). -/
inductive TypeTag where
  | TYPE_ARRAY
  | TYPE_BOOLEAN
  | TYPE_CHAR
  | TYPE_FUNCTION
  | TYPE_INTEGER
  | TYPE_POINTER
  | TYPE_REAL
  | TYPE_RECORD
  | TYPE_REF
  | TYPE_STRING
  | TYPE_VOID
deriving DecidableEq, Repr

/-- The kinds of `enum subprogs`. -/
inductive SubKind where
  | SUB_FUNCTION
  | SUB_PROCEDURE
deriving DecidableEq, Repr

/-- A `struct insn *`: null, never written (indeterminate), or an index into the
instruction arena. -/
inductive InsnPtr where
  | null
  | undef
  | ptr (i : Nat)
deriving DecidableEq, Repr

/-- The `struct stab_var` of analysis.c (with the `disp_offset` and `loc` members
that analysis.c reads and writes). -/
structure StabVar where
  type : Nat
  name : String
  address_taken : Bool
  captured : Bool
  disp_offset : Int
  loc : InsnPtr
deriving DecidableEq, Repr

/-- The `struct stab_record_field`. -/
structure StabRecordField where
  name : String
  type : Nat
deriving DecidableEq, Repr

/-- The `struct stab_resolved_type`: the tag and the members of the union, each
kept as a field of its own (a read of a member that is not the active one
yields that field's stored value). -/
structure StabResolvedType where
  tag : TypeTag
  array_lower : Int
  array_upper : Int
  array_elt_type : Nat
  func_type : SubKind
  func_args : List Nat
  func_retty : Nat
  func_ret_assigned : Bool
  pointer : Nat
  record_fields : List StabRecordField
deriving DecidableEq, Repr

/-- A resolved type with the given tag and an empty payload. -/
def StabResolvedType.ofTag (tag : TypeTag) : StabResolvedType :=
  { tag := tag, array_lower := 0, array_upper := 0, array_elt_type := 0,
    func_type := SubKind.SUB_PROCEDURE, func_args := [], func_retty := 0,
    func_ret_assigned := false, pointer := 0, record_fields := [] }

/-- The `struct stab_type` of analysis.c (with the `magic` and `cfunc` members
that analysis.c reads); `cfunc` is an index into the arena of compiled
functions. -/
structure StabType where
  ty : StabResolvedType
  name : String
  size : Int
  align : Int
  magic : Nat
  cfunc : Option Nat
deriving DecidableEq, Repr

/-- The `struct stab_scope`: three maps from a name to a table index, kept in
insertion order. -/
structure StabScope where
  vars : List (String × Nat)
  funcs : List (String × Nat)
  types : List (String × Nat)
deriving DecidableEq, Repr

/-- The `struct stab`.  `chain` is the stack of scopes, innermost scope last
(analysis.c reads the current scope with `list_last`).  Function bindings are
entries of `types`: analysis.c reads the result of `stab_resolve_func` with
`STAB_TYPE` (in `analyze_call`) and with `STAB_FUNC` (in `analyze_subprog`). -/
structure Stab where
  vars : List StabVar
  types : List StabType
  chain : List StabScope
deriving DecidableEq, Repr

/-! ## Syntax trees (ast.h) -/

/-- The `struct ast_path`: the list of components of `a.b.c`. -/
structure AstPath where
  components : List String
deriving DecidableEq, Repr

/-- The operator token of a unary or binary expression. -/
inductive Tok where
  | AND
  | OR
  | NOT
  | EQ
  | NEQ
  | LT
  | GT
  | LE
  | GE
  | DIV
  | SLASH
  | MOD
  | PLUS
  | MINUS
  | STAR
  | OTHER (c : Nat)
deriving DecidableEq, Repr

mutual
/-- The `struct ast_expr`; `OTHER` stands for any tag the switch of
`analyze_expr` does not list.  A literal carries the integer `atoi` reads from
its text. -/
inductive Expr where
  | APP (name : AstPath) (args : ExprList)
  | BIN (op : Tok) (left right : Expr)
  | DEREF (deref : Expr)
  | IDX (path : AstPath) (expr : Expr)
  | LIT (lit : Int)
  | PATH (path : AstPath)
  | UN (op : Tok) (expr : Expr)
  | ADDROF (addrof : Expr)
  | OTHER
/-- A `struct list` of expressions. -/
inductive ExprList where
  | nil
  | cons (e : Expr) (rest : ExprList)
end

mutual
/-- The `struct ast_stmt`; `NULL` is the null pointer, `OTHER` any tag the switch
of `analyze_stmt` does not list. -/
inductive Stmt where
  | NULL
  | ASSIGN (lvalue rvalue : Expr)
  | FOR (id : String) (start end_ : Expr) (body : Stmt)
  | ITE (cond : Expr) (then_ elze : Stmt)
  | PROC (name : AstPath) (args : ExprList)
  | STMTS (stmts : StmtList)
  | WDO (cond : Expr) (body : Stmt)
  | OTHER
/-- A `struct list` of statements. -/
inductive StmtList where
  | nil
  | cons (s : Stmt) (rest : StmtList)
end

mutual
/-- The syntactic types (`struct ast_type`) a declaration can name. -/
inductive AstType where
  | SCALAR (tag : TypeTag)
  | REF (name : String)
  | POINTER (pointee : AstType)
  | ARRAY (lower upper : Int) (elt : AstType)
  | RECORD (fields : AstFieldList)
/-- The fields of a syntactic record type. -/
inductive AstFieldList where
  | nil
  | cons (name : String) (type : AstType) (rest : AstFieldList)
end

/-- The `struct ast_decls`: a declaration group `names : type`. -/
structure AstDecls where
  names : List String
  type : AstType

/-- The `struct ast_type_decl`. -/
structure AstTypeDecl where
  name : String
  type : AstType

/-- The head of a subprogram (`s->head->func`). -/
structure AstHead where
  type : SubKind
  args : List AstDecls
  retty : AstType

mutual
/-- The `struct ast_subdecl`. -/
inductive SubDecl where
  | mk (name : String) (head : AstHead) (types : List AstTypeDecl)
      (decls : List AstDecls) (subprogs : SubDeclList) (body : Stmt)
/-- A `struct list` of subprogram declarations. -/
inductive SubDeclList where
  | nil
  | cons (d : SubDecl) (rest : SubDeclList)
end

/-- The `struct ast_program`; `args` are the imports. -/
structure AstProgram where
  args : List String
  types : List AstTypeDecl
  decls : List AstDecls
  subprogs : SubDeclList
  body : Stmt

/-! ## Intermediate representation (translate.h) -/

/-- The opcodes (spec §3). -/
inductive Opcode where
  | LIT
  | SYMREF
  | ALLOC
  | LD
  | ST
  | ADD
  | SUB
  | MUL
  | DIV
  | MOD
  | AND
  | OR
  | NOT
  | EQ
  | NE
  | LT
  | GT
  | LE
  | GE
  | BR
  | CALL
  | FCALL
  | RET
deriving DecidableEq, Repr

/-- The `struct resu`: the instruction computing a value and its type id. -/
structure Resu where
  op : InsnPtr
  type : Nat
deriving DecidableEq, Repr

/-- What analysis.c writes in an operand position of `INSN(...)`, kept as
written at the call site. -/
inductive Operand where
  -- `NULL`, or no argument at this position.
  | null
  -- `ILIT(n)`.
  | ilit (n : Int)
  -- `IREG(i)`, that is `oper_new(OPER_REG, i)`.
  | reg (i : InsnPtr)
  -- `oper_new(OPER_LABEL, b)`.
  | label (b : Nat)
  -- `INSN_TRUE`.
  | tt
  -- A `struct insn *` given directly.
  | insn (i : InsnPtr)
  -- An integer given directly.
  | int (n : Int)
  -- A `struct cir_bb *` given directly.
  | bb (b : Nat)
  -- A string given directly.
  | str (s : String)
  -- A `struct ptrvec *` of results.
  | vec (v : List Resu)
  -- A `struct resu` given by value.
  | resu (r : Resu)
  -- A `struct cfunc *` given directly.
  | cfunc (f : Option Nat)
deriving DecidableEq, Repr

/-- The `struct insn`: an opcode and the operands `a`, `b`, `c`. -/
structure Insn where
  op : Opcode
  a : Operand
  b : Operand
  c : Operand
deriving DecidableEq, Repr

/-- The `struct cir_bb`: the instructions of a basic block, in emission order. -/
structure Bb where
  insns : List InsnPtr
deriving DecidableEq, Repr

/-- The `struct cfunc`: a compiled function. -/
structure Cfunc where
  name : Option String
  entry : Nat
  bbs : List Nat
  nest_depth : Int
  args : List AstDecls

/-! ## Analysis context -/

/-- A `struct stab_type *` as held in `acx->current_func`: null, the object `t`
on the stack of `analyze`, or an entry of the type table. -/
inductive FuncPtr where
  | null
  | local_t
  | entry (i : Nat)
deriving DecidableEq, Repr

/-- A diagnostic handed to the error sink: `err` for `span_err` and `ERR`,
`diag` for `span_diag`. -/
inductive Diag where
  | err (msg : String)
  | diag (msg : String)
deriving DecidableEq, Repr

/-- A scope operation, recorded when `stab_enter` or `stab_leave` runs. -/
inductive ScopeOp where
  | enter
  | leave
deriving DecidableEq, Repr

/-- The `struct acx` (fields `st`, `disp_offset`, `current_func`, `current_bb`,
`main`), the object `t` of `analyze` that `current_func` may point to, the heap
arenas (`insns`, `bbs`, `cfuncs`), and two records of what happened: `sink`
(the diagnostics reported so far) and `scope_ops` (the scope operations
performed so far). -/
structure Acx where
  st : Stab
  disp_offset : Int
  current_func : FuncPtr
  current_bb : Option Nat
  main : Option Nat
  t : StabType
  insns : List Insn
  bbs : List Bb
  cfuncs : List Cfunc
  sink : List Diag
  scope_ops : List ScopeOp

/-- Values the C code reads from storage it never wrote: `cty_type` is what
`analyze_stmt` finds in its local `cty.type`, `t_ty` what `analyze` leaves in
`t.ty`. -/
structure Indet where
  cty_type : Nat
  t_ty : StabResolvedType

/-- The operations of symbol.c that analysis.c consults for a decision and whose
source is not part of `src/`: `stab_has_local_var` and `stab_types_eq`. -/
structure SymOps where
  has_local_var : Stab → String → Bool
  types_eq : Stab → Nat → Nat → Bool

/-- A computation over the analysis context; `none` is a run that does not
return. -/
def M (α : Type) : Type := Acx → Option (α × Acx)

/-- Sequencing of computations. -/
def M.bind {α β : Type} (m : M α) (f : α → M β) : M β := fun σ =>
  match m σ with
  | none => none
  | some (a, σ1) => f a σ1

/-- A computation that returns `a` and leaves the context alone. -/
def M.pure {α : Type} (a : α) : M α := fun σ => some (a, σ)

instance : Monad M where
  pure := M.pure
  bind := M.bind

/-- The current context. -/
def getAcx : M Acx := fun σ => some (σ, σ)

/-- Replace the context by `f` of it. -/
def modifyAcx (f : Acx → Acx) : M Unit := fun σ => some ((), f σ)

/-- A run that does not return: `abort()`. -/
def abort {α : Type} : M α := fun _ => none

/-- Unwrap a pointer read; an invalid read does not return. -/
def orAbort {α : Type} : Option α → M α
  | none => abort
  | some a => M.pure a

/-! ## Heap and table primitives -/

/-- The macro `STAB_VAR(st, idx)`: the entry `idx` of the variable table. -/
def STAB_VAR (idx : Nat) : M StabVar := fun σ =>
  match σ.st.vars.get? idx with
  | none => none
  | some v => some (v, σ)

/-- The macro `STAB_TYPE(st, idx)`: the entry `idx` of the type table. -/
def STAB_TYPE (idx : Nat) : M StabType := fun σ =>
  match σ.st.types.get? idx with
  | none => none
  | some t => some (t, σ)

/-- Overwrite the entry `idx` of the variable table. -/
def set_var (idx : Nat) (v : StabVar) : M Unit :=
  modifyAcx fun σ => { σ with st := { σ.st with vars := σ.st.vars.set idx v } }

/-- The object a `struct stab_type *` points to. -/
def deref_func (p : FuncPtr) : M StabType := fun σ =>
  match p with
  | FuncPtr.null => none
  | FuncPtr.local_t => some (σ.t, σ)
  | FuncPtr.entry i =>
    match σ.st.types.get? i with
    | none => none
    | some t => some (t, σ)

/-- Overwrite the object a `struct stab_type *` points to. -/
def store_func (p : FuncPtr) (v : StabType) : M Unit := fun σ =>
  match p with
  | FuncPtr.null => none
  | FuncPtr.local_t => some ((), { σ with t := v })
  | FuncPtr.entry i => some ((), { σ with st := { σ.st with types := σ.st.types.set i v } })

/-- The `struct cfunc` behind a handle. -/
def deref_cfunc (c : Option Nat) : M Cfunc := fun σ =>
  match c with
  | none => none
  | some k =>
    match σ.cfuncs.get? k with
    | none => none
    | some f => some (f, σ)

/-- Overwrite the `struct cfunc` behind a handle. -/
def store_cfunc (c : Option Nat) (v : Cfunc) : M Unit := fun σ =>
  match c with
  | none => none
  | some k => some ((), { σ with cfuncs := σ.cfuncs.set k v })

/-- Modelled from the spec: `span_err` (util.h is not in `src/`) reports an
error to the sink and analysis continues (§7). -/
def span_err (msg : String) : M Unit :=
  modifyAcx fun σ => { σ with sink := σ.sink ++ [Diag.err msg] }

/-- Modelled from the spec: `span_diag` reports a diagnostic that is not an
error to the sink (§6). -/
def span_diag (msg : String) : M Unit :=
  modifyAcx fun σ => { σ with sink := σ.sink ++ [Diag.diag msg] }

/-- Modelled from the spec: `insn_new` (translate.h is not in `src/`) allocates
an instruction; its handle identifies its result (§3). -/
def insn_new (i : Insn) : M InsnPtr := fun σ =>
  some (InsnPtr.ptr σ.insns.length, { σ with insns := σ.insns ++ [i] })

/-- The call `ptrvec_push(bb->insns, i)`. -/
def bb_push (b : Option Nat) (i : InsnPtr) : M Unit := fun σ =>
  match b with
  | none => none
  | some k =>
    match σ.bbs.get? k with
    | none => none
    | some blk => some ((), { σ with bbs := σ.bbs.set k { insns := blk.insns ++ [i] } })

/-- Modelled from the spec: the macro `INSN(op, a, b, c)` (translate.h is not in
`src/`) appends a new instruction to the current block and returns its handle
(§4.C). -/
def INSN (op : Opcode) (a b c : Operand) : M InsnPtr := do
  let i ← insn_new { op := op, a := a, b := b, c := c }
  let σ ← getAcx
  bb_push σ.current_bb i
  pure i

/-- The assignment `i->b = o`. -/
def set_b (i : InsnPtr) (o : Operand) : M Unit := fun σ =>
  match i with
  | InsnPtr.ptr k =>
    match σ.insns.get? k with
    | none => none
    | some x => some ((), { σ with insns := σ.insns.set k { x with b := o } })
  | _ => none

/-- The assignment `i->c = o`. -/
def set_c (i : InsnPtr) (o : Operand) : M Unit := fun σ =>
  match i with
  | InsnPtr.ptr k =>
    match σ.insns.get? k with
    | none => none
    | some x => some ((), { σ with insns := σ.insns.set k { x with c := o } })
  | _ => none

/-- Modelled from the spec: `cir_bb()` (translate.h is not in `src/`) creates an
empty basic block. -/
def cir_bb : M Nat := fun σ =>
  some (σ.bbs.length, { σ with bbs := σ.bbs ++ [{ insns := [] }] })

/-- Modelled from the spec: `cfunc_new(NULL)` creates a compiled function that
owns one block, its entry (§3: a function owns an ordered list of basic blocks
with one designated entry block). -/
def cfunc_new : M Nat := do
  let e ← cir_bb
  fun σ => some (σ.cfuncs.length,
    { σ with cfuncs := σ.cfuncs ++
        [{ name := none, entry := e, bbs := [e], nest_depth := 0, args := [] }] })

/-- The two lines `acx->current_bb = cir_bb();
ptrvec_push(acx->current_func->cfunc->bbs, acx->current_bb);`; returns the new
block. -/
def new_current_bb : M Nat := do
  let b ← cir_bb
  modifyAcx fun σ => { σ with current_bb := some b }
  let σ ← getAcx
  let f ← deref_func σ.current_func
  let cf ← deref_cfunc f.cfunc
  store_cfunc f.cfunc { cf with bbs := cf.bbs ++ [b] }
  pure b

/-! ## Symbol table operations (symbol.c) -/

/-- Modelled from the spec: `stab_new` (symbol.c is not in `src/`) creates a
table with the well-known types pre-interned (§4.G step 1) and no scope. -/
def stab_new : Stab :=
  { vars := [],
    types :=
      [ { ty := StabResolvedType.ofTag TypeTag.TYPE_INTEGER, name := "integer",
          size := 8, align := 8, magic := 0, cfunc := none },
        { ty := StabResolvedType.ofTag TypeTag.TYPE_REAL, name := "real",
          size := 8, align := 8, magic := 0, cfunc := none },
        { ty := StabResolvedType.ofTag TypeTag.TYPE_STRING, name := "string",
          size := 8, align := 8, magic := 0, cfunc := none },
        { ty := StabResolvedType.ofTag TypeTag.TYPE_BOOLEAN, name := "boolean",
          size := 1, align := 1, magic := 0, cfunc := none },
        { ty := StabResolvedType.ofTag TypeTag.TYPE_CHAR, name := "char",
          size := 1, align := 1, magic := 0, cfunc := none },
        { ty := StabResolvedType.ofTag TypeTag.TYPE_VOID, name := "void",
          size := 1, align := 1, magic := 0, cfunc := none } ],
    chain := [] }

/-- Modelled from the spec: `stab_enter` pushes a scope (§4.B). -/
def stab_enter : M Unit :=
  modifyAcx fun σ =>
    { σ with
      st := { σ.st with chain := σ.st.chain ++ [{ vars := [], funcs := [], types := [] }] },
      scope_ops := σ.scope_ops ++ [ScopeOp.enter] }

/-- Modelled from the spec: `stab_leave` pops a scope (§4.B). -/
def stab_leave : M Unit :=
  modifyAcx fun σ =>
    { σ with
      st := { σ.st with chain := σ.st.chain.dropLast },
      scope_ops := σ.scope_ops ++ [ScopeOp.leave] }

/-- Modelled from the spec: `stab_resolve_var` walks the chain from the
innermost scope to the outermost (§4.B); `none` is `RESOLVE_FAILURE`. -/
def stab_resolve_var (st : Stab) (name : String) : Option Nat :=
  st.chain.reverse.findSome? fun sc => sc.vars.lookup name

/-- Modelled from the spec: `stab_resolve_func`, as `stab_resolve_var` on the
function bindings. -/
def stab_resolve_func (st : Stab) (name : String) : Option Nat :=
  st.chain.reverse.findSome? fun sc => sc.funcs.lookup name

/-- Modelled from the spec: `stab_resolve_type_name`, as `stab_resolve_var` on
the type bindings. -/
def stab_resolve_type_name (st : Stab) (name : String) : Option Nat :=
  st.chain.reverse.findSome? fun sc => sc.types.lookup name

/-- The scopes `stab_has_local_var` looks in, innermost first: up to and
including the first scope that binds a variable. -/
def local_scopes : List StabScope → List StabScope
  | [] => []
  | sc :: rest => if sc.vars.isEmpty then sc :: local_scopes rest else [sc]

/-- Modelled from the spec: `stab_has_local_var` tells whether the variable is
bound in the innermost function's accessible scopes (§4.B).  analysis.c enters a
scope for a subprogram, where it binds at least the return slot, and for a
`for` loop, where it binds nothing; the scopes of the innermost function are
therefore the scopes from the innermost outwards up to and including the first
one that binds a variable. -/
def stab_has_local_var (st : Stab) (name : String) : Bool :=
  (local_scopes st.chain.reverse).any fun sc => (sc.vars.lookup name).isSome

/-- Structural equality of two type entries, to a given depth. -/
def types_eq_depth (ts : List StabType) (vs : List StabVar) : Nat → Nat → Nat → Bool
  | 0, a, b => a == b
  | n + 1, a, b =>
    a == b ||
    match ts.get? a, ts.get? b with
    | some x, some y =>
      x.ty.tag == y.ty.tag &&
      match x.ty.tag with
      | TypeTag.TYPE_ARRAY =>
        x.ty.array_lower == y.ty.array_lower && x.ty.array_upper == y.ty.array_upper &&
        types_eq_depth ts vs n x.ty.array_elt_type y.ty.array_elt_type
      | TypeTag.TYPE_POINTER => types_eq_depth ts vs n x.ty.pointer y.ty.pointer
      | TypeTag.TYPE_RECORD =>
        x.ty.record_fields.length == y.ty.record_fields.length &&
        (x.ty.record_fields.zip y.ty.record_fields).all fun fg =>
          fg.1.name == fg.2.name && types_eq_depth ts vs n fg.1.type fg.2.type
      | TypeTag.TYPE_FUNCTION =>
        x.ty.func_type == y.ty.func_type &&
        x.ty.func_args.length == y.ty.func_args.length &&
        ((x.ty.func_args.zip y.ty.func_args).all fun ab =>
          match vs.get? ab.1, vs.get? ab.2 with
          | some u, some w => types_eq_depth ts vs n u.type w.type
          | _, _ => false) &&
        types_eq_depth ts vs n x.ty.func_retty y.ty.func_retty
      | _ => true
    | _, _ => false

/-- Modelled from the spec: `stab_types_eq` is identity or structural equality,
tag match and recursive payload equality (§4.A). -/
def stab_types_eq (st : Stab) (a b : Nat) : Bool :=
  types_eq_depth st.types st.vars st.types.length a b

/-- The two operations, as modelled from the spec. -/
def specOps : SymOps :=
  { has_local_var := stab_has_local_var, types_eq := stab_types_eq }

/-- The innermost scope, `list_last(st->chain)`. -/
def top_scope : M StabScope := fun σ =>
  match σ.st.chain.getLast? with
  | none => none
  | some sc => some (sc, σ)

/-- Replace the innermost scope `sc` by `f sc`. -/
def modify_top_scope (f : StabScope → StabScope) : M Unit := fun σ =>
  match σ.st.chain.getLast? with
  | none => none
  | some sc =>
    some ((), { σ with st := { σ.st with chain := σ.st.chain.dropLast ++ [f sc] } })

/-- Append an entry to the type table and return its index (`ptrvec_push`). -/
def push_type (t : StabType) : M Nat := fun σ =>
  some (σ.st.types.length, { σ with st := { σ.st with types := σ.st.types ++ [t] } })

/-- Append an entry to the variable table and return its index. -/
def push_var (v : StabVar) : M Nat := fun σ =>
  some (σ.st.vars.length, { σ with st := { σ.st with vars := σ.st.vars ++ [v] } })

/-- Modelled from the spec: `stab_add_var` inserts into the top scope, a
duplicate in the top scope is an error and is rejected (§4.B, §7); the new
variable is not captured and its `loc` is a fresh `ALLOC` (§3). -/
def stab_add_var (name : String) (type : Nat) (address_taken : Bool) : M Unit := do
  let sc ← top_scope
  if (sc.vars.lookup name).isSome then
    span_err "duplicate variable"
  else
    let t ← STAB_TYPE type
    let loc ← insn_new { op := Opcode.ALLOC, a := Operand.int t.size, b := Operand.null,
                         c := Operand.null }
    let idx ← push_var { type := type, name := name, address_taken := address_taken,
                         captured := false, disp_offset := 0, loc := loc }
    modify_top_scope fun sc => { sc with vars := sc.vars ++ [(name, idx)] }

/-- The well-known type id of a scalar tag. -/
def scalar_type_idx : TypeTag → Option Nat
  | TypeTag.TYPE_INTEGER => some INTEGER_TYPE_IDX
  | TypeTag.TYPE_REAL => some REAL_TYPE_IDX
  | TypeTag.TYPE_STRING => some STRING_TYPE_IDX
  | TypeTag.TYPE_BOOLEAN => some BOOLEAN_TYPE_IDX
  | TypeTag.TYPE_CHAR => some CHAR_TYPE_IDX
  | TypeTag.TYPE_VOID => some VOID_TYPE_IDX
  | _ => none

mutual
/-- Modelled from the spec: `stab_resolve_type` interns a syntactic type (§4.A):
a scalar is its well-known id, a named reference is looked up in the scope
chain, and a pointer, array or record gets a new entry with the size of §3. -/
def stab_resolve_type (name : String) : AstType → M Nat
  | AstType.SCALAR tag => orAbort (scalar_type_idx tag)
  | AstType.REF n => do
    let σ ← getAcx
    match stab_resolve_type_name σ.st n with
    | some i => pure i
    | none => do
      span_err "unresolved type"
      abort
  | AstType.POINTER pointee => do
    let p ← stab_resolve_type name pointee
    push_type { ty := { StabResolvedType.ofTag TypeTag.TYPE_POINTER with pointer := p },
                name := name, size := ABI_POINTER_SIZE, align := ABI_POINTER_ALIGN,
                magic := 0, cfunc := none }
  | AstType.ARRAY lower upper elt => do
    let e ← stab_resolve_type name elt
    push_type { ty := { StabResolvedType.ofTag TypeTag.TYPE_ARRAY with
                          array_lower := lower, array_upper := upper, array_elt_type := e },
                name := name, size := 8, align := 8, magic := 0, cfunc := none }
  | AstType.RECORD fields => do
    let fs ← stab_resolve_fields name fields
    push_type { ty := { StabResolvedType.ofTag TypeTag.TYPE_RECORD with record_fields := fs },
                name := name, size := 64, align := 8, magic := 0, cfunc := none }
/-- The fields of a record, interned in declaration order. -/
def stab_resolve_fields (name : String) : AstFieldList → M (List StabRecordField)
  | AstFieldList.nil => pure []
  | AstFieldList.cons f type rest => do
    let t ← stab_resolve_type name type
    let fs ← stab_resolve_fields name rest
    pure ({ name := f, type := t } :: fs)
end

/-- Modelled from the spec: `stab_add_type` interns the type and binds the name
in the top scope; a duplicate in the top scope is an error and is rejected
(§4.B). -/
def stab_add_type (name : String) (type : AstType) : M Unit := do
  let sc ← top_scope
  if (sc.types.lookup name).isSome then
    span_err "duplicate type"
  else
    let idx ← stab_resolve_type name type
    modify_top_scope fun sc => { sc with types := sc.types ++ [(name, idx)] }

/-- Add each name of a list as a variable of type `type`. -/
def stab_add_names (type : Nat) (address_taken : Bool) : List String → M Unit
  | [] => pure ()
  | n :: rest => do
    stab_add_var n type address_taken
    stab_add_names type address_taken rest

/-- Modelled from the spec: `stab_add_decls` interns the type of a declaration
group once and adds each name (§4.B). -/
def stab_add_decls (d : AstDecls) (address_taken : Bool) : M Unit := do
  let t ← stab_resolve_type "" d.type
  stab_add_names t address_taken d.names

/-- The variable ids recording the formals of one declaration group of a
subprogram head; they are bound in no scope. -/
def stab_formal_names (type : Nat) : List String → M (List Nat)
  | [] => pure []
  | n :: rest => do
    let idx ← push_var { type := type, name := n, address_taken := false,
                         captured := false, disp_offset := 0, loc := InsnPtr.null }
    let ids ← stab_formal_names type rest
    pure (idx :: ids)

/-- The variable ids recording the formals of a subprogram head. -/
def stab_formals : List AstDecls → M (List Nat)
  | [] => pure []
  | d :: rest => do
    let t ← stab_resolve_type "" d.type
    let ids ← stab_formal_names t d.names
    let more ← stab_formals rest
    pure (ids ++ more)

/-- Modelled from the spec: `stab_add_func` binds the name in the function map
of the top scope, a duplicate there is an error and is rejected (§4.B); the new
entry is a FUNCTION type with its kind, formal-parameter variable ids, return
type, `ret_assigned = false`, a new compiled function and no magic (§3). -/
def stab_add_func (name : String) (head : AstHead) : M Unit := do
  let sc ← top_scope
  if (sc.funcs.lookup name).isSome then
    span_err "duplicate function"
  else
    let formals ← stab_formals head.args
    let retty ← stab_resolve_type "" head.retty
    let c ← cfunc_new
    let idx ← push_type
      { ty := { StabResolvedType.ofTag TypeTag.TYPE_FUNCTION with
                  func_type := head.type, func_args := formals, func_retty := retty,
                  func_ret_assigned := false },
        name := name, size := 8, align := 8, magic := 0, cfunc := some c }
    modify_top_scope fun sc => { sc with funcs := sc.funcs ++ [(name, idx)] }

/-- The source-language name of a built-in. -/
def magic_name (tag : Nat) : String :=
  if tag = MAGIC_READ then "read"
  else if tag = MAGIC_READLN then "readln"
  else if tag = MAGIC_WRITE then "write"
  else "writeln"

/-- Modelled from the spec: `stab_add_magic_func` registers a built-in with a
magic discriminator (§4.B), as a function binding of the top scope. -/
def stab_add_magic_func (tag : Nat) : M Unit := do
  let sc ← top_scope
  if (sc.funcs.lookup (magic_name tag)).isSome then
    span_err "duplicate function"
  else
    let idx ← push_type
      { ty := { StabResolvedType.ofTag TypeTag.TYPE_FUNCTION with func_retty := VOID_TYPE_IDX },
        name := magic_name tag, size := 8, align := 8, magic := tag, cfunc := none }
    modify_top_scope fun sc => { sc with funcs := sc.funcs ++ [(magic_name tag, idx)] }

/-! ## analysis.c -/

/-- The function `size_of_type` (analysis.c:10). -/
def size_of_type (idx : Nat) : M Int := do
  let t ← STAB_TYPE idx
  match t.ty.tag with
  | TypeTag.TYPE_ARRAY => pure 8
  | TypeTag.TYPE_BOOLEAN => pure 1
  | TypeTag.TYPE_CHAR => pure 1
  | TypeTag.TYPE_FUNCTION => pure 8
  | TypeTag.TYPE_INTEGER => pure 8
  | TypeTag.TYPE_POINTER => pure 8
  | TypeTag.TYPE_REAL => pure 8
  | TypeTag.TYPE_RECORD => pure 64
  | TypeTag.TYPE_REF => do
    span_err "What is a TYPE_REF doing in size_of_type?"
    pure 0
  | TypeTag.TYPE_STRING => pure 8
  | TypeTag.TYPE_VOID => pure 1

/-- The function `register_input` (analysis.c:41). -/
def register_input : M Unit := do
  stab_add_magic_func MAGIC_READLN
  stab_add_magic_func MAGIC_READ

/-- The function `register_output` (analysis.c:46). -/
def register_output : M Unit := do
  stab_add_magic_func MAGIC_WRITELN
  stab_add_magic_func MAGIC_WRITE

/-- The function `do_imports` (analysis.c:51), on the list `prog->args`.
`strcmp` is non-zero exactly when its arguments differ. -/
def do_imports : List String → M Unit
  | [] => pure ()
  | imp :: rest => do
    (if imp ≠ "input" then
      register_input
    else if imp ≠ "output" then
      register_output
    else
      span_err "no such library: `%s`")
    do_imports rest

/-- The inner loop of `type_of_path` (analysis.c:105): look for the field `n`
among `fields`, adding up in `offset` the sizes of the fields passed over.  On a
match it emits `ADD(IREG(loc), ILIT(offset))` and returns the field's type
entry (the new `idx` and `ty`); `none` is `foundit == false`. -/
def find_field (n : String) (loc : InsnPtr) :
    List StabRecordField → Int → M (Option (Nat × StabType))
  | [], _ => pure none
  | f :: rest, offset =>
    if f.name = n then do
      let ty ← STAB_TYPE f.type
      let _a ← INSN Opcode.ADD (Operand.reg loc) (Operand.ilit offset) Operand.null
      pure (some (f.type, ty))
    else do
      let sz ← size_of_type f.type
      find_field n loc rest (offset + sz)

/-- The outer loop of `type_of_path` (analysis.c:98) over the components after
the first; `ty` is the type entry the C variable `ty` points to.  `LFOREACH` is
a macro of the list header, which is not part of `src/`: its loop variable
`temp` is taken to be the current list node, so `temp->next` is non-null exactly
when the component is not the last one. -/
def path_components (loc : InsnPtr) : List String → StabType → M Unit
  | [], _ => pure ()
  | n :: rest, ty =>
    if ty.ty.tag ≠ TypeTag.TYPE_RECORD ∧ rest ≠ [] then do
      span_err "tried to access field `%s` of non-record type"
      path_components loc rest ty
    else if rest ≠ [] then do
      let r ← find_field n loc ty.ty.record_fields 0
      match r with
      | some (_, fty) => path_components loc rest fty
      | none => do
        span_err "could not find field `%s` in record"
        path_components loc rest ty
    else
      path_components loc rest ty

/-- The lines 82 to 85 of `type_of_path`: mark the variable `idx` captured and
give it the next display offset, unless it is captured already. -/
def capture_var (idx : Nat) : M Unit := do
  let v ← STAB_VAR idx
  if ¬ v.captured then do
    let σ ← getAcx
    set_var idx { v with captured := true, disp_offset := σ.disp_offset }
    modifyAcx fun σ => { σ with disp_offset := σ.disp_offset + 1 }
  else
    pure ()

/-- The lines 86 to 89 of `type_of_path`: the address of the captured variable
`idx`, loaded from its display slot. -/
def display_address (idx : Nat) : M InsnPtr := do
  let disp ← INSN Opcode.SYMREF (Operand.str "@display@") Operand.null Operand.null
  let v ← STAB_VAR idx
  let a ← INSN Opcode.ADD (Operand.reg disp)
    (Operand.ilit (v.disp_offset * ABI_POINTER_ALIGN)) Operand.null
  INSN Opcode.LD (Operand.insn a) (Operand.int ABI_POINTER_SIZE) Operand.null

/-- The function `type_of_path` (analysis.c:64).  `CHKRESV` does not return when
the head identifier does not resolve. -/
def type_of_path (ops : SymOps) (p : AstPath) : M Resu := do
  let name ← orAbort p.components.head?
  let σ ← getAcx
  let idx ← orAbort (stab_resolve_var σ.st name)
  let loc ← (if ¬ ops.has_local_var σ.st name then do
               capture_var idx
               display_address idx
             else do
               let v ← STAB_VAR idx
               pure v.loc)
  let v ← STAB_VAR idx
  let ty ← STAB_TYPE v.type
  path_components loc p.components.tail ty
  pure { op := loc, type := v.type }

/-- The function `is_relop`: the relational operators (spec §4.D). -/
def is_relop : Tok → Bool
  | Tok.EQ => true
  | Tok.NEQ => true
  | Tok.LT => true
  | Tok.GT => true
  | Tok.LE => true
  | Tok.GE => true
  | _ => false

/-- The switch on the operator in the `EXPR_BIN` case (analysis.c:290). -/
def bin_insn (op : Tok) (left right : Operand) : M InsnPtr :=
  match op with
  | Tok.AND => INSN Opcode.AND left right Operand.null
  | Tok.OR => INSN Opcode.OR left right Operand.null
  | Tok.NOT => INSN Opcode.NOT left right Operand.null
  | Tok.EQ => INSN Opcode.EQ left right Operand.null
  | Tok.NEQ => INSN Opcode.NE left right Operand.null
  | Tok.LT => INSN Opcode.LT left right Operand.null
  | Tok.GT => INSN Opcode.GT left right Operand.null
  | Tok.LE => INSN Opcode.LE left right Operand.null
  | Tok.GE => INSN Opcode.GE left right Operand.null
  | Tok.DIV => INSN Opcode.DIV left right Operand.null
  | Tok.SLASH => INSN Opcode.DIV left right Operand.null
  | Tok.MOD => INSN Opcode.MOD left right Operand.null
  | Tok.PLUS => INSN Opcode.ADD left right Operand.null
  | Tok.MINUS => INSN Opcode.SUB left right Operand.null
  | Tok.STAR => INSN Opcode.MUL left right Operand.null
  | Tok.OTHER _ => do
    span_err "unsupported binary operation token %d! (`%c`)"
    pure InsnPtr.null

/-- The callee chosen by the switch of the write branch of `analyze_magic`
(analysis.c:135); `none` is the `default` case, which aborts. -/
def write_callee (type : Nat) : Option String :=
  if type = INTEGER_TYPE_IDX then some "@write_integer@"
  else if type = REAL_TYPE_IDX then some "@write_real@"
  else if type = STRING_TYPE_IDX then some "@write_string@"
  else if type = BOOLEAN_TYPE_IDX then some "@write_bool@"
  else if type = CHAR_TYPE_IDX then some "@write_char@"
  else if type = VOID_TYPE_IDX then some "@write_void@"
  else none

/-- The callee chosen by the switch of the read branch of `analyze_magic`
(analysis.c:176). -/
def read_callee (type : Nat) : Option String :=
  if type = INTEGER_TYPE_IDX then some "@read_integer@"
  else if type = REAL_TYPE_IDX then some "@read_real@"
  else if type = STRING_TYPE_IDX then some "@read_string@"
  else if type = BOOLEAN_TYPE_IDX then some "@read_bool@"
  else if type = CHAR_TYPE_IDX then some "@read_char@"
  else if type = VOID_TYPE_IDX then some "@read_void@"
  else none

/-- The test `e->tag != EXPR_IDX && e->tag != EXPR_DEREF && e->tag != EXPR_PATH`
(analysis.c:168). -/
def not_lvalue_form : Expr → Bool
  | Expr.IDX _ _ => false
  | Expr.DEREF _ => false
  | Expr.PATH _ => false
  | _ => true

/-- The member `e->path` of the union in `struct ast_expr`, which analysis.c
reads for the tags `EXPR_PATH` and `EXPR_IDX` (analysis.c:399); for another tag
the read is of an inactive member and has no value. -/
def Expr.path_member : Expr → Option AstPath
  | Expr.PATH p => some p
  | Expr.IDX p _ => some p
  | _ => none

/-- The number of elements of a list of expressions (`args->length`). -/
def ExprList.length : ExprList → Nat
  | ExprList.nil => 0
  | ExprList.cons _ rest => rest.length + 1

mutual
/-- The function `analyze_expr` (analysis.c:257). -/
def analyze_expr (ops : SymOps) : Expr → M Resu
  | Expr.APP name args => analyze_call ops name args
  | Expr.BIN op l r => do
    let lty ← analyze_expr ops l
    let rty ← analyze_expr ops r
    (if lty.type ≠ rty.type then do
      span_diag "left:"
      span_diag "right:"
      span_err "incompatible types for binary operation"
    else pure ())
    let i ← bin_insn op (Operand.reg lty.op) (Operand.reg rty.op)
    pure { op := i, type := if is_relop op then BOOLEAN_TYPE_IDX else lty.type }
  | Expr.DEREF d => do
    let p ← orAbort d.path_member
    let pathty ← type_of_path ops p
    let st ← STAB_TYPE pathty.type
    (if st.ty.tag ≠ TypeTag.TYPE_POINTER then
      span_err "tried to dereference non-pointer"
    else pure ())
    let sz ← size_of_type pathty.type
    let i ← INSN Opcode.LD (Operand.insn pathty.op) (Operand.int sz) Operand.null
    pure { op := i, type := st.ty.pointer }
  | Expr.IDX path e => do
    let pathty ← type_of_path ops path
    let pt ← STAB_TYPE pathty.type
    (if pt.ty.tag ≠ TypeTag.TYPE_ARRAY then
      span_err ""
    else pure ())
    let ety ← analyze_expr ops e
    (if ety.type ≠ INTEGER_TYPE_IDX then
      span_err "tried to index array with non-integer"
    else pure ())
    let sz ← size_of_type pt.ty.array_elt_type
    let m ← INSN Opcode.MUL (Operand.resu ety) (Operand.int sz) Operand.null
    let i ← INSN Opcode.ADD (Operand.insn pathty.op) (Operand.insn m) Operand.null
    pure { op := i, type := pt.ty.array_elt_type }
  | Expr.LIT n => do
    let i ← INSN Opcode.LIT (Operand.ilit n) Operand.null Operand.null
    pure { op := i, type := INTEGER_TYPE_IDX }
  | Expr.PATH p => type_of_path ops p
  | Expr.UN op e => do
    let ety ← analyze_expr ops e
    (if op ≠ Tok.NOT ∧ (ety.type ≠ INTEGER_TYPE_IDX ∨ ety.type ≠ REAL_TYPE_IDX) then
      span_err "tried to apply unary +/- to a non-number"
    else if ety.type ≠ BOOLEAN_TYPE_IDX then
      span_err "tried to boolean-NOT a non-boolean"
    else pure ())
    pure { op := InsnPtr.undef, type := ety.type }
  | Expr.ADDROF e => do
    let ety ← analyze_expr ops e
    let pointee ← STAB_TYPE ety.type
    let idx ← push_type
      { ty := { StabResolvedType.ofTag TypeTag.TYPE_POINTER with pointer := ety.type },
        name := pointee.name, size := ABI_POINTER_SIZE, align := ABI_POINTER_ALIGN,
        magic := 0, cfunc := none }
    pure { op := InsnPtr.undef, type := idx }
  | Expr.OTHER => abort
/-- The function `analyze_call` (analysis.c:209).  The `assert` and `CHKRESF` do
not return when they fail; `ERR` reports an error. -/
def analyze_call (ops : SymOps) (p : AstPath) : ExprList → M Resu
  | args =>
    if p.components.length ≠ 1 then abort
    else do
      let name ← orAbort p.components.getLast?
      let σ ← getAcx
      let pty ← orAbort (stab_resolve_func σ.st name)
      let pt ← STAB_TYPE pty
      if pt.magic ≠ 0 then do
        analyze_magic ops pt.magic args
        pure { op := InsnPtr.undef, type := VOID_TYPE_IDX }
      else do
        (if pt.ty.tag ≠ TypeTag.TYPE_FUNCTION then
          span_err "which cannot be called.\n"
        else pure ())
        (if args.length ≠ pt.ty.func_args.length then
          span_err "wanted %ld, given %ld"
        else pure ())
        let irargs ← call_args ops args pt.ty.func_args 0
        let i ← INSN Opcode.CALL (Operand.cfunc pt.cfunc) (Operand.vec irargs) Operand.null
        pure { op := i, type := pt.ty.func_retty }
/-- The loop `LFOREACH2` of `analyze_call` (analysis.c:237), which walks the
arguments and the formals together; it returns the vector `irargs`. -/
def call_args (ops : SymOps) : ExprList → List Nat → Nat → M (List Resu)
  | ExprList.nil, _, _ => pure []
  | ExprList.cons _ _, [], _ => pure []
  | ExprList.cons e rest, ft :: formals, i => do
    let et ← analyze_expr ops e
    let σ ← getAcx
    let fv ← STAB_VAR ft
    (if ¬ ops.types_eq σ.st et.type fv.type then
      span_diag "type of argument %d doesn't match declaration;"
    else pure ())
    let more ← call_args ops rest formals (i + 1)
    pure (et :: more)
/-- The function `analyze_magic` (analysis.c:129). -/
def analyze_magic (ops : SymOps) (which : Nat) : ExprList → M Unit
  | args =>
    if which = MAGIC_WRITELN ∨ which = MAGIC_WRITE then do
      magic_write_args ops args
      if which = MAGIC_WRITELN then do
        let _i ← INSN Opcode.FCALL (Operand.str "@write_newline@") Operand.null Operand.null
        pure ()
      else pure ()
    else if which = MAGIC_READ ∨ which = MAGIC_READLN then
      magic_read_args ops args
    else
      abort
/-- The loop of the write branch of `analyze_magic` (analysis.c:131). -/
def magic_write_args (ops : SymOps) : ExprList → M Unit
  | ExprList.nil => pure ()
  | ExprList.cons e rest => do
    let r ← analyze_expr ops e
    let callit ← orAbort (write_callee r.type)
    let _i ← INSN Opcode.FCALL (Operand.str callit) (Operand.vec [r]) Operand.null
    magic_write_args ops rest
/-- The loop of the read branch of `analyze_magic` (analysis.c:167). -/
def magic_read_args (ops : SymOps) : ExprList → M Unit
  | ExprList.nil => pure ()
  | ExprList.cons e rest => do
    (if not_lvalue_form e then
      span_err "but read/ln must be called with lvalues"
    else pure ())
    let r ← analyze_expr ops e
    let callit ← orAbort (read_callee r.type)
    let _i ← INSN Opcode.FCALL (Operand.str callit) (Operand.vec [r]) Operand.null
    magic_read_args ops rest
end

/-- The assignment `acx->current_func->ty.func.ret_assigned = true`
(analysis.c:418). -/
def set_ret_assigned : M Unit := do
  let σ ← getAcx
  let cf ← deref_func σ.current_func
  store_func σ.current_func { cf with ty := { cf.ty with func_ret_assigned := true } }

/-- The statements of `check_assignability` after its switch (analysis.c:412),
for the expression `e`; they read `e->path->components->inner.elt`. -/
def check_assignability_tail (ops : SymOps) (e : Expr) : M Unit := do
  let σ ← getAcx
  let cf ← deref_func σ.current_func
  let p ← orAbort e.path_member
  let elt ← orAbort p.components.head?
  (if cf.ty.func_type = SubKind.SUB_FUNCTION ∧ ¬ ops.has_local_var σ.st elt then
    span_err "assigned to non-local in function"
  else pure ())
  if cf.name = elt then set_ret_assigned else pure ()

/-- The function `check_assignability` (analysis.c:387) on an expression of tag
`EXPR_PATH`. -/
def check_assignability_path (ops : SymOps) (p : AstPath) : M (Option AstPath) := do
  let σ ← getAcx
  if σ.current_func = FuncPtr.null then
    pure none
  else do
    check_assignability_tail ops (Expr.PATH p)
    pure (some p)

/-- The function `check_assignability` (analysis.c:387).  For `EXPR_IDX` the
recursive call is on the local `temp`, an expression of tag `EXPR_PATH` holding
`e->path`. -/
def check_assignability (ops : SymOps) : Expr → M (Option AstPath)
  | Expr.PATH p => check_assignability_path ops p
  | Expr.IDX p e => do
    let σ ← getAcx
    if σ.current_func = FuncPtr.null then
      pure none
    else do
      let root ← check_assignability_path ops p
      check_assignability_tail ops (Expr.IDX p e)
      pure root
  | Expr.DEREF d => do
    let σ ← getAcx
    if σ.current_func = FuncPtr.null then
      pure none
    else do
      let root ← check_assignability ops d
      check_assignability_tail ops (Expr.DEREF d)
      pure root
  | Expr.APP _ _ => do
    let σ ← getAcx
    if σ.current_func = FuncPtr.null then pure none else abort
  | Expr.BIN _ _ _ => do
    let σ ← getAcx
    if σ.current_func = FuncPtr.null then pure none else abort
  | Expr.LIT _ => do
    let σ ← getAcx
    if σ.current_func = FuncPtr.null then pure none else abort
  | Expr.UN _ _ => do
    let σ ← getAcx
    if σ.current_func = FuncPtr.null then pure none else abort
  | Expr.ADDROF _ => do
    let σ ← getAcx
    if σ.current_func = FuncPtr.null then pure none else abort
  | Expr.OTHER => do
    let σ ← getAcx
    if σ.current_func = FuncPtr.null then pure none else abort

mutual
/-- The function `analyze_stmt` (analysis.c:424).  `u.cty_type` is the value of
the local `cty.type` before anything is stored in it. -/
def analyze_stmt (ops : SymOps) (u : Indet) : Stmt → M Unit
  | Stmt.NULL => pure ()
  | Stmt.ASSIGN lvalue rvalue => do
    let lty ← analyze_expr ops lvalue
    let _root ← check_assignability ops lvalue
    let rty ← analyze_expr ops rvalue
    let σ ← getAcx
    (if ¬ ops.types_eq σ.st rty.type lty.type then
      span_err "cannot assign incompatible type"
    else pure ())
    let sz ← size_of_type rty.type
    let _i ← INSN Opcode.ST (Operand.insn lty.op) (Operand.insn rty.op) (Operand.int sz)
    pure ()
  | Stmt.FOR _ start end_ body => do
    let sty ← analyze_expr ops start
    let ety ← analyze_expr ops end_
    (if sty.type ≠ INTEGER_TYPE_IDX then
      span_err "type of start not integer"
    else if ety.type ≠ INTEGER_TYPE_IDX then
      span_err "type of end not integer"
    else pure ())
    stab_enter
    let it ← STAB_TYPE INTEGER_TYPE_IDX
    let i1 ← INSN Opcode.ALLOC (Operand.int it.size) Operand.null Operand.null
    let sz ← size_of_type INTEGER_TYPE_IDX
    let _st ← INSN Opcode.ST (Operand.insn i1) (Operand.insn sty.op) (Operand.int sz)
    let i2 ← INSN Opcode.BR Operand.tt Operand.null Operand.null
    let l0 ← new_current_bb
    let sz ← size_of_type INTEGER_TYPE_IDX
    let i3 ← INSN Opcode.LD (Operand.insn i1) (Operand.int sz) Operand.null
    let i4 ← INSN Opcode.LT (Operand.insn i3) (Operand.insn ety.op) Operand.null
    let _br ← INSN Opcode.BR (Operand.insn i4) Operand.null Operand.null
    let l1 ← new_current_bb
    analyze_stmt ops u body
    let i5 ← INSN Opcode.ADD (Operand.insn i3) (Operand.ilit 1) Operand.null
    let sz ← size_of_type INTEGER_TYPE_IDX
    let _st ← INSN Opcode.ST (Operand.insn i1) (Operand.insn i5) (Operand.int sz)
    let _br ← INSN Opcode.BR Operand.tt (Operand.bb l0) Operand.null
    let l2 ← new_current_bb
    set_b i2 (Operand.label l0)
    set_b i4 (Operand.label l1)
    set_c i4 (Operand.label l2)
    stab_leave
  | Stmt.ITE cond then_ elze => do
    let cty ← analyze_expr ops cond
    (if cty.type ≠ BOOLEAN_TYPE_IDX then
      span_err "type of if condition not boolean"
    else pure ())
    let i1 ← INSN Opcode.BR (Operand.insn cty.op) Operand.null Operand.null
    let l0 ← new_current_bb
    analyze_stmt ops u then_
    let i2 ← INSN Opcode.BR Operand.tt Operand.null Operand.null
    let l1 ← new_current_bb
    analyze_stmt ops u elze
    let i3 ← INSN Opcode.BR Operand.tt Operand.null Operand.null
    let l2 ← new_current_bb
    set_b i1 (Operand.label l0)
    set_c i1 (Operand.label l1)
    set_b i2 (Operand.label l2)
    set_b i3 (Operand.label l2)
  | Stmt.PROC name args => do
    let _r ← analyze_call ops name args
    pure ()
  | Stmt.STMTS stmts => analyze_stmts ops u stmts
  | Stmt.WDO cond body => do
    (if u.cty_type ≠ BOOLEAN_TYPE_IDX then
      span_err "type of while condition not boolean"
    else pure ())
    let l0 ← new_current_bb
    let cty ← analyze_expr ops cond
    let i1 ← INSN Opcode.BR (Operand.insn cty.op) Operand.null Operand.null
    let l1 ← new_current_bb
    analyze_stmt ops u body
    let _br ← INSN Opcode.BR Operand.tt (Operand.label l0) Operand.null
    let l2 ← new_current_bb
    set_b i1 (Operand.label l1)
    set_c i1 (Operand.label l2)
  | Stmt.OTHER => abort
/-- The loop of the `STMT_STMTS` case (analysis.c:561). -/
def analyze_stmts (ops : SymOps) (u : Indet) : StmtList → M Unit
  | StmtList.nil => pure ()
  | StmtList.cons s rest => do
    analyze_stmt ops u s
    analyze_stmts ops u rest
end

/-- The name of a subprogram declaration (`d->name`). -/
def SubDecl.name : SubDecl → String
  | SubDecl.mk name _ _ _ _ _ => name

/-- The head of a subprogram declaration (`d->head`). -/
def SubDecl.head : SubDecl → AstHead
  | SubDecl.mk _ head _ _ _ _ => head

/-- The subprograms nested in a subprogram declaration (`d->subprogs`). -/
def SubDecl.subprogs : SubDecl → SubDeclList
  | SubDecl.mk _ _ _ _ subprogs _ => subprogs

/-- The body of a subprogram declaration (`d->body`). -/
def SubDecl.body : SubDecl → Stmt
  | SubDecl.mk _ _ _ _ _ body => body

/-- The loop `LFOREACH(struct ast_type_decl *t, types) stab_add_type(...)`. -/
def add_types : List AstTypeDecl → M Unit
  | [] => pure ()
  | t :: rest => do
    stab_add_type t.name t.type
    add_types rest

/-- The loop `LFOREACH(struct ast_decls *d, decls) stab_add_decls(...)`. -/
def add_decls : List AstDecls → Bool → M Unit
  | [], _ => pure ()
  | d :: rest, address_taken => do
    stab_add_decls d address_taken
    add_decls rest address_taken

/-- The loop `HFOREACH` that pushes the `loc` of every variable of the innermost
scope into the current block (analysis.c:637, 721); the table is walked in
insertion order. -/
def push_locs : List (String × Nat) → M Unit
  | [] => pure ()
  | ent :: rest => do
    let v ← STAB_VAR ent.2
    let σ ← getAcx
    bb_push σ.current_bb v.loc
    push_locs rest

/-- The loop `HFOREACH` that emits the display prelude (analysis.c:653, 726);
`disp` is the local of that name and `ld_b` what the source gives `INSN(LD,
disp_loc, ...)` after `disp_loc`: nothing in `analyze_subprog`,
`ABI_POINTER_SIZE` in `analyze`. -/
def display_prelude (ld_b : Operand) : List (String × Nat) → InsnPtr → M Unit
  | [], _ => pure ()
  | ent :: rest, disp => do
    let v ← STAB_VAR ent.2
    if v.captured then do
      let disp ← (if disp = InsnPtr.null then
          INSN Opcode.SYMREF (Operand.str "@display@") Operand.null Operand.null
        else pure disp)
      let disp_loc ← INSN Opcode.ADD (Operand.reg disp)
        (Operand.ilit (v.disp_offset * ABI_POINTER_ALIGN)) Operand.null
      let save_loc ← INSN Opcode.ALLOC (Operand.int ABI_POINTER_SIZE) Operand.null Operand.null
      let ld ← INSN Opcode.LD (Operand.insn disp_loc) ld_b Operand.null
      let _s1 ← INSN Opcode.ST (Operand.insn save_loc) (Operand.insn ld)
        (Operand.int ABI_POINTER_SIZE)
      let _s2 ← INSN Opcode.ST (Operand.insn disp_loc) (Operand.insn v.loc)
        (Operand.int ABI_POINTER_SIZE)
      display_prelude ld_b rest disp
    else
      display_prelude ld_b rest disp

/-- The lines 609 to 614 of `analyze_subprog`: make the function `name` the
current one, fill in its compiled function, make its entry block current.
Returns the former `current_func`. -/
def enter_subprog (name : String) (head : AstHead) : M FuncPtr := do
  let σ ← getAcx
  let fidx ← orAbort (stab_resolve_func σ.st name)
  modifyAcx fun σ => { σ with current_func := FuncPtr.entry fidx }
  let cf ← deref_func (FuncPtr.entry fidx)
  let sf ← deref_func σ.current_func
  let sc ← deref_cfunc sf.cfunc
  let c ← deref_cfunc cf.cfunc
  store_cfunc cf.cfunc
    { c with args := head.args, name := some name, nest_depth := sc.nest_depth + 1 }
  modifyAcx fun σ => { σ with current_bb := some c.entry }
  pure σ.current_func

/-- The lines 668 to 676 of `analyze_subprog`: the check of `ret_assigned` and
the `RET`. -/
def emit_ret : M Unit := do
  let σ ← getAcx
  let cf ← deref_func σ.current_func
  (if ¬ cf.ty.func_ret_assigned ∧ cf.ty.func_type = SubKind.SUB_FUNCTION then
    span_err "return value of %s not assigned"
  else pure ())
  if cf.ty.func_type = SubKind.SUB_FUNCTION then do
    let rv ← orAbort (stab_resolve_var σ.st cf.name)
    let v ← STAB_VAR rv
    let _i ← INSN Opcode.RET (Operand.reg v.loc) Operand.null Operand.null
    pure ()
  else do
    let _i ← INSN Opcode.RET (Operand.reg InsnPtr.null) Operand.null Operand.null
    pure ()

mutual
/-- The function `analyze_subprog` (analysis.c:608). -/
def analyze_subprog (ops : SymOps) (u : Indet) : SubDecl → M Unit
  | SubDecl.mk name head types decls subprogs body => do
    let saved ← enter_subprog name head
    stab_enter
    add_types types
    add_decls head.args false
    add_decls decls true
    let rt ← stab_resolve_type "<retslot>" head.retty
    stab_add_var name rt true
    let top ← top_scope
    push_locs top.vars
    analyze_subprogs ops u subprogs
    let top ← top_scope
    display_prelude Operand.null top.vars InsnPtr.null
    analyze_stmt ops u body
    emit_ret
    modifyAcx fun σ => { σ with current_func := saved }
    stab_leave
/-- The loop over the nested (or top-level) subprograms (analysis.c:643, 714). -/
def analyze_subprogs (ops : SymOps) (u : Indet) : SubDeclList → M Unit
  | SubDeclList.nil => pure ()
  | SubDeclList.cons d rest => do
    stab_add_func d.name d.head
    analyze_subprog ops u d
    analyze_subprogs ops u rest
end

/-- The lines 609 to 666 of `analyze_subprog`: all it does before the check of
`ret_assigned` and the `RET`, up to and including the analysis of the body.
Returns the former `current_func`, the local `saved`. -/
def subprog_body (ops : SymOps) (u : Indet) : SubDecl → M FuncPtr
  | SubDecl.mk name head types decls subprogs body => do
    let saved ← enter_subprog name head
    stab_enter
    add_types types
    add_decls head.args false
    add_decls decls true
    let rt ← stab_resolve_type "<retslot>" head.retty
    stab_add_var name rt true
    let top ← top_scope
    push_locs top.vars
    analyze_subprogs ops u subprogs
    let top ← top_scope
    display_prelude Operand.null top.vars InsnPtr.null
    analyze_stmt ops u body
    pure saved

/-- The lines 668 to 681 of `analyze_subprog`: the check of `ret_assigned` and
the `RET`, the restoring of `current_func` and the leaving of the scope. -/
def subprog_return (saved : FuncPtr) : M Unit := do
  emit_ret
  modifyAcx fun σ => { σ with current_func := saved }
  stab_leave

/-- The context `analyze` starts from: `disp_offset = 0`, the table of
`stab_new`, an empty heap, nothing reported. -/
def acx_init (u : Indet) : Acx :=
  { st := stab_new, disp_offset := 0, current_func := FuncPtr.null, current_bb := none,
    main := none,
    t := { ty := u.t_ty, name := "", size := 0, align := 0, magic := 0, cfunc := none },
    insns := [], bbs := [], cfuncs := [], sink := [], scope_ops := [] }

/-- The lines 705 to 710 of `analyze`: the object `t` of main, with a new
compiled function, becomes the current function.  Returns the compiled
function. -/
def enter_main : M Nat := do
  let c ← cfunc_new
  modifyAcx fun σ =>
    { σ with t := { σ.t with cfunc := some c, name := "~!@__unassignable__@!~" } }
  let cf ← deref_cfunc (some c)
  store_cfunc (some c) { cf with name := some "~!@__unassignable__@!~", nest_depth := 1 }
  modifyAcx fun σ => { σ with current_func := FuncPtr.local_t }
  pure c

/-- The body of the function `analyze` (analysis.c:684), as a computation on the
context. -/
def analyze_run (ops : SymOps) (u : Indet) (prog : AstProgram) : M Unit := do
  stab_enter
  do_imports prog.args
  add_types prog.types
  add_decls prog.decls true
  let c ← enter_main
  analyze_subprogs ops u prog.subprogs
  let cf ← deref_cfunc (some c)
  modifyAcx fun σ => { σ with current_bb := some cf.entry }
  let top ← top_scope
  push_locs top.vars
  let top ← top_scope
  display_prelude (Operand.int ABI_POINTER_SIZE) top.vars InsnPtr.null
  analyze_stmt ops u prog.body
  modifyAcx fun σ => { σ with main := some c }

/-- The function `analyze` (analysis.c:684): the context it returns, or `none`
when the run does not return. -/
def analyze (ops : SymOps) (u : Indet) (prog : AstProgram) : Option Acx :=
  match analyze_run ops u prog (acx_init u) with
  | none => none
  | some (_, σ) => some σ

/-! ## Properties of the emitted control-flow graph -/

/-- The instructions of block `b`, in emission order. -/
def block_insns (σ : Acx) (b : Nat) : List Insn :=
  match σ.bbs.get? b with
  | none => []
  | some blk => blk.insns.filterMap fun p =>
      match p with
      | InsnPtr.ptr k => σ.insns.get? k
      | _ => none

/-- The block an operand names as a branch target: a label, or a block given
directly to `INSN`. -/
def operand_target : Operand → Option Nat
  | Operand.label b => some b
  | Operand.bb b => some b
  | _ => none

/-- The operand names a block of the list `bbs`. -/
def names_block (bbs : List Nat) (o : Operand) : Bool :=
  match operand_target o with
  | some b => bbs.contains b
  | none => false

/-- Every successor operand of the instruction, if it is a `BR`, names a block of
`bbs`: operand `b`, and operand `c` too unless the condition is `INSN_TRUE`. -/
def br_successors_set (bbs : List Nat) (i : Insn) : Bool :=
  i.op ≠ Opcode.BR || (names_block bbs i.b && (i.a == Operand.tt || names_block bbs i.c))

/-- Every `BR` in the blocks of the function has its successor operands set to
blocks of the function. -/
def cfg_labels_ok (σ : Acx) (cf : Cfunc) : Bool :=
  cf.bbs.all fun b => (block_insns σ b).all (br_successors_set cf.bbs)

/-- The blocks the `BR` instructions of block `b` name. -/
def block_succs (σ : Acx) (b : Nat) : List Nat :=
  ((block_insns σ b).filter fun i => i.op = Opcode.BR).foldr
    (fun i acc => (operand_target i.b).toList ++ (operand_target i.c).toList ++ acc) []

/-- The blocks reached from `seen` in at most `n` rounds of following branches. -/
def reach (σ : Acx) : Nat → List Nat → List Nat
  | 0, seen => seen
  | n + 1, seen => reach σ n (seen ++ (seen.map (block_succs σ)).flatten)

/-- Every block of the function is reachable from its entry block by following
the targets of the emitted `BR` instructions. -/
def all_blocks_reachable (σ : Acx) (cf : Cfunc) : Bool :=
  cf.bbs.all fun b => (reach σ σ.bbs.length [cf.entry]).contains b

/-! ## Sample programs -/

/-- The indeterminate values used when a sample program is run. -/
def u0 : Indet :=
  { cty_type := BOOLEAN_TYPE_IDX, t_ty := StabResolvedType.ofTag TypeTag.TYPE_VOID }

/-- The program `program p(input, output); var i : integer;
begin for i := 1 to 10 do writeln(i) end.` -/
def prog_for_writeln : AstProgram :=
  { args := ["input", "output"], types := [],
    decls := [{ names := ["i"], type := AstType.SCALAR TypeTag.TYPE_INTEGER }],
    subprogs := SubDeclList.nil,
    body := Stmt.FOR "i" (Expr.LIT 1) (Expr.LIT 10)
      (Stmt.PROC { components := ["writeln"] }
        (ExprList.cons (Expr.PATH { components := ["i"] }) ExprList.nil)) }

/-- The program `program p; begin while 1 = 1 do ; end.`, whose body is a
single `while` statement with an empty body. -/
def prog_while : AstProgram :=
  { args := [], types := [], decls := [], subprogs := SubDeclList.nil,
    body := Stmt.WDO (Expr.BIN Tok.EQ (Expr.LIT 1) (Expr.LIT 1)) Stmt.NULL }


/-- The program of scenario S1: `program P; var g : integer;
procedure Q; begin g := 1 end; begin Q end.` -/
def prog_capture : AstProgram :=
  { args := [], types := [],
    decls := [{ names := ["g"], type := AstType.SCALAR TypeTag.TYPE_INTEGER }],
    subprogs := SubDeclList.cons
      (SubDecl.mk "Q"
        { type := SubKind.SUB_PROCEDURE, args := [], retty := AstType.SCALAR TypeTag.TYPE_VOID }
        [] [] SubDeclList.nil
        (Stmt.ASSIGN (Expr.PATH { components := ["g"] }) (Expr.LIT 1)))
      SubDeclList.nil,
    body := Stmt.PROC { components := ["Q"] } ExprList.nil }

/-- The context in which `analyze` lowers the body of a program that imports
and declares nothing: the global scope is entered, main is the current
function and its entry block the current block. -/
def acx_sample : Acx :=
  { st := { stab_new with chain := [{ vars := [], funcs := [], types := [] }] },
    disp_offset := 0, current_func := FuncPtr.local_t, current_bb := some 0, main := none,
    t := { ty := StabResolvedType.ofTag TypeTag.TYPE_VOID, name := "~!@__unassignable__@!~",
           size := 0, align := 0, magic := 0, cfunc := some 0 },
    insns := [], bbs := [{ insns := [] }],
    cfuncs := [{ name := some "~!@__unassignable__@!~", entry := 0, bbs := [0],
                 nest_depth := 1, args := [] }],
    sink := [], scope_ops := [ScopeOp.enter] }

/-- The statement `for i := 1 to 10 do ;`, a `for` loop with an empty body. -/
def stmt_for_empty : Stmt :=
  Stmt.FOR "i" (Expr.LIT 1) (Expr.LIT 10) Stmt.NULL


/-- The program `program p; begin for i := 1 to 10 do ; end.`: a `for` loop
whose body creates no block. -/
def prog_for_empty : AstProgram :=
  { args := [], types := [], decls := [], subprogs := SubDeclList.nil, body := stmt_for_empty }

/-- The statement `for i := (1 = 1) to 10 do ;`, whose start value is a
BOOLEAN. -/
def stmt_for_bool : Stmt :=
  Stmt.FOR "i" (Expr.BIN Tok.EQ (Expr.LIT 1) (Expr.LIT 1)) (Expr.LIT 10) Stmt.NULL

/-- The statement `g := 1`, the body of `Q` in `prog_capture`. -/
def stmt_assign_g : Stmt :=
  Stmt.ASSIGN (Expr.PATH { components := ["g"] }) (Expr.LIT 1)

/-- The type `record a : integer; b : char; c : integer end`. -/
def type_R : AstType :=
  AstType.RECORD
    (AstFieldList.cons "a" (AstType.SCALAR TypeTag.TYPE_INTEGER)
      (AstFieldList.cons "b" (AstType.SCALAR TypeTag.TYPE_CHAR)
        (AstFieldList.cons "c" (AstType.SCALAR TypeTag.TYPE_INTEGER) AstFieldList.nil)))

/-- The program of scenario S2: `program p; type R = record a : integer;
b : char; c : integer end; var r : R; begin end.` -/
def prog_record : AstProgram :=
  { args := [],
    types := [{ name := "R", type := type_R }],
    decls := [{ names := ["r"], type := AstType.REF "R" }],
    subprogs := SubDeclList.nil, body := Stmt.NULL }

/-- The context in which `analyze` lowers the body of `Q` in `prog_capture`:
the global scope binds `g` and `Q`, the scope of `Q` binds its return slot, `Q`
(entry 6 of the type table) is the current function and its entry block the
current block. -/
def acx_in_proc : Acx :=
  { st :=
      { vars :=
          [ { type := 0, name := "g", address_taken := true, captured := false,
              disp_offset := 0, loc := InsnPtr.ptr 0 },
            { type := 5, name := "Q", address_taken := true, captured := false,
              disp_offset := 0, loc := InsnPtr.ptr 1 } ],
        types := stab_new.types ++
          [ { ty := { StabResolvedType.ofTag TypeTag.TYPE_FUNCTION with func_retty := 5 },
              name := "Q", size := 8, align := 8, magic := 0, cfunc := some 1 } ],
        chain :=
          [ { vars := [("g", 0)], funcs := [("Q", 6)], types := [] },
            { vars := [("Q", 1)], funcs := [], types := [] } ] },
    disp_offset := 0, current_func := FuncPtr.entry 6, current_bb := some 1, main := none,
    t := { ty := StabResolvedType.ofTag TypeTag.TYPE_VOID, name := "~!@__unassignable__@!~",
           size := 0, align := 0, magic := 0, cfunc := some 0 },
    insns :=
      [ { op := Opcode.ALLOC, a := Operand.int 8, b := Operand.null, c := Operand.null },
        { op := Opcode.ALLOC, a := Operand.int 1, b := Operand.null, c := Operand.null } ],
    bbs := [{ insns := [] }, { insns := [InsnPtr.ptr 1] }],
    cfuncs :=
      [ { name := some "~!@__unassignable__@!~", entry := 0, bbs := [0], nest_depth := 1,
          args := [] },
        { name := some "Q", entry := 1, bbs := [1], nest_depth := 2, args := [] } ],
    sink := [], scope_ops := [ScopeOp.enter, ScopeOp.enter] }

/-! ## Built-in calls -/

/-- Whether the path names a built-in in `st`: its last component resolves to
an entry of the type table whose `magic` is set, the test `pt->magic != 0` of
`analyze_call` (analysis.c:217). -/
def resolves_to_magic (st : Stab) (p : AstPath) : Bool :=
  match p.components.getLast? with
  | none => false
  | some name =>
    match stab_resolve_func st name with
    | none => false
    | some pty =>
      match st.types.get? pty with
      | none => false
      | some t => decide (t.magic ≠ 0)

mutual
/-- Whether an expression that `analyze_expr` descends into is a call of a
built-in of `st`. -/
def calls_magic (st : Stab) : Expr → Bool
  | Expr.APP name args => resolves_to_magic st name || args_call_magic st args
  | Expr.BIN _ l r => calls_magic st l || calls_magic st r
  | Expr.DEREF _ => false
  | Expr.IDX _ e => calls_magic st e
  | Expr.LIT _ => false
  | Expr.PATH _ => false
  | Expr.UN _ e => calls_magic st e
  | Expr.ADDROF e => calls_magic st e
  | Expr.OTHER => false
/-- Whether one of the expressions of the list calls a built-in of `st`. -/
def args_call_magic (st : Stab) : ExprList → Bool
  | ExprList.nil => false
  | ExprList.cons e rest => calls_magic st e || args_call_magic st rest
end

/-- The expressions of a `struct list`, in order. -/
def ExprList.toList : ExprList → List Expr
  | ExprList.nil => []
  | ExprList.cons e rest => e :: rest.toList

/-- Whether the instruction is an `FCALL`. -/
def is_fcall (i : Insn) : Bool := decide (i.op = Opcode.FCALL)

/-- The instruction `INSN(FCALL, strdup(callit), ptrvec_new(free, 1, r))`
(analysis.c:159). -/
def write_fcall (rc : Resu × String) : Insn :=
  { op := Opcode.FCALL, a := Operand.str rc.2, b := Operand.vec [rc.1], c := Operand.null }

/-- The instruction `INSN(FCALL, strdup("@write_newline@"), NULL)`
(analysis.c:163). -/
def newline_fcall : Insn :=
  { op := Opcode.FCALL, a := Operand.str "@write_newline@", b := Operand.null,
    c := Operand.null }

/-- The list `rs` gives, in argument order, what the write loop of
`analyze_magic` (analysis.c:131), started in the context `σ`, computes for each
argument: the result of analysing the argument in the context reached when the
arguments before it have been lowered, and the callee that the switch chooses
for the type of that result.  The next argument is analysed in the context left
by the `FCALL` of this one. -/
def write_results (ops : SymOps) : ExprList → Acx → List (Resu × String) → Prop
  | ExprList.nil, _, rs => rs = []
  | ExprList.cons e rest, σ, rs =>
    ∃ (r : Resu) (c : String) (σ1 : Acx) (i : InsnPtr) (σ2 : Acx) (rs' : List (Resu × String)),
      analyze_expr ops e σ = some (r, σ1) ∧ write_callee r.type = some c ∧
      INSN Opcode.FCALL (Operand.str c) (Operand.vec [r]) Operand.null σ1 = some (i, σ2) ∧
      rs = (r, c) :: rs' ∧ write_results ops rest σ2 rs'

/-- The entry of the type table that `stab_add_magic_func` makes for a
built-in. -/
def magic_entry (tag : Nat) : StabType :=
  { ty := { StabResolvedType.ofTag TypeTag.TYPE_FUNCTION with func_retty := VOID_TYPE_IDX },
    name := magic_name tag, size := 8, align := 8, magic := tag, cfunc := none }

/-- The context in which `analyze` lowers the body of a program
`program p(input, output)` that declares nothing: as `acx_sample`, with the
four built-ins bound in the global scope. -/
def acx_io : Acx :=
  { acx_sample with
    st := { stab_new with
      types := stab_new.types ++ [magic_entry MAGIC_WRITELN, magic_entry MAGIC_WRITE,
        magic_entry MAGIC_READLN, magic_entry MAGIC_READ],
      chain := [{ vars := [], types := [],
                  funcs := [("writeln", 6), ("write", 7), ("readln", 8), ("read", 9)] }] } }

/-- The argument list of `write(writeln())`. -/
def args_nested : ExprList :=
  ExprList.cons (Expr.APP { components := ["writeln"] } ExprList.nil) ExprList.nil

/-- The program `program p(input, output); begin write(writeln()) end.` -/
def prog_write_nested : AstProgram :=
  { args := ["input", "output"], types := [], decls := [], subprogs := SubDeclList.nil,
    body := Stmt.PROC { components := ["write"] } args_nested }

/-- The argument list of `writeln(1, 2)`. -/
def args_lits : ExprList :=
  ExprList.cons (Expr.LIT 1) (ExprList.cons (Expr.LIT 2) ExprList.nil)

/-! ## Assignments of a statement -/

mutual
/-- Whether the statement contains, at any depth, an assignment whose lvalue
satisfies `B`. -/
def any_lvalue (B : Expr → Bool) : Stmt → Bool
  | Stmt.NULL => false
  | Stmt.ASSIGN lvalue _ => B lvalue
  | Stmt.FOR _ _ _ body => any_lvalue B body
  | Stmt.ITE _ then_ elze => any_lvalue B then_ || any_lvalue B elze
  | Stmt.PROC _ _ => false
  | Stmt.STMTS stmts => any_lvalue_list B stmts
  | Stmt.WDO _ body => any_lvalue B body
  | Stmt.OTHER => false
/-- Whether one of the statements of the list contains such an assignment. -/
def any_lvalue_list (B : Expr → Bool) : StmtList → Bool
  | StmtList.nil => false
  | StmtList.cons s rest => any_lvalue B s || any_lvalue_list B rest
end

/-- Whether the lvalue is a path, or an indexed path, whose first component is
`name`: the comparison `strcmp(acx->current_func->name,
e->path->components->inner.elt) == 0` of `check_assignability`
(analysis.c:417). -/
def root_is (name : String) : Expr → Bool
  | Expr.PATH p => decide (p.components.head? = some name)
  | Expr.IDX p _ => decide (p.components.head? = some name)
  | _ => false

/-- Whether the statement contains, at any depth, an assignment whose lvalue has
root `name`. -/
def assigns_root (name : String) (s : Stmt) : Bool :=
  any_lvalue (root_is name) s

mutual
/-- Following the spec: every control-flow path from the start of the statement
to its end passes through an assignment whose lvalue has root `name`.  A loop
body may be run no time at all. -/
def all_paths_assign (name : String) : Stmt → Bool
  | Stmt.NULL => false
  | Stmt.ASSIGN lvalue _ => root_is name lvalue
  | Stmt.FOR _ _ _ _ => false
  | Stmt.ITE _ then_ elze => all_paths_assign name then_ && all_paths_assign name elze
  | Stmt.PROC _ _ => false
  | Stmt.STMTS stmts => all_paths_assign_list name stmts
  | Stmt.WDO _ _ => false
  | Stmt.OTHER => false
/-- Following the spec: every path through the sequence passes through such an
assignment, that is, every path through one of its statements does. -/
def all_paths_assign_list (name : String) : StmtList → Bool
  | StmtList.nil => false
  | StmtList.cons s rest => all_paths_assign name s || all_paths_assign_list name rest
end

/-- Whether the diagnostic is an error (`span_err`, `ERR`). -/
def Diag.is_err : Diag → Bool
  | Diag.err _ => true
  | Diag.diag _ => false

/-- The number of errors reported so far. -/
def err_count (σ : Acx) : Nat :=
  (σ.sink.filter Diag.is_err).length

/-- The statement `if b then f := 1`, with no else branch. -/
def body_half : Stmt :=
  Stmt.ITE (Expr.PATH { components := ["b"] })
    (Stmt.ASSIGN (Expr.PATH { components := ["f"] }) (Expr.LIT 1)) Stmt.NULL

/-- The declaration `function f : integer; begin if b then f := 1 end`. -/
def decl_half : SubDecl :=
  SubDecl.mk "f"
    { type := SubKind.SUB_FUNCTION, args := [], retty := AstType.SCALAR TypeTag.TYPE_INTEGER }
    [] [] SubDeclList.nil body_half

/-- The program `program p; var b : boolean;
function f : integer; begin if b then f := 1 end; begin end.` -/
def prog_half : AstProgram :=
  { args := [], types := [],
    decls := [{ names := ["b"], type := AstType.SCALAR TypeTag.TYPE_BOOLEAN }],
    subprogs := SubDeclList.cons decl_half SubDeclList.nil, body := Stmt.NULL }

/-- The entry of the type table that `stab_add_func` makes for `decl_half`. -/
def entry_half : StabType :=
  { ty := { StabResolvedType.ofTag TypeTag.TYPE_FUNCTION with
              func_type := SubKind.SUB_FUNCTION, func_retty := INTEGER_TYPE_IDX },
    name := "f", size := 8, align := 8, magic := 0, cfunc := some 1 }

/-- The context in which `analyze` calls `analyze_subprog` on `decl_half` in
`prog_half`: the global scope binds `b` and `f`, the entry of `f` is entry 6 of
the type table with `ret_assigned` false, main is the current function. -/
def acx_before_half : Acx :=
  { st :=
      { vars := [{ type := BOOLEAN_TYPE_IDX, name := "b", address_taken := true,
                   captured := false, disp_offset := 0, loc := InsnPtr.ptr 0 }],
        types := stab_new.types ++ [entry_half],
        chain := [{ vars := [("b", 0)], funcs := [("f", 6)], types := [] }] },
    disp_offset := 0, current_func := FuncPtr.local_t, current_bb := none, main := none,
    t := { ty := StabResolvedType.ofTag TypeTag.TYPE_VOID, name := "~!@__unassignable__@!~",
           size := 0, align := 0, magic := 0, cfunc := some 0 },
    insns := [{ op := Opcode.ALLOC, a := Operand.int 1, b := Operand.null, c := Operand.null }],
    bbs := [{ insns := [] }, { insns := [] }],
    cfuncs :=
      [ { name := some "~!@__unassignable__@!~", entry := 0, bbs := [0], nest_depth := 1,
          args := [] },
        { name := none, entry := 1, bbs := [1], nest_depth := 0, args := [] } ],
    sink := [], scope_ops := [ScopeOp.enter] }

/-! ## A program with four global variables -/

/-- The declarations `var b : boolean; x : integer; y : real; q : ^boolean`. -/
def decls_vars : List AstDecls :=
  [{ names := ["b"], type := AstType.SCALAR TypeTag.TYPE_BOOLEAN },
   { names := ["x"], type := AstType.SCALAR TypeTag.TYPE_INTEGER },
   { names := ["y"], type := AstType.SCALAR TypeTag.TYPE_REAL },
   { names := ["q"], type := AstType.POINTER (AstType.SCALAR TypeTag.TYPE_BOOLEAN) }]

/-- The program `program p; var b : boolean; x : integer; y : real;
q : ^boolean; begin body end.` -/
def prog_vars (body : Stmt) : AstProgram :=
  { args := [], types := [], decls := decls_vars, subprogs := SubDeclList.nil, body := body }

/-- The context in which `analyze` lowers the body of `prog_vars body`: the
global scope binds the four variables, entry 6 of the type table is the type
`^boolean`, main is the current function and its entry block, which holds the
four allocations, the current block. -/
def acx_vars : Acx :=
  { acx_sample with
    st :=
      { vars :=
          [ { type := BOOLEAN_TYPE_IDX, name := "b", address_taken := true, captured := false,
              disp_offset := 0, loc := InsnPtr.ptr 0 },
            { type := INTEGER_TYPE_IDX, name := "x", address_taken := true, captured := false,
              disp_offset := 0, loc := InsnPtr.ptr 1 },
            { type := REAL_TYPE_IDX, name := "y", address_taken := true, captured := false,
              disp_offset := 0, loc := InsnPtr.ptr 2 },
            { type := 6, name := "q", address_taken := true, captured := false,
              disp_offset := 0, loc := InsnPtr.ptr 3 } ],
        types := stab_new.types ++
          [ { ty := { StabResolvedType.ofTag TypeTag.TYPE_POINTER with
                        pointer := BOOLEAN_TYPE_IDX },
              name := "", size := 8, align := 8, magic := 0, cfunc := none } ],
        chain := [{ vars := [("b", 0), ("x", 1), ("y", 2), ("q", 3)], funcs := [],
                    types := [] }] },
    insns :=
      [ { op := Opcode.ALLOC, a := Operand.int 1, b := Operand.null, c := Operand.null },
        { op := Opcode.ALLOC, a := Operand.int 8, b := Operand.null, c := Operand.null },
        { op := Opcode.ALLOC, a := Operand.int 8, b := Operand.null, c := Operand.null },
        { op := Opcode.ALLOC, a := Operand.int 8, b := Operand.null, c := Operand.null } ],
    bbs := [{ insns := [InsnPtr.ptr 0, InsnPtr.ptr 1, InsnPtr.ptr 2, InsnPtr.ptr 3] }] }

/-- The statement `if b then x := 1`, with no else branch. -/
def stmt_if_then : Stmt :=
  Stmt.ITE (Expr.PATH { components := ["b"] })
    (Stmt.ASSIGN (Expr.PATH { components := ["x"] }) (Expr.LIT 1)) Stmt.NULL

/-- The statement `x := y`, an integer variable assigned a real one. -/
def stmt_mismatch : Stmt :=
  Stmt.ASSIGN (Expr.PATH { components := ["x"] }) (Expr.PATH { components := ["y"] })

/-- The expression `q^`. -/
def expr_deref_q : Expr :=
  Expr.DEREF (Expr.PATH { components := ["q"] })

/-- The expression `@x = @x`, the comparison of two address-of expressions over
an integer variable. -/
def expr_addr_eq : Expr :=
  Expr.BIN Tok.EQ (Expr.ADDROF (Expr.PATH { components := ["x"] }))
    (Expr.ADDROF (Expr.PATH { components := ["x"] }))

/-- The program `program p(l); begin end.`, which imports the libraries `l`. -/
def prog_imports (l : List String) : AstProgram :=
  { args := l, types := [], decls := [], subprogs := SubDeclList.nil, body := Stmt.NULL }

/-- The declaration `procedure Q; begin end`. -/
def decl_inner : SubDecl :=
  SubDecl.mk "Q"
    { type := SubKind.SUB_PROCEDURE, args := [], retty := AstType.SCALAR TypeTag.TYPE_VOID }
    [] [] SubDeclList.nil Stmt.NULL

/-- The declaration `procedure P; var x : integer; procedure Q; begin end;
begin x := 1 end`. -/
def decl_outer : SubDecl :=
  SubDecl.mk "P"
    { type := SubKind.SUB_PROCEDURE, args := [], retty := AstType.SCALAR TypeTag.TYPE_VOID }
    [] [{ names := ["x"], type := AstType.SCALAR TypeTag.TYPE_INTEGER }]
    (SubDeclList.cons decl_inner SubDeclList.nil)
    (Stmt.ASSIGN (Expr.PATH { components := ["x"] }) (Expr.LIT 1))

/-- The program `program p; procedure P; var x : integer; procedure Q; begin
end; begin x := 1 end; begin end.` -/
def prog_nested : AstProgram :=
  { args := [], types := [], decls := [],
    subprogs := SubDeclList.cons decl_outer SubDeclList.nil, body := Stmt.NULL }

/-- The instruction `INSN(FCALL, strdup(callit), ptrvec_new(free, 1, r))` of the
read branch (analysis.c:200). -/
def read_fcall (rc : Resu × String) : Insn :=
  { op := Opcode.FCALL, a := Operand.str rc.2, b := Operand.vec [rc.1], c := Operand.null }

/-- The argument list of `read(x, 1)`: a path and a literal. -/
def args_read : ExprList :=
  ExprList.cons (Expr.PATH { components := ["x"] }) (ExprList.cons (Expr.LIT 1) ExprList.nil)

/-- The context `acx_in_proc` with `Q` declared as a function returning an
integer instead of a procedure. -/
def acx_in_func : Acx :=
  { acx_in_proc with
    st := { acx_in_proc.st with
      types := stab_new.types ++
        [ { ty := { StabResolvedType.ofTag TypeTag.TYPE_FUNCTION with
                      func_type := SubKind.SUB_FUNCTION, func_retty := INTEGER_TYPE_IDX },
            name := "Q", size := 8, align := 8, magic := 0, cfunc := some 1 } ] } }

/-! ## Samples for address-of, calls, paths, while and return -/

/-- The expression `@x`. -/
def expr_addr_x : Expr :=
  Expr.ADDROF (Expr.PATH { components := ["x"] })

/-- The statement `q := @b`. -/
def stmt_assign_addr : Stmt :=
  Stmt.ASSIGN (Expr.PATH { components := ["q"] })
    (Expr.ADDROF (Expr.PATH { components := ["b"] }))

/-- The declaration `function f(a : integer) : integer; begin f := a end`. -/
def decl_id : SubDecl :=
  SubDecl.mk "f"
    { type := SubKind.SUB_FUNCTION,
      args := [{ names := ["a"], type := AstType.SCALAR TypeTag.TYPE_INTEGER }],
      retty := AstType.SCALAR TypeTag.TYPE_INTEGER }
    [] [] SubDeclList.nil
    (Stmt.ASSIGN (Expr.PATH { components := ["f"] }) (Expr.PATH { components := ["a"] }))

/-- The program `program p; var x : integer; b : boolean;
function f(a : integer) : integer; begin f := a end; begin body end.` -/
def prog_call (body : Stmt) : AstProgram :=
  { args := [], types := [],
    decls := [{ names := ["x"], type := AstType.SCALAR TypeTag.TYPE_INTEGER },
              { names := ["b"], type := AstType.SCALAR TypeTag.TYPE_BOOLEAN }],
    subprogs := SubDeclList.cons decl_id SubDeclList.nil, body := body }

/-- The argument list of `f(b)`. -/
def args_b : ExprList :=
  ExprList.cons (Expr.PATH { components := ["b"] }) ExprList.nil

/-- The argument list of `f(x)`. -/
def args_x : ExprList :=
  ExprList.cons (Expr.PATH { components := ["x"] }) ExprList.nil

/-- The argument list of `f(x, x)`. -/
def args_xx : ExprList :=
  ExprList.cons (Expr.PATH { components := ["x"] }) args_x

/-- The statement `x := f(b)`. -/
def stmt_call_b : Stmt :=
  Stmt.ASSIGN (Expr.PATH { components := ["x"] }) (Expr.APP { components := ["f"] } args_b)

/-- The values of `u0` except that the storage of `cty.type` holds the type id
of INTEGER. -/
def u_int : Indet :=
  { u0 with cty_type := INTEGER_TYPE_IDX }

/-- The statement `while 1 do ;`, whose condition is an INTEGER. -/
def stmt_while_int : Stmt :=
  Stmt.WDO (Expr.LIT 1) Stmt.NULL

/-- The statement `while 1 = 1 do ;`, whose condition is a BOOLEAN. -/
def stmt_while_eq : Stmt :=
  Stmt.WDO (Expr.BIN Tok.EQ (Expr.LIT 1) (Expr.LIT 1)) Stmt.NULL

/-- The expression `a[f(read(x))]`: an indexed path whose index expression
contains a call of a built-in. -/
def expr_idx_nested : Expr :=
  Expr.IDX { components := ["a"] }
    (Expr.APP { components := ["f"] }
      (ExprList.cons (Expr.APP { components := ["read"] }
        (ExprList.cons (Expr.PATH { components := ["x"] }) ExprList.nil)) ExprList.nil))

/-- The argument list of `read(a[f(read(x))])`. -/
def args_read_nested : ExprList :=
  ExprList.cons expr_idx_nested ExprList.nil

/-- The program `program p(input, output); var x : integer;
a : array [1..10] of integer; function f(a : integer) : integer;
begin f := a end; begin body end.` -/
def prog_read (body : Stmt) : AstProgram :=
  { args := ["input", "output"], types := [],
    decls := [{ names := ["x"], type := AstType.SCALAR TypeTag.TYPE_INTEGER },
              { names := ["a"],
                type := AstType.ARRAY 1 10 (AstType.SCALAR TypeTag.TYPE_INTEGER) }],
    subprogs := SubDeclList.cons decl_id SubDeclList.nil, body := body }
/-! ## Reasoning about computations -/

/-- If `m` starts in a context satisfying `P` and returns `a`, the context it
returns satisfies `Q a`. -/
def Triple {α : Type} (P : Acx → Prop) (m : M α) (Q : α → Acx → Prop) : Prop :=
  ∀ σ a σ', P σ → m σ = some (a, σ') → Q a σ'

/-- The computation `m` preserves `I`. -/
def Inv {α : Type} (I : Acx → Prop) (m : M α) : Prop :=
  Triple I m fun _ => I

/-- What an invariant must be preserved by, to be preserved by the code that
only reports diagnostics and emits instructions. -/
structure EmitClosed (I : Acx → Prop) : Prop where
  err : ∀ msg, Inv I (span_err msg)
  diag : ∀ msg, Inv I (span_diag msg)
  insn : ∀ op a b c, op ≠ Opcode.FCALL → Inv I (INSN op a b c)

/-- What an invariant must be preserved by, to be preserved by the analysis of
expressions. -/
structure ExprClosed (I : Acx → Prop) extends EmitClosed I : Prop where
  capture : ∀ idx, Inv I (capture_var idx)
  push_type : ∀ t, Inv I (push_type t)
  fcall : ∀ a b c, Inv I (INSN Opcode.FCALL a b c)

/-- What a family of invariants must satisfy, to be preserved by the analysis
of statements: `up j` is the invariant that holds inside a scope entered under
`I j`, and `F k` says that instruction `k` may be patched. -/
structure StmtCore {ι : Type} (I : ι → Acx → Prop) (up : ι → ι) (F : Nat → Prop) :
    Prop where
  expr : ∀ j, ExprClosed (I j)
  fresh : ∀ j op a b c,
    Triple (I j) (INSN op a b c) fun r σ => I j σ ∧ ∃ k, r = InsnPtr.ptr k ∧ F k
  set_b : ∀ j k o, F k → Inv (I j) (set_b (InsnPtr.ptr k) o)
  set_c : ∀ j k o, F k → Inv (I j) (set_c (InsnPtr.ptr k) o)
  new_bb : ∀ j, Inv (I j) new_current_bb
  enter : ∀ j, Triple (I j) stab_enter fun _ => I (up j)
  leave : ∀ j, Triple (I (up j)) stab_leave fun _ => I j

/-- A family closed as `StmtCore` asks and preserved by the setting of
`ret_assigned`: it is preserved by the analysis of every statement. -/
structure StmtClosed {ι : Type} (I : ι → Acx → Prop) (up : ι → ι) (F : Nat → Prop)
    extends StmtCore I up F : Prop where
  ret : ∀ j, Inv (I j) set_ret_assigned

/-- The two contexts agree on the symbol table, the display counter, the
instructions, the sink and the record of scope operations. -/
def SameCore (σ σ' : Acx) : Prop :=
  σ'.st = σ.st ∧ σ'.disp_offset = σ.disp_offset ∧ σ'.insns = σ.insns ∧
    σ'.sink = σ.sink ∧ σ'.scope_ops = σ.scope_ops

/-- The two contexts agree on what `SameCore` lists and on the current
function. -/
def SameDecl (σ σ' : Acx) : Prop :=
  SameCore σ σ' ∧ σ'.current_func = σ.current_func

/-- What an invariant must be preserved by, to be preserved by the processing of
declarations. -/
structure DeclClosed (I : Acx → Prop) : Prop where
  expr : ExprClosed I
  core : ∀ σ σ', SameDecl σ σ' → I σ → I σ'
  insn_new : ∀ i, Inv I (insn_new i)
  push_var : ∀ v, v.captured = false → Inv I (push_var v)
  top : ∀ f, (∀ sc, (f sc).funcs = sc.funcs) → Inv I (modify_top_scope f)

/-- What a family of invariants must satisfy, to be preserved by the analysis
of subprograms and of the program. -/
structure ProgClosed {ι : Type} (I : ι → Acx → Prop) (up : ι → ι) (F : Nat → Prop) :
    Prop where
  stmt : StmtClosed I up F
  core : ∀ j σ σ', SameCore σ σ' → I j σ → I j σ'
  insn_new : ∀ j i, Inv (I j) (insn_new i)
  push_var : ∀ j v, v.captured = false → Inv (I j) (push_var v)
  top : ∀ j f, Inv (I j) (modify_top_scope f)

/-! ## Scope discipline -/

/-- The scope depth reached from depth `d` by a sequence of scope operations;
`none` when a `leave` is performed at depth 0, that is below the depth the
sequence started `d` levels above. -/
def depth_after : Nat → List ScopeOp → Option Nat
  | d, [] => some d
  | d, ScopeOp.enter :: w => depth_after (d + 1) w
  | 0, ScopeOp.leave :: _ => none
  | d + 1, ScopeOp.leave :: w => depth_after d w

/-- The context is at scope depth `j.1`, and since the record `l0` the scope
operations performed never went below the depth at `l0` and are now `j.2`
levels above it. -/
def ScopeInv (l0 : List ScopeOp) (j : Nat × Nat) (σ : Acx) : Prop :=
  σ.st.chain.length = j.1 ∧ ∃ w, σ.scope_ops = l0 ++ w ∧ depth_after 0 w = some j.2

/-- One scope deeper. -/
def scope_up (j : Nat × Nat) : Nat × Nat := (j.1 + 1, j.2 + 1)

/-! ## Display offsets -/

/-- The display counter is not negative, the display offset of every captured
variable lies in `0 ≤ o < disp_offset`, and two captured variables never share
a display offset. -/
def DispInv (σ : Acx) : Prop :=
  0 ≤ σ.disp_offset ∧
  (∀ i v, σ.st.vars.get? i = some v → v.captured = true →
    0 ≤ v.disp_offset ∧ v.disp_offset < σ.disp_offset) ∧
  (∀ i j vi vj, σ.st.vars.get? i = some vi → σ.st.vars.get? j = some vj →
    vi.captured = true → vj.captured = true → vi.disp_offset = vj.disp_offset → i = j)

/-- From `σ` to `σ'` the display counter did not decrease and every variable
captured in `σ` is still captured in `σ'`, with the same display offset. -/
def DispMono (σ σ' : Acx) : Prop :=
  σ.disp_offset ≤ σ'.disp_offset ∧
  ∀ i v, σ.st.vars.get? i = some v → v.captured = true →
    ∃ v', σ'.st.vars.get? i = some v' ∧ v'.captured = true ∧ v'.disp_offset = v.disp_offset

/-- The display offsets were only extended since `σ0`. -/
def DispSince (σ0 : Acx) (_ : Unit) (σ : Acx) : Prop :=
  DispMono σ0 σ ∧ (DispInv σ0 → DispInv σ)

/-! ## Emitted instructions -/

/-- The instructions of `base` are still in place: the arena holds at least as
many instructions, and agrees with `base` at every index of `base`. -/
def PrefixInv (base : List Insn) (_ : Unit) (σ : Acx) : Prop :=
  base.length ≤ σ.insns.length ∧ ∀ i, i < base.length → σ.insns.get? i = base.get? i

/-! ## Built-in lowering -/

/-- The scope chain is that of `st0`, and the type table is that of `st0`
followed by entries that are not built-ins. -/
def StInv (st0 : Stab) (σ : Acx) : Prop :=
  σ.st.chain = st0.chain ∧
    ∃ ext : List StabType, σ.st.types = st0.types ++ ext ∧ ∀ t ∈ ext, t.magic = 0

/-- The names resolve as in `st0`, and the instructions are those of `base`
followed by instructions none of which is an `FCALL`. -/
def QuietInv (st0 : Stab) (base : List Insn) (σ : Acx) : Prop :=
  StInv st0 σ ∧ ∃ new : List Insn, σ.insns = base ++ new ∧ new.filter is_fcall = []

/-! ## Return-slot assignment -/

/-- At least `c` errors have been reported. -/
def ErrInv (c : Nat) (_ : Unit) (σ : Acx) : Prop :=
  c ≤ err_count σ

/-- The entry `fidx` of the type table is a function named `name` whose
`ret_assigned` is still false. -/
def EntryInv (fidx : Nat) (name : String) (σ : Acx) : Prop :=
  ∃ ft, σ.st.types.get? fidx = some ft ∧ ft.name = name ∧
    ft.ty.func_type = SubKind.SUB_FUNCTION ∧ ft.ty.func_ret_assigned = false

/-- No function binding of the scopes from position `L` on names the entry
`fidx`. -/
def funcs_avoid (L fidx : Nat) (chain : List StabScope) : Prop :=
  ∀ i sc, L ≤ i → chain.get? i = some sc → ∀ nk ∈ sc.funcs, nk.2 ≠ fidx

/-- Inside the subprogram whose entry is `fidx`, `k` scopes below its own scope
(which is scope `L` of the chain): no function binding of the scopes from `L` on
names the entry `fidx`, the entry is as `EntryInv` says, and `p` is the current
function. -/
def FuncInv (fidx : Nat) (name : String) (L : Nat) (p : FuncPtr) (k : Nat) (σ : Acx) : Prop :=
  σ.st.chain.length = L + 1 + k ∧ funcs_avoid L fidx σ.st.chain ∧
    EntryInv fidx name σ ∧ σ.current_func = p

/-- The innermost scope binds the function name `name`. -/
def top_binds (name : String) (σ : Acx) : Prop :=
  ∃ sc, σ.st.chain.getLast? = some sc ∧ (sc.funcs.lookup name).isSome = true

/-! ## The function being returned from -/

/-- The function `p` is the current one, and the entry `fidx` of the type table
is named `name` and has the subprogram kind `kind`. -/
def CurInv (fidx : Nat) (name : String) (kind : SubKind) (p : FuncPtr) (σ : Acx) : Prop :=
  σ.current_func = p ∧
    ∃ ft, σ.st.types.get? fidx = some ft ∧ ft.name = name ∧ ft.ty.func_type = kind

/-! ## The diagnostics reported so far -/

/-- The sink holds the diagnostics of `base` followed by further ones: nothing
reported is ever taken back. -/
def SinkInv (base : List Diag) (σ : Acx) : Prop :=
  ∃ more : List Diag, σ.sink = base ++ more
/-! ## Lemmas on computations -/

theorem bind_eq_some {α β : Type} {m : M α} {f : α → M β} {σ σ' : Acx} {b : β} :
    (m >>= f) σ = some (b, σ') ↔ ∃ a σ1, m σ = some (a, σ1) ∧ f a σ1 = some (b, σ') := by
  show M.bind m f σ = some (b, σ') ↔ _
  unfold M.bind
  cases h : m σ with
  | none => simp
  | some r =>
    obtain ⟨a, σ1⟩ := r
    constructor
    · intro hf
      exact ⟨a, σ1, rfl, hf⟩
    · rintro ⟨a', σ2, hm, hf⟩
      simp only [Option.some.injEq, Prod.mk.injEq] at hm
      obtain ⟨rfl, rfl⟩ := hm
      exact hf

theorem pure_eq_some {α : Type} {a b : α} {σ σ' : Acx} :
    (pure a : M α) σ = some (b, σ') ↔ a = b ∧ σ = σ' := by
  show M.pure a σ = some (b, σ') ↔ _
  simp [M.pure]

theorem Triple.bind {α β : Type} {P : Acx → Prop} {m : M α} {Q : α → Acx → Prop}
    {f : α → M β} {R : β → Acx → Prop}
    (h1 : Triple P m Q) (h2 : ∀ a, Triple (Q a) (f a) R) : Triple P (m >>= f) R := by
  intro σ b σ' hP h
  obtain ⟨a, σ1, hm, hf⟩ := bind_eq_some.mp h
  exact h2 a σ1 b σ' (h1 σ a σ1 hP hm) hf

theorem Triple.step {α β : Type} {I : Acx → Prop} {m : M α}
    {f : α → M β} {R : β → Acx → Prop}
    (h1 : Inv I m) (h2 : ∀ a, Triple I (f a) R) : Triple I (m >>= f) R :=
  Triple.bind h1 h2

theorem Triple.pre_pure {α : Type} {P : Acx → Prop} {φ : Prop} {m : M α}
    {Q : α → Acx → Prop} (h : φ → Triple P m Q) : Triple (fun σ => P σ ∧ φ) m Q :=
  fun σ a σ' hP hm => h hP.2 σ a σ' hP.1 hm

theorem Triple.weaken {α : Type} {P : Acx → Prop} {m : M α} {Q Q' : α → Acx → Prop}
    (h : Triple P m Q) (hq : ∀ a σ, Q a σ → Q' a σ) : Triple P m Q' :=
  fun σ a σ' hP hm => hq a σ' (h σ a σ' hP hm)

theorem Inv.seq {α β : Type} {I : Acx → Prop} {m : M α} {f : α → M β}
    (h1 : Inv I m) (h2 : ∀ a, Inv I (f a)) : Inv I (m >>= f) :=
  Triple.bind h1 h2

theorem Inv.pure {α : Type} {I : Acx → Prop} (a : α) : Inv I (pure a : M α) := by
  intro σ b σ' hI h
  obtain ⟨_, rfl⟩ := pure_eq_some.mp h
  exact hI

theorem Triple.abort {α : Type} {P : Acx → Prop} {Q : α → Acx → Prop} :
    Triple P (abort : M α) Q := by
  intro σ b σ' _ h
  simp [Dragon.abort] at h

/-- A computation that never changes the context preserves everything. -/
theorem Inv.of_readonly {α : Type} {I : Acx → Prop} {m : M α}
    (h : ∀ σ a σ', m σ = some (a, σ') → σ' = σ) : Inv I m := by
  intro σ a σ' hI hm
  rw [h σ a σ' hm]
  exact hI

theorem getAcx_readonly (σ : Acx) (a : Acx) (σ' : Acx) (h : getAcx σ = some (a, σ')) :
    σ' = σ := by
  simp [getAcx] at h
  exact h.2.symm

theorem orAbort_readonly {α : Type} (o : Option α) (σ : Acx) (a : α) (σ' : Acx)
    (h : orAbort o σ = some (a, σ')) : σ' = σ := by
  cases o with
  | none => simp [orAbort, Dragon.abort] at h
  | some x =>
    simp [orAbort, M.pure] at h
    exact h.2.symm

theorem STAB_VAR_readonly (idx : Nat) (σ : Acx) (a : StabVar) (σ' : Acx)
    (h : STAB_VAR idx σ = some (a, σ')) : σ' = σ := by
  unfold STAB_VAR at h
  split at h
  · simp at h
  · simp at h
    exact h.2.symm

theorem STAB_TYPE_readonly (idx : Nat) (σ : Acx) (a : StabType) (σ' : Acx)
    (h : STAB_TYPE idx σ = some (a, σ')) : σ' = σ := by
  unfold STAB_TYPE at h
  split at h
  · simp at h
  · simp at h
    exact h.2.symm

theorem deref_func_readonly (p : FuncPtr) (σ : Acx) (a : StabType) (σ' : Acx)
    (h : deref_func p σ = some (a, σ')) : σ' = σ := by
  unfold deref_func at h
  split at h
  · simp at h
  · simp at h
    exact h.2.symm
  · split at h
    · simp at h
    · simp at h
      exact h.2.symm

theorem deref_cfunc_readonly (c : Option Nat) (σ : Acx) (a : Cfunc) (σ' : Acx)
    (h : deref_cfunc c σ = some (a, σ')) : σ' = σ := by
  unfold deref_cfunc at h
  split at h
  · simp at h
  · split at h
    · simp at h
    · simp at h
      exact h.2.symm

theorem top_scope_readonly (σ : Acx) (a : StabScope) (σ' : Acx)
    (h : top_scope σ = some (a, σ')) : σ' = σ := by
  unfold top_scope at h
  split at h
  · simp at h
  · simp at h
    exact h.2.symm

theorem Inv.getAcx {I : Acx → Prop} : Inv I getAcx := Inv.of_readonly getAcx_readonly

theorem Inv.orAbort {α : Type} {I : Acx → Prop} (o : Option α) : Inv I (orAbort o) :=
  Inv.of_readonly (orAbort_readonly o)

theorem Inv.STAB_VAR {I : Acx → Prop} (idx : Nat) : Inv I (STAB_VAR idx) :=
  Inv.of_readonly (STAB_VAR_readonly idx)

theorem Inv.STAB_TYPE {I : Acx → Prop} (idx : Nat) : Inv I (STAB_TYPE idx) :=
  Inv.of_readonly (STAB_TYPE_readonly idx)

theorem Inv.deref_func {I : Acx → Prop} (p : FuncPtr) : Inv I (deref_func p) :=
  Inv.of_readonly (deref_func_readonly p)

theorem Inv.deref_cfunc {I : Acx → Prop} (c : Option Nat) : Inv I (deref_cfunc c) :=
  Inv.of_readonly (deref_cfunc_readonly c)

theorem Inv.top_scope {I : Acx → Prop} : Inv I top_scope :=
  Inv.of_readonly top_scope_readonly

theorem size_of_type_inv {I : Acx → Prop} (h : EmitClosed I) (idx : Nat) :
    Inv I (size_of_type idx) := by
  unfold size_of_type
  refine Inv.seq (Inv.STAB_TYPE _) fun t => ?_
  split <;> first | exact Inv.pure _ | exact Inv.seq (h.err _) fun _ => Inv.pure _

theorem find_field_inv {I : Acx → Prop} (h : EmitClosed I) (n : String) (loc : InsnPtr) :
    ∀ (fs : List StabRecordField) (offset : Int), Inv I (find_field n loc fs offset)
  | [], _ => by
    rw [find_field]
    exact Inv.pure _
  | f :: rest, offset => by
    rw [find_field]
    split
    · exact Inv.seq (Inv.STAB_TYPE _) fun _ => Inv.seq (h.insn _ _ _ _ (by decide)) fun _ => Inv.pure _
    · exact Inv.seq (size_of_type_inv h _) fun _ => find_field_inv h n loc rest _

theorem path_components_inv {I : Acx → Prop} (h : EmitClosed I) (loc : InsnPtr) :
    ∀ (cs : List String) (ty : StabType), Inv I (path_components loc cs ty)
  | [], _ => by
    rw [path_components]
    exact Inv.pure _
  | n :: rest, ty => by
    rw [path_components]
    split
    · exact Inv.seq (h.err _) fun _ => path_components_inv h loc rest _
    · split
      · refine Inv.seq (find_field_inv h _ _ _ _) fun r => ?_
        split
        · exact path_components_inv h loc rest _
        · exact Inv.seq (h.err _) fun _ => path_components_inv h loc rest _
      · exact path_components_inv h loc rest _

theorem display_address_inv {I : Acx → Prop} (h : EmitClosed I) (idx : Nat) :
    Inv I (display_address idx) := by
  unfold display_address
  exact Inv.seq (h.insn _ _ _ _ (by decide)) fun _ => Inv.seq (Inv.STAB_VAR _) fun _ =>
    Inv.seq (h.insn _ _ _ _ (by decide)) fun _ => h.insn _ _ _ _ (by decide)

theorem ExprClosed.insn_all {I : Acx → Prop} (h : ExprClosed I) (op : Opcode)
    (a b c : Operand) : Inv I (INSN op a b c) := by
  by_cases e : op = Opcode.FCALL
  · rw [e]
    exact h.fcall a b c
  · exact h.insn op a b c e

theorem type_of_path_inv {I : Acx → Prop} (h : EmitClosed I)
    (hc : ∀ idx, Inv I (capture_var idx)) (ops : SymOps) (p : AstPath) :
    Inv I (type_of_path ops p) := by
  unfold type_of_path
  refine Inv.seq (Inv.orAbort _) fun name => Inv.seq Inv.getAcx fun σ =>
    Inv.seq (Inv.orAbort _) fun idx => Inv.seq ?_ fun loc =>
    Inv.seq (Inv.STAB_VAR _) fun v => Inv.seq (Inv.STAB_TYPE _) fun ty =>
    Inv.seq (path_components_inv h _ _ _) fun _ => Inv.pure _
  split
  · exact Inv.seq (hc _) fun _ => display_address_inv h _
  · exact Inv.seq (Inv.STAB_VAR _) fun _ => Inv.pure _

theorem bin_insn_inv {I : Acx → Prop} (h : EmitClosed I) (op : Tok) (l r : Operand) :
    Inv I (bin_insn op l r) := by
  unfold bin_insn
  split <;> first | exact h.insn _ _ _ _ (by decide) | exact Inv.seq (h.err _) fun _ => Inv.pure _

mutual
theorem analyze_expr_inv {I : Acx → Prop} (h : ExprClosed I) (ops : SymOps) :
    ∀ e : Expr, Inv I (analyze_expr ops e)
  | Expr.APP name args => by
    rw [analyze_expr]
    exact analyze_call_inv h ops name args
  | Expr.BIN op l r => by
    rw [analyze_expr]
    refine Inv.seq (analyze_expr_inv h ops l) fun lty =>
      Inv.seq (analyze_expr_inv h ops r) fun rty => Inv.seq ?_ fun _ =>
      Inv.seq (bin_insn_inv h.toEmitClosed _ _ _) fun _ => Inv.pure _
    split
    · exact Inv.seq (h.diag _) fun _ => Inv.seq (h.diag _) fun _ => h.err _
    · exact Inv.pure _
  | Expr.DEREF d => by
    rw [analyze_expr]
    refine Inv.seq (Inv.orAbort _) fun p => Inv.seq (type_of_path_inv h.toEmitClosed h.capture ops _) fun pathty =>
      Inv.seq (Inv.STAB_TYPE _) fun st => Inv.seq ?_ fun _ =>
      Inv.seq (size_of_type_inv h.toEmitClosed _) fun _ => Inv.seq (h.insn_all _ _ _ _) fun _ => Inv.pure _
    split
    · exact h.err _
    · exact Inv.pure _
  | Expr.IDX path e => by
    rw [analyze_expr]
    refine Inv.seq (type_of_path_inv h.toEmitClosed h.capture ops _) fun pathty =>
      Inv.seq (Inv.STAB_TYPE _) fun pt => Inv.seq ?_ fun _ =>
      Inv.seq (analyze_expr_inv h ops e) fun ety => Inv.seq ?_ fun _ =>
      Inv.seq (size_of_type_inv h.toEmitClosed _) fun _ => Inv.seq (h.insn_all _ _ _ _) fun _ =>
      Inv.seq (h.insn_all _ _ _ _) fun _ => Inv.pure _
    · split
      · exact h.err _
      · exact Inv.pure _
    · split
      · exact h.err _
      · exact Inv.pure _
  | Expr.LIT n => by
    rw [analyze_expr]
    exact Inv.seq (h.insn_all _ _ _ _) fun _ => Inv.pure _
  | Expr.PATH p => by
    rw [analyze_expr]
    exact type_of_path_inv h.toEmitClosed h.capture ops p
  | Expr.UN op e => by
    rw [analyze_expr]
    refine Inv.seq (analyze_expr_inv h ops e) fun ety => Inv.seq ?_ fun _ => Inv.pure _
    split
    · exact h.err _
    · split
      · exact h.err _
      · exact Inv.pure _
  | Expr.ADDROF e => by
    rw [analyze_expr]
    exact Inv.seq (analyze_expr_inv h ops e) fun ety => Inv.seq (Inv.STAB_TYPE _) fun _ =>
      Inv.seq (h.push_type _) fun _ => Inv.pure _
  | Expr.OTHER => by
    rw [analyze_expr]
    exact Triple.abort
theorem analyze_call_inv {I : Acx → Prop} (h : ExprClosed I) (ops : SymOps) (p : AstPath) :
    ∀ args : ExprList, Inv I (analyze_call ops p args)
  | args => by
    rw [analyze_call]
    split
    · exact Triple.abort
    · refine Inv.seq (Inv.orAbort _) fun name => Inv.seq Inv.getAcx fun σ =>
        Inv.seq (Inv.orAbort _) fun pty => Inv.seq (Inv.STAB_TYPE _) fun pt => ?_
      split
      · exact Inv.seq (analyze_magic_inv h ops _ args) fun _ => Inv.pure _
      · refine Inv.seq ?_ fun _ => Inv.seq ?_ fun _ =>
          Inv.seq (call_args_inv h ops args _ _) fun _ =>
          Inv.seq (h.insn_all _ _ _ _) fun _ => Inv.pure _
        · split
          · exact h.err _
          · exact Inv.pure _
        · split
          · exact h.err _
          · exact Inv.pure _
theorem call_args_inv {I : Acx → Prop} (h : ExprClosed I) (ops : SymOps) :
    ∀ (args : ExprList) (formals : List Nat) (i : Nat), Inv I (call_args ops args formals i)
  | ExprList.nil, _, _ => by
    rw [call_args]
    exact Inv.pure _
  | ExprList.cons _ _, [], _ => by
    rw [call_args]
    exact Inv.pure _
  | ExprList.cons e rest, ft :: formals, i => by
    rw [call_args]
    refine Inv.seq (analyze_expr_inv h ops e) fun et => Inv.seq Inv.getAcx fun σ =>
      Inv.seq (Inv.STAB_VAR _) fun fv => Inv.seq ?_ fun _ =>
      Inv.seq (call_args_inv h ops rest formals _) fun _ => Inv.pure _
    split
    · exact h.diag _
    · exact Inv.pure _
theorem analyze_magic_inv {I : Acx → Prop} (h : ExprClosed I) (ops : SymOps) (which : Nat) :
    ∀ args : ExprList, Inv I (analyze_magic ops which args)
  | args => by
    rw [analyze_magic]
    split
    · refine Inv.seq (magic_write_args_inv h ops args) fun _ => ?_
      split
      · exact Inv.seq (h.insn_all _ _ _ _) fun _ => Inv.pure _
      · exact Inv.pure _
    · split
      · exact magic_read_args_inv h ops args
      · exact Triple.abort
theorem magic_write_args_inv {I : Acx → Prop} (h : ExprClosed I) (ops : SymOps) :
    ∀ args : ExprList, Inv I (magic_write_args ops args)
  | ExprList.nil => by
    rw [magic_write_args]
    exact Inv.pure _
  | ExprList.cons e rest => by
    rw [magic_write_args]
    exact Inv.seq (analyze_expr_inv h ops e) fun r => Inv.seq (Inv.orAbort _) fun _ =>
      Inv.seq (h.insn_all _ _ _ _) fun _ => magic_write_args_inv h ops rest
theorem magic_read_args_inv {I : Acx → Prop} (h : ExprClosed I) (ops : SymOps) :
    ∀ args : ExprList, Inv I (magic_read_args ops args)
  | ExprList.nil => by
    rw [magic_read_args]
    exact Inv.pure _
  | ExprList.cons e rest => by
    rw [magic_read_args]
    refine Inv.seq ?_ fun _ => Inv.seq (analyze_expr_inv h ops e) fun r =>
      Inv.seq (Inv.orAbort _) fun _ =>
      Inv.seq (h.insn_all _ _ _ _) fun _ => magic_read_args_inv h ops rest
    split
    · exact h.err _
    · exact Inv.pure _
end


theorem ite_unit_inv {I : Acx → Prop} {c : Prop} [Decidable c] {m : M Unit}
    (h : Inv I m) : Inv I (if c then m else pure ()) := by
  split
  · exact h
  · exact Inv.pure _

theorem check_assignability_tail_inv {ι : Type} {I : ι → Acx → Prop} {up : ι → ι}
    {F : Nat → Prop} (h : StmtClosed I up F) (j : ι) (ops : SymOps) (e : Expr) :
    Inv (I j) (check_assignability_tail ops e) := by
  unfold check_assignability_tail
  refine Inv.seq Inv.getAcx fun σ => Inv.seq (Inv.deref_func _) fun cf =>
    Inv.seq (Inv.orAbort _) fun p => Inv.seq (Inv.orAbort _) fun elt =>
    Inv.seq (ite_unit_inv ((h.expr j).err _)) fun _ => ite_unit_inv (h.ret j)

theorem check_assignability_path_inv {ι : Type} {I : ι → Acx → Prop} {up : ι → ι}
    {F : Nat → Prop} (h : StmtClosed I up F) (j : ι) (ops : SymOps) (p : AstPath) :
    Inv (I j) (check_assignability_path ops p) := by
  unfold check_assignability_path
  refine Inv.seq Inv.getAcx fun σ => ?_
  split
  · exact Inv.pure _
  · exact Inv.seq (check_assignability_tail_inv h j ops _) fun _ => Inv.pure _

theorem check_assignability_inv {ι : Type} {I : ι → Acx → Prop} {up : ι → ι}
    {F : Nat → Prop} (h : StmtClosed I up F) (j : ι) (ops : SymOps) :
    ∀ e : Expr, Inv (I j) (check_assignability ops e)
  | Expr.PATH p => by
    rw [check_assignability]
    exact check_assignability_path_inv h j ops p
  | Expr.IDX p e => by
    rw [check_assignability]
    refine Inv.seq Inv.getAcx fun σ => ?_
    split
    · exact Inv.pure _
    · exact Inv.seq (check_assignability_path_inv h j ops _) fun _ =>
        Inv.seq (check_assignability_tail_inv h j ops _) fun _ => Inv.pure _
  | Expr.DEREF d => by
    rw [check_assignability]
    refine Inv.seq Inv.getAcx fun σ => ?_
    split
    · exact Inv.pure _
    · exact Inv.seq (check_assignability_inv h j ops d) fun _ =>
        Inv.seq (check_assignability_tail_inv h j ops _) fun _ => Inv.pure _
  | Expr.APP _ _ => by
    rw [check_assignability]
    refine Inv.seq Inv.getAcx fun σ => ?_
    split
    · exact Inv.pure _
    · exact Triple.abort
  | Expr.BIN _ _ _ => by
    rw [check_assignability]
    refine Inv.seq Inv.getAcx fun σ => ?_
    split
    · exact Inv.pure _
    · exact Triple.abort
  | Expr.LIT _ => by
    rw [check_assignability]
    refine Inv.seq Inv.getAcx fun σ => ?_
    split
    · exact Inv.pure _
    · exact Triple.abort
  | Expr.UN _ _ => by
    rw [check_assignability]
    refine Inv.seq Inv.getAcx fun σ => ?_
    split
    · exact Inv.pure _
    · exact Triple.abort
  | Expr.ADDROF _ => by
    rw [check_assignability]
    refine Inv.seq Inv.getAcx fun σ => ?_
    split
    · exact Inv.pure _
    · exact Triple.abort
  | Expr.OTHER => by
    rw [check_assignability]
    refine Inv.seq Inv.getAcx fun σ => ?_
    split
    · exact Inv.pure _
    · exact Triple.abort

theorem set_b_inv_of {ι : Type} {I : ι → Acx → Prop} {up : ι → ι}
    {F : Nat → Prop} (h : StmtCore I up F) (j : ι) {i : InsnPtr} (o : Operand)
    (hi : ∃ k, i = InsnPtr.ptr k ∧ F k) : Inv (I j) (set_b i o) := by
  obtain ⟨k, rfl, hk⟩ := hi
  exact h.set_b j k o hk

theorem set_c_inv_of {ι : Type} {I : ι → Acx → Prop} {up : ι → ι}
    {F : Nat → Prop} (h : StmtCore I up F) (j : ι) {i : InsnPtr} (o : Operand)
    (hi : ∃ k, i = InsnPtr.ptr k ∧ F k) : Inv (I j) (set_c i o) := by
  obtain ⟨k, rfl, hk⟩ := hi
  exact h.set_c j k o hk

mutual
/-- The analysis of a statement preserves a family closed as `StmtCore` asks,
when `check_assignability` preserves it on every lvalue that does not satisfy
`B` and no assignment of the statement has an lvalue satisfying `B`. -/
theorem analyze_stmt_lv {ι : Type} {I : ι → Acx → Prop} {up : ι → ι}
    {F : Nat → Prop} (h : StmtCore I up F) (ops : SymOps) (u : Indet) (B : Expr → Bool)
    (hB : ∀ j lv, B lv = false → Inv (I j) (check_assignability ops lv)) :
    ∀ (s : Stmt) (j : ι), any_lvalue B s = false → Inv (I j) (analyze_stmt ops u s)
  | Stmt.NULL, j, _ => by
    rw [analyze_stmt]
    exact Inv.pure _
  | Stmt.ASSIGN lvalue rvalue, j, hq => by
    rw [any_lvalue] at hq
    rw [analyze_stmt]
    exact Inv.seq (analyze_expr_inv (h.expr j) ops _) fun lty =>
      Inv.seq (hB j _ hq) fun _ =>
      Inv.seq (analyze_expr_inv (h.expr j) ops _) fun rty =>
      Inv.seq Inv.getAcx fun σ =>
      Inv.seq (ite_unit_inv ((h.expr j).err _)) fun _ =>
      Inv.seq (size_of_type_inv (h.expr j).toEmitClosed _) fun sz =>
      Inv.seq ((h.expr j).insn_all _ _ _ _) fun _ => Inv.pure _
  | Stmt.FOR _ start end_ body, j, hq => by
    rw [any_lvalue] at hq
    rw [analyze_stmt]
    refine Triple.step (analyze_expr_inv (h.expr j) ops _) fun sty =>
      Triple.step (analyze_expr_inv (h.expr j) ops _) fun ety =>
      Triple.step ?_ fun _ =>
      Triple.bind (h.enter j) fun _ =>
      Triple.step (Inv.STAB_TYPE _) fun it =>
      Triple.step ((h.expr (up j)).insn_all _ _ _ _) fun i1 =>
      Triple.step (size_of_type_inv (h.expr (up j)).toEmitClosed _) fun sz =>
      Triple.step ((h.expr (up j)).insn_all _ _ _ _) fun _ =>
      Triple.bind (h.fresh (up j) _ _ _ _) fun i2 => Triple.pre_pure fun hi2 =>
      Triple.step (h.new_bb (up j)) fun l0 =>
      Triple.step (size_of_type_inv (h.expr (up j)).toEmitClosed _) fun sz =>
      Triple.step ((h.expr (up j)).insn_all _ _ _ _) fun i3 =>
      Triple.bind (h.fresh (up j) _ _ _ _) fun i4 => Triple.pre_pure fun hi4 =>
      Triple.step ((h.expr (up j)).insn_all _ _ _ _) fun _ =>
      Triple.step (h.new_bb (up j)) fun l1 =>
      Triple.step (analyze_stmt_lv h ops u B hB body (up j) hq) fun _ =>
      Triple.step ((h.expr (up j)).insn_all _ _ _ _) fun i5 =>
      Triple.step (size_of_type_inv (h.expr (up j)).toEmitClosed _) fun sz =>
      Triple.step ((h.expr (up j)).insn_all _ _ _ _) fun _ =>
      Triple.step ((h.expr (up j)).insn_all _ _ _ _) fun _ =>
      Triple.step (h.new_bb (up j)) fun l2 =>
      Triple.step (set_b_inv_of h (up j) _ hi2) fun _ =>
      Triple.step (set_b_inv_of h (up j) _ hi4) fun _ =>
      Triple.step (set_c_inv_of h (up j) _ hi4) fun _ =>
      h.leave j
    split
    · exact (h.expr j).err _
    · exact ite_unit_inv ((h.expr j).err _)
  | Stmt.ITE cond then_ elze, j, hq => by
    rw [any_lvalue, Bool.or_eq_false_iff] at hq
    rw [analyze_stmt]
    exact Triple.step (analyze_expr_inv (h.expr j) ops _) fun cty =>
      Triple.step (ite_unit_inv ((h.expr j).err _)) fun _ =>
      Triple.bind (h.fresh j _ _ _ _) fun i1 => Triple.pre_pure fun hi1 =>
      Triple.step (h.new_bb j) fun l0 =>
      Triple.step (analyze_stmt_lv h ops u B hB then_ j hq.1) fun _ =>
      Triple.bind (h.fresh j _ _ _ _) fun i2 => Triple.pre_pure fun hi2 =>
      Triple.step (h.new_bb j) fun l1 =>
      Triple.step (analyze_stmt_lv h ops u B hB elze j hq.2) fun _ =>
      Triple.bind (h.fresh j _ _ _ _) fun i3 => Triple.pre_pure fun hi3 =>
      Triple.step (h.new_bb j) fun l2 =>
      Triple.step (set_b_inv_of h j _ hi1) fun _ =>
      Triple.step (set_c_inv_of h j _ hi1) fun _ =>
      Triple.step (set_b_inv_of h j _ hi2) fun _ =>
      set_b_inv_of h j _ hi3
  | Stmt.PROC name args, j, _ => by
    rw [analyze_stmt]
    exact Inv.seq (analyze_call_inv (h.expr j) ops _ _) fun _ => Inv.pure _
  | Stmt.STMTS stmts, j, hq => by
    rw [any_lvalue] at hq
    rw [analyze_stmt]
    exact analyze_stmts_lv h ops u B hB stmts j hq
  | Stmt.WDO cond body, j, hq => by
    rw [any_lvalue] at hq
    rw [analyze_stmt]
    exact Triple.step (ite_unit_inv ((h.expr j).err _)) fun _ =>
      Triple.step (h.new_bb j) fun l0 =>
      Triple.step (analyze_expr_inv (h.expr j) ops _) fun cty =>
      Triple.bind (h.fresh j _ _ _ _) fun i1 => Triple.pre_pure fun hi1 =>
      Triple.step (h.new_bb j) fun l1 =>
      Triple.step (analyze_stmt_lv h ops u B hB body j hq) fun _ =>
      Triple.step ((h.expr j).insn_all _ _ _ _) fun _ =>
      Triple.step (h.new_bb j) fun l2 =>
      Triple.step (set_b_inv_of h j _ hi1) fun _ =>
      set_c_inv_of h j _ hi1
  | Stmt.OTHER, j, _ => by
    rw [analyze_stmt]
    exact Triple.abort
theorem analyze_stmts_lv {ι : Type} {I : ι → Acx → Prop} {up : ι → ι}
    {F : Nat → Prop} (h : StmtCore I up F) (ops : SymOps) (u : Indet) (B : Expr → Bool)
    (hB : ∀ j lv, B lv = false → Inv (I j) (check_assignability ops lv)) :
    ∀ (l : StmtList) (j : ι), any_lvalue_list B l = false → Inv (I j) (analyze_stmts ops u l)
  | StmtList.nil, j, _ => by
    rw [analyze_stmts]
    exact Inv.pure _
  | StmtList.cons s rest, j, hq => by
    rw [any_lvalue_list, Bool.or_eq_false_iff] at hq
    rw [analyze_stmts]
    exact Inv.seq (analyze_stmt_lv h ops u B hB s j hq.1) fun _ =>
      analyze_stmts_lv h ops u B hB rest j hq.2
end

mutual
theorem any_lvalue_none : ∀ s : Stmt, any_lvalue (fun _ => false) s = false
  | Stmt.NULL => by rw [any_lvalue]
  | Stmt.ASSIGN _ _ => by rw [any_lvalue]
  | Stmt.FOR _ _ _ body => by rw [any_lvalue, any_lvalue_none body]
  | Stmt.ITE _ then_ elze => by
    rw [any_lvalue, any_lvalue_none then_, any_lvalue_none elze]
    rfl
  | Stmt.PROC _ _ => by rw [any_lvalue]
  | Stmt.STMTS stmts => by rw [any_lvalue, any_lvalue_list_none stmts]
  | Stmt.WDO _ body => by rw [any_lvalue, any_lvalue_none body]
  | Stmt.OTHER => by rw [any_lvalue]
theorem any_lvalue_list_none : ∀ l : StmtList, any_lvalue_list (fun _ => false) l = false
  | StmtList.nil => by rw [any_lvalue_list]
  | StmtList.cons s rest => by
    rw [any_lvalue_list, any_lvalue_none s, any_lvalue_list_none rest]
    rfl
end

theorem analyze_stmt_inv {ι : Type} {I : ι → Acx → Prop} {up : ι → ι}
    {F : Nat → Prop} (h : StmtClosed I up F) (ops : SymOps) (u : Indet) (s : Stmt) (j : ι) :
    Inv (I j) (analyze_stmt ops u s) :=
  analyze_stmt_lv h.toStmtCore ops u (fun _ => false)
    (fun j lv _ => check_assignability_inv h j ops lv) s j (any_lvalue_none s)

theorem analyze_stmts_inv {ι : Type} {I : ι → Acx → Prop} {up : ι → ι}
    {F : Nat → Prop} (h : StmtClosed I up F) (ops : SymOps) (u : Indet) (l : StmtList)
    (j : ι) : Inv (I j) (analyze_stmts ops u l) :=
  analyze_stmts_lv h.toStmtCore ops u (fun _ => false)
    (fun j lv _ => check_assignability_inv h j ops lv) l j (any_lvalue_list_none l)


/-! ## What the primitives do to the context -/

theorem span_err_eff (msg : String) (σ : Acx) :
    span_err msg σ = some ((), { σ with sink := σ.sink ++ [Diag.err msg] }) := rfl

theorem span_diag_eff (msg : String) (σ : Acx) :
    span_diag msg σ = some ((), { σ with sink := σ.sink ++ [Diag.diag msg] }) := rfl

theorem stab_enter_eff (σ : Acx) :
    stab_enter σ = some ((), { σ with
      st := { σ.st with chain := σ.st.chain ++ [{ vars := [], funcs := [], types := [] }] },
      scope_ops := σ.scope_ops ++ [ScopeOp.enter] }) := rfl

theorem stab_leave_eff (σ : Acx) :
    stab_leave σ = some ((), { σ with
      st := { σ.st with chain := σ.st.chain.dropLast },
      scope_ops := σ.scope_ops ++ [ScopeOp.leave] }) := rfl

theorem push_type_eff (t : StabType) (σ : Acx) :
    push_type t σ = some (σ.st.types.length,
      { σ with st := { σ.st with types := σ.st.types ++ [t] } }) := rfl

theorem push_var_eff (v : StabVar) (σ : Acx) :
    push_var v σ = some (σ.st.vars.length,
      { σ with st := { σ.st with vars := σ.st.vars ++ [v] } }) := rfl

theorem insn_new_eff (i : Insn) (σ : Acx) :
    insn_new i σ = some (InsnPtr.ptr σ.insns.length, { σ with insns := σ.insns ++ [i] }) := rfl

theorem cir_bb_eff (σ : Acx) :
    cir_bb σ = some (σ.bbs.length, { σ with bbs := σ.bbs ++ [{ insns := [] }] }) := rfl

theorem modifyAcx_eff (f : Acx → Acx) (σ : Acx) : modifyAcx f σ = some ((), f σ) := rfl

theorem bb_push_eff {b : Option Nat} {i : InsnPtr} {σ σ' : Acx} {r : Unit}
    (h : bb_push b i σ = some (r, σ')) :
    ∃ k blk, b = some k ∧ σ.bbs.get? k = some blk ∧
      σ' = { σ with bbs := σ.bbs.set k { insns := blk.insns ++ [i] } } := by
  unfold bb_push at h
  split at h
  · simp at h
  · rename_i k
    split at h
    · simp at h
    · rename_i blk hb
      simp only [Option.some.injEq, Prod.mk.injEq] at h
      exact ⟨k, blk, rfl, hb, h.2.symm⟩

theorem INSN_eff {op : Opcode} {a b c : Operand} {σ σ' : Acx} {r : InsnPtr}
    (h : INSN op a b c σ = some (r, σ')) :
    ∃ k blk, σ.current_bb = some k ∧ σ.bbs.get? k = some blk ∧
      r = InsnPtr.ptr σ.insns.length ∧
      σ' = { σ with insns := σ.insns ++ [{ op := op, a := a, b := b, c := c }],
                    bbs := σ.bbs.set k { insns := blk.insns ++ [InsnPtr.ptr σ.insns.length] } } := by
  unfold INSN at h
  obtain ⟨i, σ1, h1, h⟩ := bind_eq_some.mp h
  obtain ⟨σ2, σ3, h2, h⟩ := bind_eq_some.mp h
  obtain ⟨u, σ4, h3, h⟩ := bind_eq_some.mp h
  rw [insn_new_eff] at h1
  simp only [Option.some.injEq, Prod.mk.injEq] at h1
  obtain ⟨rfl, rfl⟩ := h1
  simp only [getAcx, Option.some.injEq, Prod.mk.injEq] at h2
  obtain ⟨rfl, rfl⟩ := h2
  obtain ⟨k, blk, hk, hb, rfl⟩ := bb_push_eff h3
  obtain ⟨rfl, rfl⟩ := pure_eq_some.mp h
  exact ⟨k, blk, hk, hb, rfl, rfl⟩

theorem set_b_eff {k : Nat} {o : Operand} {σ σ' : Acx} {r : Unit}
    (h : set_b (InsnPtr.ptr k) o σ = some (r, σ')) :
    ∃ x, σ.insns.get? k = some x ∧ σ' = { σ with insns := σ.insns.set k { x with b := o } } := by
  unfold set_b at h
  simp only at h
  split at h
  · simp at h
  · rename_i x hx
    simp only [Option.some.injEq, Prod.mk.injEq] at h
    exact ⟨x, hx, h.2.symm⟩

theorem set_c_eff {k : Nat} {o : Operand} {σ σ' : Acx} {r : Unit}
    (h : set_c (InsnPtr.ptr k) o σ = some (r, σ')) :
    ∃ x, σ.insns.get? k = some x ∧ σ' = { σ with insns := σ.insns.set k { x with c := o } } := by
  unfold set_c at h
  simp only at h
  split at h
  · simp at h
  · rename_i x hx
    simp only [Option.some.injEq, Prod.mk.injEq] at h
    exact ⟨x, hx, h.2.symm⟩

theorem store_cfunc_eff {c : Option Nat} {v : Cfunc} {σ σ' : Acx} {r : Unit}
    (h : store_cfunc c v σ = some (r, σ')) :
    ∃ k, c = some k ∧ σ' = { σ with cfuncs := σ.cfuncs.set k v } := by
  unfold store_cfunc at h
  split at h
  · simp at h
  · rename_i k
    simp only [Option.some.injEq, Prod.mk.injEq] at h
    exact ⟨k, rfl, h.2.symm⟩

theorem new_current_bb_eff {σ σ' : Acx} {r : Nat} (h : new_current_bb σ = some (r, σ')) :
    ∃ cfs, r = σ.bbs.length ∧
      σ' = { σ with bbs := σ.bbs ++ [{ insns := [] }], current_bb := some σ.bbs.length,
                    cfuncs := cfs } := by
  unfold new_current_bb at h
  obtain ⟨b, σ1, h1, h⟩ := bind_eq_some.mp h
  obtain ⟨u1, σ2, h2, h⟩ := bind_eq_some.mp h
  obtain ⟨σ3, σ4, h3, h⟩ := bind_eq_some.mp h
  obtain ⟨f, σ5, h4, h⟩ := bind_eq_some.mp h
  obtain ⟨cf, σ6, h5, h⟩ := bind_eq_some.mp h
  obtain ⟨u2, σ7, h6, h⟩ := bind_eq_some.mp h
  rw [cir_bb_eff] at h1
  simp only [Option.some.injEq, Prod.mk.injEq] at h1
  obtain ⟨rfl, rfl⟩ := h1
  rw [modifyAcx_eff] at h2
  simp only [Option.some.injEq, Prod.mk.injEq] at h2
  obtain ⟨-, rfl⟩ := h2
  simp only [getAcx, Option.some.injEq, Prod.mk.injEq] at h3
  obtain ⟨rfl, rfl⟩ := h3
  have e5 := deref_func_readonly _ _ _ _ h4
  subst e5
  have e6 := deref_cfunc_readonly _ _ _ _ h5
  subst e6
  obtain ⟨k, hk, rfl⟩ := store_cfunc_eff h6
  obtain ⟨rfl, rfl⟩ := pure_eq_some.mp h
  exact ⟨_, rfl, rfl⟩

theorem STAB_VAR_eq {idx : Nat} {σ σ' : Acx} {v : StabVar}
    (h : STAB_VAR idx σ = some (v, σ')) : σ.st.vars.get? idx = some v ∧ σ = σ' := by
  unfold STAB_VAR at h
  split at h
  · simp at h
  · rename_i w hw
    simp only [Option.some.injEq, Prod.mk.injEq] at h
    exact ⟨by rw [hw, h.1], h.2⟩

theorem STAB_TYPE_eq {idx : Nat} {σ σ' : Acx} {t : StabType}
    (h : STAB_TYPE idx σ = some (t, σ')) : σ.st.types.get? idx = some t ∧ σ = σ' := by
  unfold STAB_TYPE at h
  split at h
  · simp at h
  · rename_i w hw
    simp only [Option.some.injEq, Prod.mk.injEq] at h
    exact ⟨by rw [hw, h.1], h.2⟩

theorem getAcx_eq {σ σ' a : Acx} (h : getAcx σ = some (a, σ')) : σ = a ∧ σ = σ' := by
  simp only [getAcx, Option.some.injEq, Prod.mk.injEq] at h
  exact h

theorem orAbort_eq {α : Type} {o : Option α} {σ σ' : Acx} {a : α}
    (h : orAbort o σ = some (a, σ')) : o = some a ∧ σ = σ' := by
  cases o with
  | none => simp [orAbort, Dragon.abort] at h
  | some x =>
    simp only [orAbort, M.pure, Option.some.injEq, Prod.mk.injEq] at h
    exact ⟨by rw [h.1], h.2⟩

theorem deref_func_eq {p : FuncPtr} {σ σ' : Acx} {cf : StabType}
    (h : deref_func p σ = some (cf, σ')) :
    σ = σ' ∧ ((p = FuncPtr.local_t ∧ cf = σ.t) ∨
      ∃ i, p = FuncPtr.entry i ∧ σ.st.types.get? i = some cf) := by
  cases p with
  | null => simp [deref_func] at h
  | local_t =>
    simp only [deref_func, Option.some.injEq, Prod.mk.injEq] at h
    exact ⟨h.2, Or.inl ⟨rfl, h.1.symm⟩⟩
  | entry i =>
    simp only [deref_func] at h
    split at h
    · simp at h
    · rename_i t ht
      simp only [Option.some.injEq, Prod.mk.injEq] at h
      exact ⟨h.2, Or.inr ⟨i, rfl, by rw [ht, h.1]⟩⟩

theorem store_func_eff {p : FuncPtr} {v : StabType} {σ σ' : Acx} {r : Unit}
    (h : store_func p v σ = some (r, σ')) :
    (p = FuncPtr.local_t ∧ σ' = { σ with t := v }) ∨
    ∃ i, p = FuncPtr.entry i ∧
      σ' = { σ with st := { σ.st with types := σ.st.types.set i v } } := by
  cases p with
  | null => simp [store_func] at h
  | local_t =>
    simp only [store_func, Option.some.injEq, Prod.mk.injEq] at h
    exact Or.inl ⟨rfl, h.2.symm⟩
  | entry i =>
    simp only [store_func, Option.some.injEq, Prod.mk.injEq] at h
    exact Or.inr ⟨i, rfl, h.2.symm⟩

theorem capture_var_eff {idx : Nat} {σ σ' : Acx} {r : Unit}
    (h : capture_var idx σ = some (r, σ')) :
    σ' = σ ∨ ∃ v, σ.st.vars.get? idx = some v ∧ v.captured = false ∧
      σ' = { σ with
        st := { σ.st with
          vars := σ.st.vars.set idx ({ v with captured := true, disp_offset := σ.disp_offset }) },
        disp_offset := σ.disp_offset + 1 } := by
  unfold capture_var at h
  obtain ⟨v, σ1, h1, h2⟩ := bind_eq_some.mp h
  clear h
  obtain ⟨hv, rfl⟩ := STAB_VAR_eq h1
  by_cases hc : v.captured = true
  · rw [if_neg (by simpa using hc)] at h2
    obtain ⟨-, rfl⟩ := pure_eq_some.mp h2
    exact Or.inl rfl
  · rw [if_pos hc] at h2
    obtain ⟨σ2, σ3, h3, h4⟩ := bind_eq_some.mp h2
    obtain ⟨rfl, rfl⟩ := getAcx_eq h3
    obtain ⟨u1, σ4, h5, h6⟩ := bind_eq_some.mp h4
    simp only [set_var, modifyAcx_eff, Option.some.injEq, Prod.mk.injEq] at h5 h6
    obtain ⟨-, rfl⟩ := h5
    obtain ⟨-, rfl⟩ := h6
    right
    exact ⟨v, hv, by simpa using hc, rfl⟩

theorem set_ret_assigned_eff {σ σ' : Acx} {r : Unit}
    (h : set_ret_assigned σ = some (r, σ')) :
    (σ.current_func = FuncPtr.local_t ∧
      σ' = { σ with t := { σ.t with ty := { σ.t.ty with func_ret_assigned := true } } }) ∨
    ∃ i cf, σ.current_func = FuncPtr.entry i ∧ σ.st.types.get? i = some cf ∧
      σ' = { σ with st := { σ.st with
        types := σ.st.types.set i ({ cf with ty := { cf.ty with func_ret_assigned := true } }) } } := by
  unfold set_ret_assigned at h
  obtain ⟨σ2, σ3, h2, h3⟩ := bind_eq_some.mp h
  clear h
  obtain ⟨rfl, rfl⟩ := getAcx_eq h2
  obtain ⟨cf, σ4, h4, h5⟩ := bind_eq_some.mp h3
  obtain ⟨rfl, hd⟩ := deref_func_eq h4
  rcases store_func_eff h5 with ⟨hp, rfl⟩ | ⟨i, hp, rfl⟩
  · rcases hd with ⟨-, rfl⟩ | ⟨i, hp', -⟩
    · exact Or.inl ⟨hp, rfl⟩
    · rw [hp] at hp'
      cases hp'
  · rcases hd with ⟨hp', -⟩ | ⟨i', hp', hcf⟩
    · rw [hp] at hp'
      cases hp'
    · rw [hp] at hp'
      cases hp'
      exact Or.inr ⟨i, cf, hp, hcf, rfl⟩

theorem modify_top_scope_eff {f : StabScope → StabScope} {σ σ' : Acx} {r : Unit}
    (h : modify_top_scope f σ = some (r, σ')) :
    ∃ sc, σ.st.chain.getLast? = some sc ∧
      σ' = { σ with st := { σ.st with chain := σ.st.chain.dropLast ++ [f sc] } } := by
  unfold modify_top_scope at h
  split at h
  · simp at h
  · rename_i sc hsc
    simp only [Option.some.injEq, Prod.mk.injEq] at h
    exact ⟨sc, hsc, h.2.symm⟩

/-! ## Invariants of the analysis of subprograms -/

theorem modifyAcx_inv_of_core {ι : Type} {I : ι → Acx → Prop} {up : ι → ι} {F : Nat → Prop}
    (h : ProgClosed I up F) (j : ι) (f : Acx → Acx) (hf : ∀ σ, SameCore σ (f σ)) :
    Inv (I j) (modifyAcx f) := by
  intro σ a σ' hI hm
  rw [modifyAcx_eff] at hm
  simp only [Option.some.injEq, Prod.mk.injEq] at hm
  rw [← hm.2]
  exact h.core j σ (f σ) (hf σ) hI

theorem ProgClosed.decl {ι : Type} {I : ι → Acx → Prop} {up : ι → ι} {F : Nat → Prop}
    (h : ProgClosed I up F) (j : ι) : DeclClosed (I j) where
  expr := h.stmt.expr j
  core := fun σ σ' hs hI => h.core j σ σ' hs.1 hI
  insn_new := h.insn_new j
  push_var := h.push_var j
  top := fun f _ => h.top j f

theorem bb_push_inv {I : Acx → Prop} (h : DeclClosed I) (b : Option Nat) (i : InsnPtr) :
    Inv I (bb_push b i) := by
  intro σ a σ' hI hm
  obtain ⟨k, blk, -, -, rfl⟩ := bb_push_eff hm
  exact h.core σ _ ⟨⟨rfl, rfl, rfl, rfl, rfl⟩, rfl⟩ hI

theorem store_cfunc_inv {I : Acx → Prop} (h : DeclClosed I) (c : Option Nat) (v : Cfunc) :
    Inv I (store_cfunc c v) := by
  intro σ a σ' hI hm
  obtain ⟨k, -, rfl⟩ := store_cfunc_eff hm
  exact h.core σ _ ⟨⟨rfl, rfl, rfl, rfl, rfl⟩, rfl⟩ hI

theorem cir_bb_inv {I : Acx → Prop} (h : DeclClosed I) : Inv I cir_bb := by
  intro σ a σ' hI hm
  rw [cir_bb_eff] at hm
  simp only [Option.some.injEq, Prod.mk.injEq] at hm
  rw [← hm.2]
  exact h.core σ _ ⟨⟨rfl, rfl, rfl, rfl, rfl⟩, rfl⟩ hI

theorem cfunc_new_inv {I : Acx → Prop} (h : DeclClosed I) : Inv I cfunc_new := by
  unfold cfunc_new
  refine Inv.seq (cir_bb_inv h) fun e => ?_
  intro σ a σ' hI hm
  simp only [Option.some.injEq, Prod.mk.injEq] at hm
  rw [← hm.2]
  exact h.core σ _ ⟨⟨rfl, rfl, rfl, rfl, rfl⟩, rfl⟩ hI

mutual
theorem stab_resolve_type_inv {I : Acx → Prop} (h : DeclClosed I) (name : String) :
    ∀ t : AstType, Inv I (stab_resolve_type name t)
  | AstType.SCALAR tag => by
    rw [stab_resolve_type]
    exact Inv.orAbort _
  | AstType.REF n => by
    rw [stab_resolve_type]
    refine Inv.seq Inv.getAcx fun σ => ?_
    split
    · exact Inv.pure _
    · exact Inv.seq (h.expr.err _) fun _ => Triple.abort
  | AstType.POINTER pointee => by
    rw [stab_resolve_type]
    exact Inv.seq (stab_resolve_type_inv h name pointee) fun _ => h.expr.push_type _
  | AstType.ARRAY lower upper elt => by
    rw [stab_resolve_type]
    exact Inv.seq (stab_resolve_type_inv h name elt) fun _ => h.expr.push_type _
  | AstType.RECORD fields => by
    rw [stab_resolve_type]
    exact Inv.seq (stab_resolve_fields_inv h name fields) fun _ => h.expr.push_type _
theorem stab_resolve_fields_inv {I : Acx → Prop} (h : DeclClosed I) (name : String) :
    ∀ fs : AstFieldList, Inv I (stab_resolve_fields name fs)
  | AstFieldList.nil => by
    rw [stab_resolve_fields]
    exact Inv.pure _
  | AstFieldList.cons f type rest => by
    rw [stab_resolve_fields]
    exact Inv.seq (stab_resolve_type_inv h name type) fun _ =>
      Inv.seq (stab_resolve_fields_inv h name rest) fun _ => Inv.pure _
end

theorem stab_add_var_inv {I : Acx → Prop} (h : DeclClosed I) (name : String) (type : Nat) (at_ : Bool) :
    Inv I (stab_add_var name type at_) := by
  unfold stab_add_var
  refine Inv.seq Inv.top_scope fun sc => ?_
  split
  · exact h.expr.err _
  · exact Inv.seq (Inv.STAB_TYPE _) fun _ => Inv.seq (h.insn_new _) fun _ =>
      Inv.seq (h.push_var _ rfl) fun _ => h.top _ (fun _ => rfl)

theorem stab_add_names_inv {I : Acx → Prop} (h : DeclClosed I) (type : Nat) (at_ : Bool) :
    ∀ names : List String, Inv I (stab_add_names type at_ names)
  | [] => by
    rw [stab_add_names]
    exact Inv.pure _
  | n :: rest => by
    rw [stab_add_names]
    exact Inv.seq (stab_add_var_inv h _ _ _) fun _ => stab_add_names_inv h type at_ rest

theorem stab_add_decls_inv {I : Acx → Prop} (h : DeclClosed I) (d : AstDecls) (at_ : Bool) :
    Inv I (stab_add_decls d at_) := by
  unfold stab_add_decls
  exact Inv.seq (stab_resolve_type_inv h _ _) fun _ => stab_add_names_inv h _ _ _

theorem stab_add_type_inv {I : Acx → Prop} (h : DeclClosed I) (name : String) (type : AstType) :
    Inv I (stab_add_type name type) := by
  unfold stab_add_type
  refine Inv.seq Inv.top_scope fun sc => ?_
  split
  · exact h.expr.err _
  · exact Inv.seq (stab_resolve_type_inv h _ _) fun _ => h.top _ (fun _ => rfl)

theorem stab_formal_names_inv {I : Acx → Prop} (h : DeclClosed I) (type : Nat) :
    ∀ names : List String, Inv I (stab_formal_names type names)
  | [] => by
    rw [stab_formal_names]
    exact Inv.pure _
  | n :: rest => by
    rw [stab_formal_names]
    exact Inv.seq (h.push_var _ rfl) fun _ =>
      Inv.seq (stab_formal_names_inv h type rest) fun _ => Inv.pure _

theorem stab_formals_inv {I : Acx → Prop} (h : DeclClosed I) :
    ∀ ds : List AstDecls, Inv I (stab_formals ds)
  | [] => by
    rw [stab_formals]
    exact Inv.pure _
  | d :: rest => by
    rw [stab_formals]
    exact Inv.seq (stab_resolve_type_inv h _ _) fun _ =>
      Inv.seq (stab_formal_names_inv h _ _) fun _ =>
      Inv.seq (stab_formals_inv h rest) fun _ => Inv.pure _

theorem stab_add_func_inv {ι : Type} {I : ι → Acx → Prop} {up : ι → ι} {F : Nat → Prop}
    (h : ProgClosed I up F) (j : ι) (name : String) (head : AstHead) :
    Inv (I j) (stab_add_func name head) := by
  unfold stab_add_func
  refine Inv.seq Inv.top_scope fun sc => ?_
  split
  · exact (h.stmt.expr j).err _
  · exact Inv.seq (stab_formals_inv (h.decl j) _) fun _ =>
      Inv.seq (stab_resolve_type_inv (h.decl j) _ _) fun _ =>
      Inv.seq (cfunc_new_inv (h.decl j)) fun _ =>
      Inv.seq ((h.stmt.expr j).push_type _) fun _ => h.top j _

theorem stab_add_magic_func_inv {ι : Type} {I : ι → Acx → Prop} {up : ι → ι}
    {F : Nat → Prop} (h : ProgClosed I up F) (j : ι) (tag : Nat) :
    Inv (I j) (stab_add_magic_func tag) := by
  unfold stab_add_magic_func
  refine Inv.seq Inv.top_scope fun sc => ?_
  split
  · exact (h.stmt.expr j).err _
  · exact Inv.seq ((h.stmt.expr j).push_type _) fun _ => h.top j _

theorem do_imports_inv {ι : Type} {I : ι → Acx → Prop} {up : ι → ι} {F : Nat → Prop}
    (h : ProgClosed I up F) (j : ι) :
    ∀ l : List String, Inv (I j) (do_imports l)
  | [] => by
    rw [do_imports]
    exact Inv.pure _
  | imp :: rest => by
    rw [do_imports]
    refine Inv.seq ?_ fun _ => do_imports_inv h j rest
    split
    · exact Inv.seq (stab_add_magic_func_inv h j _) fun _ => stab_add_magic_func_inv h j _
    · split
      · exact Inv.seq (stab_add_magic_func_inv h j _) fun _ => stab_add_magic_func_inv h j _
      · exact (h.stmt.expr j).err _

theorem add_types_inv {I : Acx → Prop} (h : DeclClosed I) :
    ∀ l : List AstTypeDecl, Inv I (add_types l)
  | [] => by
    rw [add_types]
    exact Inv.pure _
  | t :: rest => by
    rw [add_types]
    exact Inv.seq (stab_add_type_inv h _ _) fun _ => add_types_inv h rest

theorem add_decls_inv {I : Acx → Prop} (h : DeclClosed I) (at_ : Bool) :
    ∀ l : List AstDecls, Inv I (add_decls l at_)
  | [] => by
    rw [add_decls]
    exact Inv.pure _
  | d :: rest => by
    rw [add_decls]
    exact Inv.seq (stab_add_decls_inv h _ _) fun _ => add_decls_inv h at_ rest

theorem push_locs_inv {I : Acx → Prop} (h : DeclClosed I) :
    ∀ l : List (String × Nat), Inv I (push_locs l)
  | [] => by
    rw [push_locs]
    exact Inv.pure _
  | ent :: rest => by
    rw [push_locs]
    exact Inv.seq (Inv.STAB_VAR _) fun _ => Inv.seq Inv.getAcx fun _ =>
      Inv.seq (bb_push_inv h _ _) fun _ => push_locs_inv h rest

theorem display_prelude_inv {I : Acx → Prop} (h : DeclClosed I) (ld_b : Operand) :
    ∀ (l : List (String × Nat)) (disp : InsnPtr), Inv I (display_prelude ld_b l disp)
  | [], _ => by
    rw [display_prelude]
    exact Inv.pure _
  | ent :: rest, disp => by
    rw [display_prelude]
    refine Inv.seq (Inv.STAB_VAR _) fun v => ?_
    split
    · refine Inv.seq ?_ fun _ => Inv.seq (h.expr.insn_all _ _ _ _) fun _ =>
        Inv.seq (h.expr.insn_all _ _ _ _) fun _ =>
        Inv.seq (h.expr.insn_all _ _ _ _) fun _ =>
        Inv.seq (h.expr.insn_all _ _ _ _) fun _ =>
        Inv.seq (h.expr.insn_all _ _ _ _) fun _ => display_prelude_inv h ld_b rest _
      split
      · exact h.expr.insn_all _ _ _ _
      · exact Inv.pure _
    · exact display_prelude_inv h ld_b rest _

theorem enter_subprog_inv {ι : Type} {I : ι → Acx → Prop} {up : ι → ι} {F : Nat → Prop}
    (h : ProgClosed I up F) (j : ι) (name : String) (head : AstHead) :
    Inv (I j) (enter_subprog name head) := by
  unfold enter_subprog
  exact Inv.seq Inv.getAcx fun σ => Inv.seq (Inv.orAbort _) fun fidx =>
    Inv.seq (modifyAcx_inv_of_core h j _ fun _ => ⟨rfl, rfl, rfl, rfl, rfl⟩) fun _ =>
    Inv.seq (Inv.deref_func _) fun cf => Inv.seq (Inv.deref_func _) fun sf =>
    Inv.seq (Inv.deref_cfunc _) fun sc => Inv.seq (Inv.deref_cfunc _) fun c =>
    Inv.seq (store_cfunc_inv (h.decl j) _ _) fun _ =>
    Inv.seq (modifyAcx_inv_of_core h j _ fun _ => ⟨rfl, rfl, rfl, rfl, rfl⟩) fun _ =>
    Inv.pure _

theorem emit_ret_inv {I : Acx → Prop} (h : DeclClosed I) : Inv I emit_ret := by
  unfold emit_ret
  refine Inv.seq Inv.getAcx fun σ => Inv.seq (Inv.deref_func _) fun cf =>
    Inv.seq (ite_unit_inv (h.expr.err _)) fun _ => ?_
  split
  · exact Inv.seq (Inv.orAbort _) fun _ => Inv.seq (Inv.STAB_VAR _) fun _ =>
      Inv.seq (h.expr.insn_all _ _ _ _) fun _ => Inv.pure _
  · exact Inv.seq (h.expr.insn_all _ _ _ _) fun _ => Inv.pure _

mutual
theorem analyze_subprog_inv {ι : Type} {I : ι → Acx → Prop} {up : ι → ι} {F : Nat → Prop}
    (h : ProgClosed I up F) (ops : SymOps) (u : Indet) :
    ∀ (d : SubDecl) (j : ι), Inv (I j) (analyze_subprog ops u d)
  | SubDecl.mk name head types decls subprogs body, j => by
    rw [analyze_subprog]
    exact Triple.step (enter_subprog_inv h j _ _) fun saved =>
      Triple.bind (h.stmt.enter j) fun _ =>
      Triple.step (add_types_inv (h.decl (up j)) _) fun _ =>
      Triple.step (add_decls_inv (h.decl (up j)) _ _) fun _ =>
      Triple.step (add_decls_inv (h.decl (up j)) _ _) fun _ =>
      Triple.step (stab_resolve_type_inv (h.decl (up j)) _ _) fun rt =>
      Triple.step (stab_add_var_inv (h.decl (up j)) _ _ _) fun _ =>
      Triple.step Inv.top_scope fun top =>
      Triple.step (push_locs_inv (h.decl (up j)) _) fun _ =>
      Triple.step (analyze_subprogs_inv h ops u subprogs (up j)) fun _ =>
      Triple.step Inv.top_scope fun top =>
      Triple.step (display_prelude_inv (h.decl (up j)) _ _ _) fun _ =>
      Triple.step (analyze_stmt_inv h.stmt ops u body (up j)) fun _ =>
      Triple.step (emit_ret_inv (h.decl (up j))) fun _ =>
      Triple.step (modifyAcx_inv_of_core h (up j) _ fun _ => ⟨rfl, rfl, rfl, rfl, rfl⟩) fun _ =>
      h.stmt.leave j
theorem analyze_subprogs_inv {ι : Type} {I : ι → Acx → Prop} {up : ι → ι} {F : Nat → Prop}
    (h : ProgClosed I up F) (ops : SymOps) (u : Indet) :
    ∀ (l : SubDeclList) (j : ι), Inv (I j) (analyze_subprogs ops u l)
  | SubDeclList.nil, j => by
    rw [analyze_subprogs]
    exact Inv.pure _
  | SubDeclList.cons d rest, j => by
    rw [analyze_subprogs]
    exact Inv.seq (stab_add_func_inv h j _ _) fun _ =>
      Inv.seq (analyze_subprog_inv h ops u d j) fun _ => analyze_subprogs_inv h ops u rest j
end

theorem enter_main_inv {ι : Type} {I : ι → Acx → Prop} {up : ι → ι} {F : Nat → Prop}
    (h : ProgClosed I up F) (j : ι) : Inv (I j) enter_main := by
  unfold enter_main
  exact Inv.seq (cfunc_new_inv (h.decl j)) fun c =>
    Inv.seq (modifyAcx_inv_of_core h j _ fun _ => ⟨rfl, rfl, rfl, rfl, rfl⟩) fun _ =>
    Inv.seq (Inv.deref_cfunc _) fun cf =>
    Inv.seq (store_cfunc_inv (h.decl j) _ _) fun _ =>
    Inv.seq (modifyAcx_inv_of_core h j _ fun _ => ⟨rfl, rfl, rfl, rfl, rfl⟩) fun _ =>
    Inv.pure _

theorem analyze_run_triple {ι : Type} {I : ι → Acx → Prop} {up : ι → ι} {F : Nat → Prop}
    (h : ProgClosed I up F) (ops : SymOps) (u : Indet) (prog : AstProgram) (j : ι) :
    Triple (I j) (analyze_run ops u prog) fun _ => I (up j) := by
  unfold analyze_run
  exact Triple.bind (h.stmt.enter j) fun _ =>
    Inv.seq (do_imports_inv h (up j) _) fun _ =>
    Inv.seq (add_types_inv (h.decl (up j)) _) fun _ =>
    Inv.seq (add_decls_inv (h.decl (up j)) _ _) fun _ =>
    Inv.seq (enter_main_inv h (up j)) fun c =>
    Inv.seq (analyze_subprogs_inv h ops u _ (up j)) fun _ =>
    Inv.seq (Inv.deref_cfunc _) fun cf =>
    Inv.seq (modifyAcx_inv_of_core h (up j) _ fun _ => ⟨rfl, rfl, rfl, rfl, rfl⟩) fun _ =>
    Inv.seq Inv.top_scope fun top =>
    Inv.seq (push_locs_inv (h.decl (up j)) _) fun _ =>
    Inv.seq Inv.top_scope fun top =>
    Inv.seq (display_prelude_inv (h.decl (up j)) _ _ _) fun _ =>
    Inv.seq (analyze_stmt_inv h.stmt ops u _ (up j)) fun _ =>
    modifyAcx_inv_of_core h (up j) _ fun _ => ⟨rfl, rfl, rfl, rfl, rfl⟩

/-! ## Scope discipline: lemmas -/

theorem depth_after_append (w1 w2 : List ScopeOp) :
    ∀ d, depth_after d (w1 ++ w2) = (depth_after d w1).bind fun k => depth_after k w2 := by
  induction w1 with
  | nil => intro d; simp [depth_after]
  | cons o w ih =>
    intro d
    cases o with
    | enter => simp [depth_after, ih]
    | leave =>
      cases d with
      | zero => simp [depth_after]
      | succ n => simp [depth_after, ih]

theorem depth_after_count (w : List ScopeOp) :
    ∀ d k, depth_after d w = some k →
      d + w.count ScopeOp.enter = k + w.count ScopeOp.leave := by
  induction w with
  | nil =>
    intro d k h
    simp [depth_after] at h
    simp [h]
  | cons o w ih =>
    intro d k h
    cases o with
    | enter =>
      simp only [depth_after] at h
      have := ih _ _ h
      simp [List.count_cons]
      omega
    | leave =>
      cases d with
      | zero => simp [depth_after] at h
      | succ n =>
        simp only [depth_after] at h
        have := ih _ _ h
        simp [List.count_cons]
        omega

theorem ScopeInv.same_scope {l0 : List ScopeOp} {j : Nat × Nat} {σ σ' : Acx}
    (h1 : σ'.st.chain = σ.st.chain) (h2 : σ'.scope_ops = σ.scope_ops)
    (h : ScopeInv l0 j σ) : ScopeInv l0 j σ' := by
  unfold ScopeInv at *
  rw [h1, h2]
  exact h

theorem scope_exprClosed (l0 : List ScopeOp) (j : Nat × Nat) : ExprClosed (ScopeInv l0 j) where
  err := by
    intro msg σ a σ' hI hm
    rw [span_err_eff] at hm
    simp only [Option.some.injEq, Prod.mk.injEq] at hm
    rw [← hm.2]
    exact hI
  diag := by
    intro msg σ a σ' hI hm
    rw [span_diag_eff] at hm
    simp only [Option.some.injEq, Prod.mk.injEq] at hm
    rw [← hm.2]
    exact hI
  insn := by
    intro op a b c _ σ r σ' hI hm
    obtain ⟨k, blk, -, -, -, rfl⟩ := INSN_eff hm
    exact hI
  fcall := by
    intro a b c σ r σ' hI hm
    obtain ⟨k, blk, -, -, -, rfl⟩ := INSN_eff hm
    exact hI
  capture := by
    intro idx σ r σ' hI hm
    rcases capture_var_eff hm with rfl | ⟨v, -, -, rfl⟩
    · exact hI
    · exact hI
  push_type := by
    intro t σ r σ' hI hm
    rw [push_type_eff] at hm
    simp only [Option.some.injEq, Prod.mk.injEq] at hm
    rw [← hm.2]
    exact hI

theorem scope_stmtClosed (l0 : List ScopeOp) :
    StmtClosed (ScopeInv l0) scope_up (fun _ => True) where
  expr := scope_exprClosed l0
  fresh := by
    intro j op a b c σ r σ' hI hm
    obtain ⟨k, blk, -, -, rfl, rfl⟩ := INSN_eff hm
    exact ⟨hI, _, rfl, trivial⟩
  set_b := by
    intro j k o _ σ r σ' hI hm
    obtain ⟨x, -, rfl⟩ := set_b_eff hm
    exact hI
  set_c := by
    intro j k o _ σ r σ' hI hm
    obtain ⟨x, -, rfl⟩ := set_c_eff hm
    exact hI
  new_bb := by
    intro j σ r σ' hI hm
    obtain ⟨cfs, -, rfl⟩ := new_current_bb_eff hm
    exact hI
  ret := by
    intro j σ r σ' hI hm
    rcases set_ret_assigned_eff hm with ⟨-, rfl⟩ | ⟨i, cf, -, -, rfl⟩
    · exact hI
    · exact hI
  enter := by
    intro j σ r σ' hI hm
    rw [stab_enter_eff] at hm
    simp only [Option.some.injEq, Prod.mk.injEq] at hm
    rw [← hm.2]
    obtain ⟨h1, w, h2, h3⟩ := hI
    refine ⟨by simp [scope_up, h1], w ++ [ScopeOp.enter], by simp [h2], ?_⟩
    rw [depth_after_append, h3]
    simp [depth_after, scope_up]
  leave := by
    intro j σ r σ' hI hm
    rw [stab_leave_eff] at hm
    simp only [Option.some.injEq, Prod.mk.injEq] at hm
    rw [← hm.2]
    obtain ⟨h1, w, h2, h3⟩ := hI
    refine ⟨by simp [scope_up] at h1; simp [h1], w ++ [ScopeOp.leave], by simp [h2], ?_⟩
    rw [depth_after_append, h3]
    simp [depth_after, scope_up]

theorem scope_progClosed (l0 : List ScopeOp) :
    ProgClosed (ScopeInv l0) scope_up (fun _ => True) where
  stmt := scope_stmtClosed l0
  core := by
    intro j σ σ' hc hI
    exact ScopeInv.same_scope (by rw [hc.1]) hc.2.2.2.2 hI
  insn_new := by
    intro j i σ r σ' hI hm
    rw [insn_new_eff] at hm
    simp only [Option.some.injEq, Prod.mk.injEq] at hm
    rw [← hm.2]
    exact hI
  push_var := by
    intro j v _ σ r σ' hI hm
    rw [push_var_eff] at hm
    simp only [Option.some.injEq, Prod.mk.injEq] at hm
    rw [← hm.2]
    exact hI
  top := by
    intro j f σ r σ' hI hm
    obtain ⟨sc, hsc, rfl⟩ := modify_top_scope_eff hm
    obtain ⟨h1, hw⟩ := hI
    refine ⟨?_, hw⟩
    have hne : σ.st.chain ≠ [] := by
      intro he
      rw [he] at hsc
      simp at hsc
    simp only [List.length_append, List.length_dropLast, List.length_singleton]
    have : 0 < σ.st.chain.length := List.length_pos.mpr hne
    omega

/-! ## Display offsets: lemmas -/

theorem DispSince.same_disp {σ0 σ σ' : Acx} (h1 : σ'.st.vars = σ.st.vars)
    (h2 : σ'.disp_offset = σ.disp_offset) (h : DispSince σ0 () σ) : DispSince σ0 () σ' := by
  unfold DispSince DispMono DispInv at *
  rw [h1, h2]
  exact h

theorem DispSince.start_disp (σ : Acx) : DispSince σ () σ :=
  ⟨⟨le_refl _, fun _ v hv hc => ⟨v, hv, hc, rfl⟩⟩, id⟩

theorem DispSince.push_var {σ0 σ : Acx} (v : StabVar) (hv : v.captured = false)
    (h : DispSince σ0 () σ) :
    DispSince σ0 () { σ with st := { σ.st with vars := σ.st.vars ++ [v] } } := by
  obtain ⟨⟨hm1, hm2⟩, hinv⟩ := h
  have key : ∀ i w, (σ.st.vars ++ [v]).get? i = some w → w.captured = true →
      σ.st.vars.get? i = some w := by
    intro i w hw hc
    simp only [List.get?_eq_getElem?] at hw ⊢
    by_cases hi : i < σ.st.vars.length
    · rw [List.getElem?_append_left hi] at hw
      exact hw
    · rw [List.getElem?_append_right (by omega)] at hw
      by_cases h0 : i - σ.st.vars.length = 0
      · rw [h0] at hw
        simp only [List.getElem?_cons_zero, Option.some.injEq] at hw
        rw [← hw, hv] at hc
        cases hc
      · obtain ⟨n, hn⟩ := Nat.exists_eq_succ_of_ne_zero h0
        rw [hn] at hw
        simp at hw
  refine ⟨⟨hm1, ?_⟩, ?_⟩
  · intro i w hw hc
    obtain ⟨v', h1, h2, h3⟩ := hm2 i w hw hc
    refine ⟨v', ?_, h2, h3⟩
    simp only [List.get?_eq_getElem?] at h1 ⊢
    have hi : i < σ.st.vars.length := by
      by_contra hlt
      rw [List.getElem?_eq_none (by omega)] at h1
      cases h1
    rw [List.getElem?_append_left hi]
    exact h1
  · intro h0
    obtain ⟨hd, hb, hu⟩ := hinv h0
    refine ⟨hd, ?_, ?_⟩
    · intro i w hw hc
      exact hb i w (key i w hw hc) hc
    · intro i j vi vj hi hj hci hcj he
      exact hu i j vi vj (key i vi hi hci) (key j vj hj hcj) hci hcj he

theorem DispSince.capture {σ0 σ : Acx} {idx : Nat} {v : StabVar}
    (hv : σ.st.vars.get? idx = some v) (hc : v.captured = false)
    (h : DispSince σ0 () σ) :
    DispSince σ0 () { σ with
      st := { σ.st with
        vars := σ.st.vars.set idx ({ v with captured := true, disp_offset := σ.disp_offset }) },
      disp_offset := σ.disp_offset + 1 } := by
  obtain ⟨⟨hm1, hm2⟩, hinv⟩ := h
  have hlt : idx < σ.st.vars.length := by
    simp only [List.get?_eq_getElem?] at hv
    by_contra hlt
    rw [List.getElem?_eq_none (by omega)] at hv
    cases hv
  have key : ∀ i w, (σ.st.vars.set idx
      ({ v with captured := true, disp_offset := σ.disp_offset })).get? i = some w →
      (i = idx ∧ w = { v with captured := true, disp_offset := σ.disp_offset }) ∨
      (i ≠ idx ∧ σ.st.vars.get? i = some w) := by
    intro i w hw
    simp only [List.get?_eq_getElem?] at hw ⊢
    by_cases hi : i = idx
    · subst hi
      rw [List.getElem?_set_self hlt] at hw
      simp only [Option.some.injEq] at hw
      exact Or.inl ⟨rfl, hw.symm⟩
    · rw [List.getElem?_set_ne (fun he => hi he.symm)] at hw
      exact Or.inr ⟨hi, hw⟩
  refine ⟨⟨by simp only; omega, ?_⟩, ?_⟩
  · intro i w hw hcw
    obtain ⟨v', h1, h2, h3⟩ := hm2 i w hw hcw
    have hne : i ≠ idx := by
      intro he
      subst he
      rw [hv] at h1
      simp only [Option.some.injEq] at h1
      rw [← h1, hc] at h2
      cases h2
    refine ⟨v', ?_, h2, h3⟩
    simp only [List.get?_eq_getElem?] at h1 ⊢
    rw [List.getElem?_set_ne (fun he => hne he.symm)]
    exact h1
  · intro h0
    obtain ⟨hd, hb, hu⟩ := hinv h0
    refine ⟨by simp only; omega, ?_, ?_⟩
    · intro i w hw hcw
      rcases key i w hw with ⟨-, rfl⟩ | ⟨-, hw'⟩
      · simp only
        omega
      · have := hb i w hw' hcw
        simp only
        omega
    · intro i j vi vj hi hj hci hcj he
      rcases key i vi hi with ⟨rfl, rfl⟩ | ⟨hni, hi'⟩
      · rcases key j vj hj with ⟨rfl, -⟩ | ⟨-, hj'⟩
        · rfl
        · have := (hb j vj hj' hcj).2
          simp only at he
          omega
      · rcases key j vj hj with ⟨rfl, rfl⟩ | ⟨-, hj'⟩
        · have := (hb i vi hi' hci).2
          simp only at he
          omega
        · exact hu i j vi vj hi' hj' hci hcj he

theorem disp_exprClosed (σ0 : Acx) : ExprClosed (DispSince σ0 ()) where
  err := by
    intro msg σ a σ' hI hm
    rw [span_err_eff] at hm
    simp only [Option.some.injEq, Prod.mk.injEq] at hm
    rw [← hm.2]
    exact hI
  diag := by
    intro msg σ a σ' hI hm
    rw [span_diag_eff] at hm
    simp only [Option.some.injEq, Prod.mk.injEq] at hm
    rw [← hm.2]
    exact hI
  insn := by
    intro op a b c _ σ r σ' hI hm
    obtain ⟨k, blk, -, -, -, rfl⟩ := INSN_eff hm
    exact hI
  fcall := by
    intro a b c σ r σ' hI hm
    obtain ⟨k, blk, -, -, -, rfl⟩ := INSN_eff hm
    exact hI
  capture := by
    intro idx σ r σ' hI hm
    rcases capture_var_eff hm with rfl | ⟨v, hv, hc, rfl⟩
    · exact hI
    · exact DispSince.capture hv hc hI
  push_type := by
    intro t σ r σ' hI hm
    rw [push_type_eff] at hm
    simp only [Option.some.injEq, Prod.mk.injEq] at hm
    rw [← hm.2]
    exact hI

theorem disp_stmtClosed (σ0 : Acx) :
    StmtClosed (DispSince σ0) id (fun _ => True) where
  expr := fun _ => disp_exprClosed σ0
  fresh := by
    intro j op a b c σ r σ' hI hm
    obtain ⟨k, blk, -, -, rfl, rfl⟩ := INSN_eff hm
    exact ⟨hI, _, rfl, trivial⟩
  set_b := by
    intro j k o _ σ r σ' hI hm
    obtain ⟨x, -, rfl⟩ := set_b_eff hm
    exact hI
  set_c := by
    intro j k o _ σ r σ' hI hm
    obtain ⟨x, -, rfl⟩ := set_c_eff hm
    exact hI
  new_bb := by
    intro j σ r σ' hI hm
    obtain ⟨cfs, -, rfl⟩ := new_current_bb_eff hm
    exact hI
  ret := by
    intro j σ r σ' hI hm
    rcases set_ret_assigned_eff hm with ⟨-, rfl⟩ | ⟨i, cf, -, -, rfl⟩
    · exact hI
    · exact hI
  enter := by
    intro j σ r σ' hI hm
    rw [stab_enter_eff] at hm
    simp only [Option.some.injEq, Prod.mk.injEq] at hm
    rw [← hm.2]
    exact hI
  leave := by
    intro j σ r σ' hI hm
    rw [stab_leave_eff] at hm
    simp only [Option.some.injEq, Prod.mk.injEq] at hm
    rw [← hm.2]
    exact hI

theorem disp_progClosed (σ0 : Acx) :
    ProgClosed (DispSince σ0) id (fun _ => True) where
  stmt := disp_stmtClosed σ0
  core := by
    intro j σ σ' hc hI
    exact DispSince.same_disp (by rw [hc.1]) hc.2.1 hI
  insn_new := by
    intro j i σ r σ' hI hm
    rw [insn_new_eff] at hm
    simp only [Option.some.injEq, Prod.mk.injEq] at hm
    rw [← hm.2]
    exact hI
  push_var := by
    intro j v hv σ r σ' hI hm
    rw [push_var_eff] at hm
    simp only [Option.some.injEq, Prod.mk.injEq] at hm
    rw [← hm.2]
    exact DispSince.push_var v hv hI
  top := by
    intro j f σ r σ' hI hm
    obtain ⟨sc, hsc, rfl⟩ := modify_top_scope_eff hm
    exact hI

/-! ## Emitted instructions: lemmas -/

theorem get?_append_off {α : Type} (l m : List α) (k : Nat) :
    (l ++ m).get? (l.length + k) = m.get? k := by
  simp only [List.get?_eq_getElem?]
  rw [List.getElem?_append_right (by omega)]
  simp

theorem PrefixInv.start_prefix (σ : Acx) : PrefixInv σ.insns () σ :=
  ⟨le_refl _, fun _ _ => rfl⟩

theorem PrefixInv.append {base : List Insn} {σ : Acx} (x : Insn) (σ' : Acx)
    (he : σ'.insns = σ.insns ++ [x]) (h : PrefixInv base () σ) : PrefixInv base () σ' := by
  obtain ⟨h1, h2⟩ := h
  unfold PrefixInv
  rw [he]
  refine ⟨by simp only [List.length_append, List.length_singleton]; omega, ?_⟩
  intro i hi
  rw [← h2 i hi]
  simp only [List.get?_eq_getElem?]
  exact List.getElem?_append_left (by omega)

theorem PrefixInv.set {base : List Insn} {σ : Acx} (k : Nat) (x : Insn) (σ' : Acx)
    (hk : base.length ≤ k) (he : σ'.insns = σ.insns.set k x)
    (h : PrefixInv base () σ) : PrefixInv base () σ' := by
  obtain ⟨h1, h2⟩ := h
  unfold PrefixInv
  rw [he]
  refine ⟨by simp only [List.length_set]; omega, ?_⟩
  intro i hi
  rw [← h2 i hi]
  simp only [List.get?_eq_getElem?]
  exact List.getElem?_set_ne (by omega)

theorem PrefixInv.same_insns {base : List Insn} {σ σ' : Acx} (he : σ'.insns = σ.insns)
    (h : PrefixInv base () σ) : PrefixInv base () σ' := by
  unfold PrefixInv at *
  rw [he]
  exact h

theorem prefix_exprClosed (base : List Insn) : ExprClosed (PrefixInv base ()) where
  err := by
    intro msg σ a σ' hI hm
    rw [span_err_eff] at hm
    simp only [Option.some.injEq, Prod.mk.injEq] at hm
    rw [← hm.2]
    exact hI
  diag := by
    intro msg σ a σ' hI hm
    rw [span_diag_eff] at hm
    simp only [Option.some.injEq, Prod.mk.injEq] at hm
    rw [← hm.2]
    exact hI
  insn := by
    intro op a b c _ σ r σ' hI hm
    obtain ⟨k, blk, -, -, -, rfl⟩ := INSN_eff hm
    exact PrefixInv.append _ _ rfl hI
  fcall := by
    intro a b c σ r σ' hI hm
    obtain ⟨k, blk, -, -, -, rfl⟩ := INSN_eff hm
    exact PrefixInv.append _ _ rfl hI
  capture := by
    intro idx σ r σ' hI hm
    rcases capture_var_eff hm with rfl | ⟨v, -, -, rfl⟩
    · exact hI
    · exact hI
  push_type := by
    intro t σ r σ' hI hm
    rw [push_type_eff] at hm
    simp only [Option.some.injEq, Prod.mk.injEq] at hm
    rw [← hm.2]
    exact hI

theorem prefix_stmtClosed (base : List Insn) :
    StmtClosed (PrefixInv base) id (fun k => base.length ≤ k) where
  expr := fun _ => prefix_exprClosed base
  fresh := by
    intro j op a b c σ r σ' hI hm
    obtain ⟨k, blk, -, -, rfl, rfl⟩ := INSN_eff hm
    exact ⟨PrefixInv.append _ _ rfl hI, _, rfl, hI.1⟩
  set_b := by
    intro j k o hk σ r σ' hI hm
    obtain ⟨x, -, rfl⟩ := set_b_eff hm
    exact PrefixInv.set k _ _ hk rfl hI
  set_c := by
    intro j k o hk σ r σ' hI hm
    obtain ⟨x, -, rfl⟩ := set_c_eff hm
    exact PrefixInv.set k _ _ hk rfl hI
  new_bb := by
    intro j σ r σ' hI hm
    obtain ⟨cfs, -, rfl⟩ := new_current_bb_eff hm
    exact hI
  ret := by
    intro j σ r σ' hI hm
    rcases set_ret_assigned_eff hm with ⟨-, rfl⟩ | ⟨i, cf, -, -, rfl⟩
    · exact hI
    · exact hI
  enter := by
    intro j σ r σ' hI hm
    rw [stab_enter_eff] at hm
    simp only [Option.some.injEq, Prod.mk.injEq] at hm
    rw [← hm.2]
    exact hI
  leave := by
    intro j σ r σ' hI hm
    rw [stab_leave_eff] at hm
    simp only [Option.some.injEq, Prod.mk.injEq] at hm
    rw [← hm.2]
    exact hI

/-- The code that only reports and emits keeps the emitted instructions and
leaves the variable table alone. -/
theorem emit_keeps (base : List Insn) (vars : List StabVar) :
    EmitClosed fun σ => PrefixInv base () σ ∧ σ.st.vars = vars where
  err := by
    intro msg σ a σ' hI hm
    rw [span_err_eff] at hm
    simp only [Option.some.injEq, Prod.mk.injEq] at hm
    rw [← hm.2]
    exact hI
  diag := by
    intro msg σ a σ' hI hm
    rw [span_diag_eff] at hm
    simp only [Option.some.injEq, Prod.mk.injEq] at hm
    rw [← hm.2]
    exact hI
  insn := by
    intro op a b c _ σ r σ' hI hm
    obtain ⟨k, blk, -, -, -, rfl⟩ := INSN_eff hm
    exact ⟨PrefixInv.append _ _ rfl hI.1, hI.2⟩

theorem capture_var_post {idx : Nat} {σ σ' : Acx} {r : Unit}
    (h : capture_var idx σ = some (r, σ')) :
    σ'.insns = σ.insns ∧ ∃ v', σ'.st.vars.get? idx = some v' ∧ v'.captured = true := by
  unfold capture_var at h
  obtain ⟨v, σ1, h1, h2⟩ := bind_eq_some.mp h
  clear h
  obtain ⟨hv, rfl⟩ := STAB_VAR_eq h1
  by_cases hc : v.captured = true
  · rw [if_neg (by simpa using hc)] at h2
    obtain ⟨-, rfl⟩ := pure_eq_some.mp h2
    exact ⟨rfl, v, hv, hc⟩
  · rw [if_pos hc] at h2
    obtain ⟨σ2, σ3, h3, h4⟩ := bind_eq_some.mp h2
    obtain ⟨rfl, rfl⟩ := getAcx_eq h3
    obtain ⟨u1, σ4, h5, h6⟩ := bind_eq_some.mp h4
    simp only [set_var, modifyAcx_eff, Option.some.injEq, Prod.mk.injEq] at h5 h6
    obtain ⟨-, rfl⟩ := h5
    obtain ⟨-, rfl⟩ := h6
    refine ⟨rfl, { v with captured := true, disp_offset := σ.disp_offset }, ?_, rfl⟩
    simp only [List.get?_eq_getElem?] at hv ⊢
    have hlt : idx < σ.st.vars.length := by
      by_contra hlt
      rw [List.getElem?_eq_none (by omega)] at hv
      cases hv
    exact List.getElem?_set_self hlt

theorem display_address_post {idx : Nat} {σ σ' : Acx} {r : InsnPtr}
    (h : display_address idx σ = some (r, σ')) :
    ∃ v, σ.st.vars.get? idx = some v ∧ σ'.st.vars = σ.st.vars ∧
      r = InsnPtr.ptr (σ.insns.length + 2) ∧
      σ'.insns = σ.insns ++
        [{ op := Opcode.SYMREF, a := Operand.str "@display@", b := Operand.null,
           c := Operand.null },
         { op := Opcode.ADD, a := Operand.reg (InsnPtr.ptr σ.insns.length),
           b := Operand.ilit (v.disp_offset * ABI_POINTER_ALIGN), c := Operand.null },
         { op := Opcode.LD, a := Operand.insn (InsnPtr.ptr (σ.insns.length + 1)),
           b := Operand.int ABI_POINTER_SIZE, c := Operand.null }] := by
  unfold display_address at h
  obtain ⟨disp, σ1, h1, h2⟩ := bind_eq_some.mp h
  clear h
  obtain ⟨v, σ2, h3, h4⟩ := bind_eq_some.mp h2
  obtain ⟨a, σ3, h5, h6⟩ := bind_eq_some.mp h4
  obtain ⟨k1, blk1, -, -, rfl, rfl⟩ := INSN_eff h1
  obtain ⟨hv, rfl⟩ := STAB_VAR_eq h3
  obtain ⟨k2, blk2, -, -, rfl, rfl⟩ := INSN_eff h5
  obtain ⟨k3, blk3, -, -, rfl, rfl⟩ := INSN_eff h6
  refine ⟨v, hv, rfl, ?_, ?_⟩
  · simp
  · simp

theorem type_of_path_nonlocal (ops : SymOps) (p : AstPath) (σ σ' : Acx) (r : Resu)
    (name : String) (idx : Nat) (hn : p.components.head? = some name)
    (hr : stab_resolve_var σ.st name = some idx)
    (hl : ops.has_local_var σ.st name = false)
    (h : type_of_path ops p σ = some (r, σ')) :
    ∃ v kd ka kl, σ'.st.vars.get? idx = some v ∧ v.captured = true ∧
      r.op = InsnPtr.ptr kl ∧
      σ'.insns.get? kl = some { op := Opcode.LD, a := Operand.insn (InsnPtr.ptr ka),
                                b := Operand.int ABI_POINTER_SIZE, c := Operand.null } ∧
      σ'.insns.get? ka = some { op := Opcode.ADD, a := Operand.reg (InsnPtr.ptr kd),
                                b := Operand.ilit (v.disp_offset * ABI_POINTER_ALIGN),
                                c := Operand.null } ∧
      σ'.insns.get? kd = some { op := Opcode.SYMREF, a := Operand.str "@display@",
                                b := Operand.null, c := Operand.null } := by
  unfold type_of_path at h
  obtain ⟨name', σ1, h1, h2⟩ := bind_eq_some.mp h
  clear h
  obtain ⟨e1, rfl⟩ := orAbort_eq h1
  rw [hn] at e1
  cases e1
  obtain ⟨σ2, σ3, h3, h4⟩ := bind_eq_some.mp h2
  obtain ⟨rfl, rfl⟩ := getAcx_eq h3
  obtain ⟨idx', σ4, h5, h6⟩ := bind_eq_some.mp h4
  obtain ⟨e2, rfl⟩ := orAbort_eq h5
  rw [hr] at e2
  cases e2
  obtain ⟨loc, σ5, h7, h8⟩ := bind_eq_some.mp h6
  rw [if_pos (by simp [hl])] at h7
  obtain ⟨u1, σ6, h9, h10⟩ := bind_eq_some.mp h7
  obtain ⟨-, vc, hvc, hcap⟩ := capture_var_post h9
  obtain ⟨v, hv, hvars, rfl, hins⟩ := display_address_post h10
  rw [hvc] at hv
  cases hv
  obtain ⟨v2, σ7, h11, h12⟩ := bind_eq_some.mp h8
  obtain ⟨-, rfl⟩ := STAB_VAR_eq h11
  obtain ⟨ty, σ8, h13, h14⟩ := bind_eq_some.mp h12
  obtain ⟨-, rfl⟩ := STAB_TYPE_eq h13
  obtain ⟨u2, σ9, h15, h16⟩ := bind_eq_some.mp h14
  obtain ⟨rfl, rfl⟩ := pure_eq_some.mp h16
  have hk := path_components_inv (emit_keeps σ5.insns σ5.st.vars) _ _ _ σ5 u2 σ9
    ⟨PrefixInv.start_prefix σ5, rfl⟩ h15
  obtain ⟨⟨hlen, hpre⟩, hv9⟩ := hk
  have hlen5 : σ5.insns.length = σ6.insns.length + 3 := by
    rw [hins]
    simp
  refine ⟨vc, σ6.insns.length + 0, σ6.insns.length + 1, σ6.insns.length + 2, ?_, hcap, rfl,
    ?_, ?_, ?_⟩
  · rw [hv9, hvars]
    exact hvc
  · rw [hpre _ (by omega), hins, get?_append_off]
    rfl
  · rw [hpre _ (by omega), hins, get?_append_off]
    rfl
  · rw [hpre _ (by omega), hins, get?_append_off]
    rfl

/-! ## The size operand of the emitted stores: lemmas -/

theorem INSN_fr {op : Opcode} {a b c : Operand} {σ σ' : Acx} {r : InsnPtr}
    (h : INSN op a b c σ = some (r, σ')) :
    r = InsnPtr.ptr σ.insns.length ∧
      σ'.insns = σ.insns ++ [{ op := op, a := a, b := b, c := c }] ∧ σ'.st = σ.st := by
  obtain ⟨k, blk, -, -, rfl, rfl⟩ := INSN_eff h
  exact ⟨rfl, rfl, rfl⟩

theorem new_current_bb_fr {σ σ' : Acx} {r : Nat} (h : new_current_bb σ = some (r, σ')) :
    σ'.insns = σ.insns ∧ σ'.st = σ.st := by
  obtain ⟨cfs, -, rfl⟩ := new_current_bb_eff h
  exact ⟨rfl, rfl⟩

theorem span_err_fr {msg : String} {σ σ' : Acx} {r : Unit}
    (h : span_err msg σ = some (r, σ')) : σ'.insns = σ.insns ∧ σ'.st = σ.st := by
  rw [span_err_eff] at h
  simp only [Option.some.injEq, Prod.mk.injEq] at h
  rw [← h.2]
  exact ⟨rfl, rfl⟩

theorem ite_err_fr {c : Prop} [Decidable c] {msg : String} {σ σ' : Acx} {r : Unit}
    (h : (if c then span_err msg else pure ()) σ = some (r, σ')) :
    σ'.insns = σ.insns ∧ σ'.st = σ.st := by
  split at h
  · exact span_err_fr h
  · obtain ⟨-, rfl⟩ := pure_eq_some.mp h
    exact ⟨rfl, rfl⟩

theorem size_of_type_fr {idx : Nat} {σ σ' : Acx} {n : Int}
    (h : size_of_type idx σ = some (n, σ')) : σ'.insns = σ.insns ∧ σ'.st = σ.st := by
  unfold size_of_type at h
  obtain ⟨t, σ1, h1, h2⟩ := bind_eq_some.mp h
  clear h
  obtain ⟨-, rfl⟩ := STAB_TYPE_eq h1
  cases htag : t.ty.tag <;> simp only [htag] at h2
  all_goals
    obtain ⟨-, rfl⟩ := pure_eq_some.mp h2
    exact ⟨rfl, rfl⟩

/-- The value `size_of_type` returns depends on the type table only. -/
theorem size_of_type_transfer {idx : Nat} {σ σ' τ : Acx} {n : Int}
    (h : size_of_type idx σ = some (n, σ')) (ht : τ.st.types = σ.st.types) :
    (size_of_type idx τ).map Prod.fst = some n := by
  unfold size_of_type at h ⊢
  obtain ⟨t, σ1, h1, h2⟩ := bind_eq_some.mp h
  clear h
  obtain ⟨hg, rfl⟩ := STAB_TYPE_eq h1
  have hτ : STAB_TYPE idx τ = some (t, τ) := by
    unfold STAB_TYPE
    rw [ht, hg]
  show Option.map Prod.fst (M.bind (STAB_TYPE idx) _ τ) = some n
  unfold M.bind
  rw [hτ]
  cases htag : t.ty.tag <;> simp only [htag] at h2 ⊢
  all_goals
    obtain ⟨rfl, -⟩ := pure_eq_some.mp h2
    rfl

theorem stab_enter_fr {σ σ' : Acx} {r : Unit} (h : stab_enter σ = some (r, σ')) :
    σ'.insns = σ.insns ∧ σ'.st.types = σ.st.types := by
  rw [stab_enter_eff] at h
  simp only [Option.some.injEq, Prod.mk.injEq] at h
  rw [← h.2]
  exact ⟨rfl, rfl⟩

theorem stab_leave_fr {σ σ' : Acx} {r : Unit} (h : stab_leave σ = some (r, σ')) :
    σ'.insns = σ.insns ∧ σ'.st.types = σ.st.types := by
  rw [stab_leave_eff] at h
  simp only [Option.some.injEq, Prod.mk.injEq] at h
  rw [← h.2]
  exact ⟨rfl, rfl⟩

theorem set_b_fr {k : Nat} {o : Operand} {σ σ' : Acx} {r : Unit}
    (h : set_b (InsnPtr.ptr k) o σ = some (r, σ')) :
    (∃ x, σ'.insns = σ.insns.set k x) ∧ σ'.st = σ.st := by
  obtain ⟨x, -, rfl⟩ := set_b_eff h
  exact ⟨⟨_, rfl⟩, rfl⟩

theorem set_c_fr {k : Nat} {o : Operand} {σ σ' : Acx} {r : Unit}
    (h : set_c (InsnPtr.ptr k) o σ = some (r, σ')) :
    (∃ x, σ'.insns = σ.insns.set k x) ∧ σ'.st = σ.st := by
  obtain ⟨x, -, rfl⟩ := set_c_eff h
  exact ⟨⟨_, rfl⟩, rfl⟩

theorem getLast?_append_one {α : Type} (l : List α) (x : α) : (l ++ [x]).getLast? = some x := by
  simp

/-- The store of an assignment: its size operand is `size_of_type` of the type
of the analysed rvalue. -/
theorem assign_store (ops : SymOps) (u : Indet) (lvalue rvalue : Expr) (σ σ' : Acx)
    (h : analyze_stmt ops u (Stmt.ASSIGN lvalue rvalue) σ = some ((), σ')) :
    ∃ (lty rty : Resu) (root : Option AstPath) (σl σc σr : Acx) (n : Int),
      analyze_expr ops lvalue σ = some (lty, σl) ∧
      check_assignability ops lvalue σl = some (root, σc) ∧
      analyze_expr ops rvalue σc = some (rty, σr) ∧
      (size_of_type rty.type σr).map Prod.fst = some n ∧
      σ'.insns.getLast? = some { op := Opcode.ST, a := Operand.insn lty.op,
                                 b := Operand.insn rty.op, c := Operand.int n } := by
  rw [analyze_stmt] at h
  obtain ⟨lty, σl, h1, h2⟩ := bind_eq_some.mp h
  clear h
  obtain ⟨root, σc, h3, h4⟩ := bind_eq_some.mp h2
  obtain ⟨rty, σr, h5, h6⟩ := bind_eq_some.mp h4
  obtain ⟨σ0, σ1, h7, h8⟩ := bind_eq_some.mp h6
  obtain ⟨rfl, rfl⟩ := getAcx_eq h7
  obtain ⟨u1, σ2, h9, h10⟩ := bind_eq_some.mp h8
  obtain ⟨n, σ3, h11, h12⟩ := bind_eq_some.mp h10
  obtain ⟨i, σ4, h13, h14⟩ := bind_eq_some.mp h12
  obtain ⟨-, rfl⟩ := pure_eq_some.mp h14
  obtain ⟨-, hst2⟩ := ite_err_fr h9
  obtain ⟨-, hins, -⟩ := INSN_fr h13
  refine ⟨lty, rty, root, σl, σc, σr, n, h1, h3, h5, ?_, ?_⟩
  · exact size_of_type_transfer h11 (by rw [hst2])
  · rw [hins]
    exact getLast?_append_one _ _


theorem get?_set_other {α : Type} (l : List α) (k i : Nat) (x : α) (h : k ≠ i) :
    (l.set k x).get? i = l.get? i := by
  simp only [List.get?_eq_getElem?]
  exact List.getElem?_set_ne h

theorem get?_append_lt {α : Type} (l m : List α) (i : Nat) (h : i < l.length) :
    (l ++ m).get? i = l.get? i := by
  simp only [List.get?_eq_getElem?]
  exact List.getElem?_append_left h

/-- The two stores of a `for` loop: their size operand is `size_of_type` of
`INTEGER_TYPE_IDX`. -/
theorem for_stores (ops : SymOps) (u : Indet) (id : String) (start end_ : Expr) (body : Stmt)
    (σ σ' : Acx)
    (h : analyze_stmt ops u (Stmt.FOR id start end_ body) σ = some ((), σ')) :
    ∃ (sty ety : Resu) (σs σe : Acx) (n n2 : Int) (m : Nat),
      analyze_expr ops start σ = some (sty, σs) ∧
      analyze_expr ops end_ σs = some (ety, σe) ∧
      (size_of_type INTEGER_TYPE_IDX σe).map Prod.fst = some n ∧
      σ'.insns.get? (σe.insns.length + 1) =
        some { op := Opcode.ST, a := Operand.insn (InsnPtr.ptr σe.insns.length),
               b := Operand.insn sty.op, c := Operand.int n } ∧
      (size_of_type INTEGER_TYPE_IDX σ').map Prod.fst = some n2 ∧
      σ'.insns.get? m =
        some { op := Opcode.ADD, a := Operand.insn (InsnPtr.ptr (σe.insns.length + 3)),
               b := Operand.ilit 1, c := Operand.null } ∧
      σ'.insns.get? (m + 1) =
        some { op := Opcode.ST, a := Operand.insn (InsnPtr.ptr σe.insns.length),
               b := Operand.insn (InsnPtr.ptr m), c := Operand.int n2 } := by
  rw [analyze_stmt] at h
  obtain ⟨sty, σs, h1, h2⟩ := bind_eq_some.mp h
  clear h
  obtain ⟨ety, σe, h3, h4⟩ := bind_eq_some.mp h2
  obtain ⟨u1, σ2, h5, h6⟩ := bind_eq_some.mp h4
  obtain ⟨u2, σ3, h7, h8⟩ := bind_eq_some.mp h6
  obtain ⟨it, σ4, h9, h10⟩ := bind_eq_some.mp h8
  obtain ⟨i1, σ5, h11, h12⟩ := bind_eq_some.mp h10
  obtain ⟨sz1, σ6, h13, h14⟩ := bind_eq_some.mp h12
  obtain ⟨st1, σ7, h15, h16⟩ := bind_eq_some.mp h14
  obtain ⟨i2, σ8, h17, h18⟩ := bind_eq_some.mp h16
  obtain ⟨l0, σ9, h19, h20⟩ := bind_eq_some.mp h18
  obtain ⟨sz2, σ10, h21, h22⟩ := bind_eq_some.mp h20
  obtain ⟨i3, σ11, h23, h24⟩ := bind_eq_some.mp h22
  obtain ⟨i4, σ12, h25, h26⟩ := bind_eq_some.mp h24
  obtain ⟨br1, σ13, h27, h28⟩ := bind_eq_some.mp h26
  obtain ⟨l1, σ14, h29, h30⟩ := bind_eq_some.mp h28
  obtain ⟨u3, σ15, h31, h32⟩ := bind_eq_some.mp h30
  obtain ⟨i5, σ16, h33, h34⟩ := bind_eq_some.mp h32
  obtain ⟨sz3, σ17, h35, h36⟩ := bind_eq_some.mp h34
  obtain ⟨st2, σ18, h37, h38⟩ := bind_eq_some.mp h36
  obtain ⟨br2, σ19, h39, h40⟩ := bind_eq_some.mp h38
  obtain ⟨l2, σ20, h41, h42⟩ := bind_eq_some.mp h40
  obtain ⟨u4, σ21, h43, h44⟩ := bind_eq_some.mp h42
  obtain ⟨u5, σ22, h45, h46⟩ := bind_eq_some.mp h44
  obtain ⟨u6, σ23, h47, h48⟩ := bind_eq_some.mp h46
  have f2 : σ2.insns = σe.insns ∧ σ2.st = σe.st := by
    split at h5
    · exact span_err_fr h5
    · exact ite_err_fr h5
  obtain ⟨f3i, f3t⟩ := stab_enter_fr h7
  obtain ⟨-, rfl⟩ := STAB_TYPE_eq h9
  obtain ⟨rfl, f5i, f5t⟩ := INSN_fr h11
  obtain ⟨f6i, f6t⟩ := size_of_type_fr h13
  obtain ⟨-, f7i, f7t⟩ := INSN_fr h15
  obtain ⟨rfl, f8i, f8t⟩ := INSN_fr h17
  obtain ⟨f9i, f9t⟩ := new_current_bb_fr h19
  obtain ⟨f10i, f10t⟩ := size_of_type_fr h21
  obtain ⟨rfl, f11i, f11t⟩ := INSN_fr h23
  obtain ⟨rfl, f12i, f12t⟩ := INSN_fr h25
  obtain ⟨-, f13i, f13t⟩ := INSN_fr h27
  obtain ⟨f14i, f14t⟩ := new_current_bb_fr h29
  have f15 := analyze_stmt_inv (prefix_stmtClosed σ14.insns) ops u body () σ14 u3 σ15
    (PrefixInv.start_prefix σ14) h31
  obtain ⟨rfl, f16i, f16t⟩ := INSN_fr h33
  obtain ⟨f17i, f17t⟩ := size_of_type_fr h35
  obtain ⟨-, f18i, f18t⟩ := INSN_fr h37
  obtain ⟨-, f19i, f19t⟩ := INSN_fr h39
  obtain ⟨f20i, f20t⟩ := new_current_bb_fr h41
  obtain ⟨⟨x21, f21i⟩, f21t⟩ := set_b_fr h43
  obtain ⟨⟨x22, f22i⟩, f22t⟩ := set_b_fr h45
  obtain ⟨⟨x23, f23i⟩, f23t⟩ := set_c_fr h47
  obtain ⟨f24i, f24t⟩ := stab_leave_fr h48
  have e3 : σ3.insns.length = σe.insns.length := by rw [f3i, f2.1]
  have e6 : σ6.insns = σe.insns ++
      [⟨Opcode.ALLOC, Operand.int it.size, Operand.null, Operand.null⟩] := by
    rw [f6i, f5i, f3i, f2.1]
  have e14 : σ14.insns = σe.insns ++
      [{ op := Opcode.ALLOC, a := Operand.int it.size, b := Operand.null, c := Operand.null },
       { op := Opcode.ST, a := Operand.insn (InsnPtr.ptr σ3.insns.length),
         b := Operand.insn sty.op, c := Operand.int sz1 },
       { op := Opcode.BR, a := Operand.tt, b := Operand.null, c := Operand.null },
       { op := Opcode.LD, a := Operand.insn (InsnPtr.ptr σ3.insns.length),
         b := Operand.int sz2, c := Operand.null },
       { op := Opcode.LT, a := Operand.insn (InsnPtr.ptr σ10.insns.length),
         b := Operand.insn ety.op, c := Operand.null },
       { op := Opcode.BR, a := Operand.insn (InsnPtr.ptr σ11.insns.length),
         b := Operand.null, c := Operand.null }] := by
    rw [f14i, f13i, f12i, f11i, f10i, f9i, f8i, f7i, e6]
    simp
  have l7 : σ7.insns.length = σe.insns.length + 2 := by
    rw [f7i, e6]
    simp
  have l10 : σ10.insns.length = σe.insns.length + 3 := by
    rw [f10i, f9i, f8i, f7i, e6]
    simp
  have l11 : σ11.insns.length = σe.insns.length + 4 := by
    rw [f11i, f10i, f9i, f8i, f7i, e6]
    simp
  have l14 : σ14.insns.length = σe.insns.length + 6 := by
    rw [e14]
    simp
  obtain ⟨f15l, f15p⟩ := f15
  have e19 : σ19.insns = σ15.insns ++
      [{ op := Opcode.ADD, a := Operand.insn (InsnPtr.ptr σ10.insns.length),
         b := Operand.ilit 1, c := Operand.null },
       { op := Opcode.ST, a := Operand.insn (InsnPtr.ptr σ3.insns.length),
         b := Operand.insn (InsnPtr.ptr σ15.insns.length), c := Operand.int sz3 },
       { op := Opcode.BR, a := Operand.tt, b := Operand.bb l0, c := Operand.null }] := by
    rw [f19i, f18i, f17i, f16i]
    simp
  have efin : σ23.insns = ((σ19.insns.set σ7.insns.length x21).set σ11.insns.length x22).set
      σ11.insns.length x23 := by
    rw [f23i, f22i, f21i, f20i]
  have hfin : ∀ i, i ≠ σe.insns.length + 2 → i ≠ σe.insns.length + 4 →
      σ'.insns.get? i = σ19.insns.get? i := by
    intro i hi2 hi4
    rw [f24i, efin, get?_set_other _ _ _ _ (by omega), get?_set_other _ _ _ _ (by omega),
      get?_set_other _ _ _ _ (by omega)]
  have ht' : σ'.st.types = σ16.st.types := by
    rw [f24t, f23t, f22t, f21t, f20t, f19t, f18t, f17t]
  refine ⟨sty, ety, σs, σe, sz1, sz3, σ15.insns.length, h1, h3, ?_, ?_, ?_, ?_, ?_⟩
  · exact size_of_type_transfer h13 (by rw [f5t, f3t, f2.2])
  · rw [hfin _ (by omega) (by omega), e19, get?_append_lt _ _ _ (by omega),
      f15p _ (by omega), e14, get?_append_off, e3]
    rfl
  · exact size_of_type_transfer h35 ht'
  · rw [hfin _ (by omega) (by omega), e19]
    have := get?_append_off (σ15.insns)
      ([{ op := Opcode.ADD, a := Operand.insn (InsnPtr.ptr σ10.insns.length),
          b := Operand.ilit 1, c := Operand.null },
        { op := Opcode.ST, a := Operand.insn (InsnPtr.ptr σ3.insns.length),
          b := Operand.insn (InsnPtr.ptr σ15.insns.length), c := Operand.int sz3 },
        { op := Opcode.BR, a := Operand.tt, b := Operand.bb l0, c := Operand.null }]) 0
    rw [Nat.add_zero] at this
    rw [this, l10]
    rfl
  · rw [hfin _ (by omega) (by omega), e19, get?_append_off, e3]
    rfl

/-! ## Lowering of expressions that call no built-in -/

theorem StInv.start_st (σ : Acx) : StInv σ.st σ :=
  ⟨rfl, [], by simp, by simp⟩

theorem StInv.of_st {st0 : Stab} {σ σ' : Acx} (h : σ'.st.chain = σ.st.chain)
    (ht : σ'.st.types = σ.st.types) (hI : StInv st0 σ) : StInv st0 σ' := by
  obtain ⟨hc, ext, he, hm⟩ := hI
  exact ⟨by rw [h, hc], ext, by rw [ht, he], hm⟩

theorem QuietInv.same_st {st0 : Stab} {base : List Insn} {σ σ' : Acx}
    (h : σ'.st.chain = σ.st.chain) (ht : σ'.st.types = σ.st.types) (hi : σ'.insns = σ.insns)
    (hI : QuietInv st0 base σ) : QuietInv st0 base σ' := by
  obtain ⟨hs, new, hn, hf⟩ := hI
  exact ⟨StInv.of_st h ht hs, new, by rw [hi, hn], hf⟩

theorem QuietInv.start (σ : Acx) {st0 : Stab} (h : StInv st0 σ) : QuietInv st0 σ.insns σ :=
  ⟨h, [], by simp, rfl⟩

theorem quiet_emitClosed (st0 : Stab) (base : List Insn) : EmitClosed (QuietInv st0 base) where
  err := by
    intro msg σ a σ' hI hm
    rw [span_err_eff] at hm
    simp only [Option.some.injEq, Prod.mk.injEq] at hm
    rw [← hm.2]
    exact hI
  diag := by
    intro msg σ a σ' hI hm
    rw [span_diag_eff] at hm
    simp only [Option.some.injEq, Prod.mk.injEq] at hm
    rw [← hm.2]
    exact hI
  insn := by
    intro op a b c hop σ r σ' hI hm
    obtain ⟨k, blk, -, -, -, rfl⟩ := INSN_eff hm
    obtain ⟨hs, new, hn, hf⟩ := hI
    refine ⟨hs, new ++ [{ op := op, a := a, b := b, c := c }], ?_, ?_⟩
    · show σ.insns ++ _ = _
      rw [hn, List.append_assoc]
    · rw [List.filter_append, hf]
      simp [is_fcall, hop]

theorem quiet_capture (st0 : Stab) (base : List Insn) (idx : Nat) :
    Inv (QuietInv st0 base) (capture_var idx) := by
  intro σ r σ' hI hm
  rcases capture_var_eff hm with rfl | ⟨v, -, -, rfl⟩
  · exact hI
  · exact hI

theorem quiet_push_type (st0 : Stab) (base : List Insn) (t : StabType) (ht : t.magic = 0) :
    Inv (QuietInv st0 base) (push_type t) := by
  intro σ r σ' hI hm
  rw [push_type_eff] at hm
  simp only [Option.some.injEq, Prod.mk.injEq] at hm
  rw [← hm.2]
  obtain ⟨⟨hc, ext, he, hx⟩, hq⟩ := hI
  refine ⟨⟨hc, ext ++ [t], ?_, ?_⟩, hq⟩
  · show σ.st.types ++ [t] = _
    rw [he, List.append_assoc]
  · intro x hx'
    rcases List.mem_append.mp hx' with h1 | h1
    · exact hx x h1
    · rw [List.mem_singleton.mp h1]
      exact ht

/-- Under `StInv st0`, a name that resolves to a built-in resolves to a built-in
of `st0`. -/
theorem resolves_to_magic_of {st0 : Stab} {σ : Acx} (hI : StInv st0 σ) {p : AstPath}
    {name : String} {pty : Nat} {pt : StabType}
    (h1 : p.components.getLast? = some name)
    (h2 : stab_resolve_func σ.st name = some pty)
    (h3 : σ.st.types.get? pty = some pt) (h4 : pt.magic ≠ 0) :
    resolves_to_magic st0 p = true := by
  obtain ⟨hc, ext, he, hx⟩ := hI
  have h2' : stab_resolve_func st0 name = some pty := by
    unfold stab_resolve_func at h2 ⊢
    rw [← hc]
    exact h2
  have h3' : st0.types.get? pty = some pt := by
    rw [he] at h3
    by_cases hlt : pty < st0.types.length
    · rw [List.get?_eq_getElem?, List.getElem?_append_left hlt] at h3
      rw [List.get?_eq_getElem?]
      exact h3
    · rw [List.get?_eq_getElem?, List.getElem?_append_right (Nat.le_of_not_lt hlt)] at h3
      exact absurd (hx pt (List.getElem?_mem h3)) h4
  unfold resolves_to_magic
  simp only [h1, h2', h3']
  simpa using h4

theorem Inv.run {α : Type} {I : Acx → Prop} {m : M α} (h : Inv I m) {σ σ' : Acx} {a : α}
    (hI : I σ) (hm : m σ = some (a, σ')) : I σ' :=
  h σ a σ' hI hm

mutual
/-- Analysing an expression that calls no built-in of `st0` emits no `FCALL`
and keeps the names resolving as in `st0`. -/
theorem analyze_expr_quiet (ops : SymOps) (st0 : Stab) (base : List Insn) :
    ∀ e : Expr, calls_magic st0 e = false → Inv (QuietInv st0 base) (analyze_expr ops e)
  | Expr.APP name args, hq => by
    rw [calls_magic, Bool.or_eq_false_iff] at hq
    rw [analyze_expr]
    exact analyze_call_quiet ops st0 base name args hq.1 hq.2
  | Expr.BIN op l r, hq => by
    rw [calls_magic, Bool.or_eq_false_iff] at hq
    rw [analyze_expr]
    refine Inv.seq (analyze_expr_quiet ops st0 base l hq.1) fun lty =>
      Inv.seq (analyze_expr_quiet ops st0 base r hq.2) fun rty => Inv.seq ?_ fun _ =>
      Inv.seq (bin_insn_inv (quiet_emitClosed st0 base) _ _ _) fun _ => Inv.pure _
    split
    · exact Inv.seq ((quiet_emitClosed st0 base).diag _) fun _ =>
        Inv.seq ((quiet_emitClosed st0 base).diag _) fun _ => (quiet_emitClosed st0 base).err _
    · exact Inv.pure _
  | Expr.DEREF d, _ => by
    rw [analyze_expr]
    refine Inv.seq (Inv.orAbort _) fun p =>
      Inv.seq (type_of_path_inv (quiet_emitClosed st0 base) (quiet_capture st0 base) ops _)
        fun pathty =>
      Inv.seq (Inv.STAB_TYPE _) fun st => Inv.seq ?_ fun _ =>
      Inv.seq (size_of_type_inv (quiet_emitClosed st0 base) _) fun _ =>
      Inv.seq ((quiet_emitClosed st0 base).insn _ _ _ _ (by decide)) fun _ => Inv.pure _
    split
    · exact (quiet_emitClosed st0 base).err _
    · exact Inv.pure _
  | Expr.IDX path e, hq => by
    rw [calls_magic] at hq
    rw [analyze_expr]
    refine Inv.seq
        (type_of_path_inv (quiet_emitClosed st0 base) (quiet_capture st0 base) ops _)
        fun pathty =>
      Inv.seq (Inv.STAB_TYPE _) fun pt => Inv.seq ?_ fun _ =>
      Inv.seq (analyze_expr_quiet ops st0 base e hq) fun ety => Inv.seq ?_ fun _ =>
      Inv.seq (size_of_type_inv (quiet_emitClosed st0 base) _) fun _ =>
      Inv.seq ((quiet_emitClosed st0 base).insn _ _ _ _ (by decide)) fun _ =>
      Inv.seq ((quiet_emitClosed st0 base).insn _ _ _ _ (by decide)) fun _ => Inv.pure _
    · split
      · exact (quiet_emitClosed st0 base).err _
      · exact Inv.pure _
    · split
      · exact (quiet_emitClosed st0 base).err _
      · exact Inv.pure _
  | Expr.LIT n, _ => by
    rw [analyze_expr]
    exact Inv.seq ((quiet_emitClosed st0 base).insn _ _ _ _ (by decide)) fun _ => Inv.pure _
  | Expr.PATH p, _ => by
    rw [analyze_expr]
    exact type_of_path_inv (quiet_emitClosed st0 base) (quiet_capture st0 base) ops p
  | Expr.UN op e, hq => by
    rw [calls_magic] at hq
    rw [analyze_expr]
    refine Inv.seq (analyze_expr_quiet ops st0 base e hq) fun ety =>
      Inv.seq ?_ fun _ => Inv.pure _
    split
    · exact (quiet_emitClosed st0 base).err _
    · split
      · exact (quiet_emitClosed st0 base).err _
      · exact Inv.pure _
  | Expr.ADDROF e, hq => by
    rw [calls_magic] at hq
    rw [analyze_expr]
    exact Inv.seq (analyze_expr_quiet ops st0 base e hq) fun ety =>
      Inv.seq (Inv.STAB_TYPE _) fun _ =>
      Inv.seq (quiet_push_type st0 base _ rfl) fun _ => Inv.pure _
  | Expr.OTHER, _ => by
    rw [analyze_expr]
    exact Triple.abort
/-- A call of a function that is not a built-in of `st0`, with arguments that
call none, emits no `FCALL`. -/
theorem analyze_call_quiet (ops : SymOps) (st0 : Stab) (base : List Insn) (p : AstPath) :
    ∀ args : ExprList, resolves_to_magic st0 p = false → args_call_magic st0 args = false →
      Inv (QuietInv st0 base) (analyze_call ops p args)
  | args, hp, hq => by
    rw [analyze_call]
    split
    · exact Triple.abort
    · intro σ r σ' hI hm
      obtain ⟨name, σ1, h1, hm1⟩ := bind_eq_some.mp hm
      clear hm
      obtain ⟨hn, rfl⟩ := orAbort_eq h1
      obtain ⟨σx, σ2, h2, hm2⟩ := bind_eq_some.mp hm1
      obtain ⟨rfl, rfl⟩ := getAcx_eq h2
      obtain ⟨pty, σ3, h3, hm3⟩ := bind_eq_some.mp hm2
      obtain ⟨hr, rfl⟩ := orAbort_eq h3
      obtain ⟨pt, σ4, h4, hm4⟩ := bind_eq_some.mp hm3
      obtain ⟨ht, rfl⟩ := STAB_TYPE_eq h4
      by_cases hmg : pt.magic ≠ 0
      · have hrm := resolves_to_magic_of hI.1 hn hr ht hmg
        rw [hp] at hrm
        cases hrm
      · rw [if_neg hmg] at hm4
        refine Inv.run (Inv.seq ?_ fun _ => Inv.seq ?_ fun _ =>
          Inv.seq (call_args_quiet ops st0 base args _ _ hq) fun _ =>
          Inv.seq ((quiet_emitClosed st0 base).insn _ _ _ _ (by decide)) fun _ =>
          Inv.pure _) hI hm4
        · split
          · exact (quiet_emitClosed st0 base).err _
          · exact Inv.pure _
        · split
          · exact (quiet_emitClosed st0 base).err _
          · exact Inv.pure _
/-- The argument loop of `analyze_call`, for arguments that call no built-in
of `st0`. -/
theorem call_args_quiet (ops : SymOps) (st0 : Stab) (base : List Insn) :
    ∀ (args : ExprList) (formals : List Nat) (i : Nat), args_call_magic st0 args = false →
      Inv (QuietInv st0 base) (call_args ops args formals i)
  | ExprList.nil, _, _, _ => by
    rw [call_args]
    exact Inv.pure _
  | ExprList.cons _ _, [], _, _ => by
    rw [call_args]
    exact Inv.pure _
  | ExprList.cons e rest, ft :: formals, i, hq => by
    rw [args_call_magic, Bool.or_eq_false_iff] at hq
    rw [call_args]
    refine Inv.seq (analyze_expr_quiet ops st0 base e hq.1) fun et =>
      Inv.seq Inv.getAcx fun σ =>
      Inv.seq (Inv.STAB_VAR _) fun fv => Inv.seq ?_ fun _ =>
      Inv.seq (call_args_quiet ops st0 base rest formals _ hq.2) fun _ => Inv.pure _
    split
    · exact (quiet_emitClosed st0 base).diag _
    · exact Inv.pure _
end

theorem is_fcall_write_fcall (rc : Resu × String) : is_fcall (write_fcall rc) = true := rfl

/-- The loop of the write branch of `analyze_magic`, for arguments that call no
built-in of `st0`: it appends the instructions of each argument, none of
which is an `FCALL`, followed by one `FCALL` of the callee chosen for the type
of the result that the analysis of the argument has returned. -/
theorem magic_write_args_quiet (ops : SymOps) (st0 : Stab) :
    ∀ (args : ExprList) (σ σ' : Acx), args_call_magic st0 args = false → StInv st0 σ →
      magic_write_args ops args σ = some ((), σ') →
      ∃ (new : List Insn) (rs : List (Resu × String)),
        σ'.insns = σ.insns ++ new ∧
        write_results ops args σ rs ∧
        List.Forall₂ (fun e rc => (∃ σa σb, analyze_expr ops e σa = some (rc.1, σb)) ∧
          write_callee rc.1.type = some rc.2) args.toList rs ∧
        new.filter is_fcall = rs.map write_fcall
  | ExprList.nil, σ, σ', _, _, h => by
    rw [magic_write_args] at h
    obtain ⟨-, rfl⟩ := pure_eq_some.mp h
    exact ⟨[], [], by simp, by rw [write_results], List.Forall₂.nil, rfl⟩
  | ExprList.cons e rest, σ, σ', hq, hI, h => by
    rw [args_call_magic, Bool.or_eq_false_iff] at hq
    rw [magic_write_args] at h
    obtain ⟨r, σ1, h1, h2⟩ := bind_eq_some.mp h
    clear h
    obtain ⟨callit, σ2, h3, h4⟩ := bind_eq_some.mp h2
    obtain ⟨hc, rfl⟩ := orAbort_eq h3
    obtain ⟨i, σ3, h5, h6⟩ := bind_eq_some.mp h4
    obtain ⟨k, blk, -, -, -, h7⟩ := INSN_eff h5
    obtain ⟨hs1, n1, hn1, hf1⟩ :=
      analyze_expr_quiet ops st0 σ.insns e hq.1 σ r σ1 (QuietInv.start σ hI) h1
    have hs3 : StInv st0 σ3 := StInv.of_st (by rw [h7]) (by rw [h7]) hs1
    have hi3 : σ3.insns = σ1.insns ++ [write_fcall (r, callit)] := by
      rw [h7]
      rfl
    obtain ⟨n2, rs, hn2, hW, hF, hf2⟩ := magic_write_args_quiet ops st0 rest σ3 σ' hq.2 hs3 h6
    refine ⟨n1 ++ [write_fcall (r, callit)] ++ n2, (r, callit) :: rs, ?_, ?_, ?_, ?_⟩
    · rw [hn2, hi3, hn1]
      simp only [List.append_assoc]
    · rw [write_results]
      exact ⟨r, callit, σ1, i, σ3, rs, h1, hc, h5, rfl, hW⟩
    · exact List.Forall₂.cons ⟨⟨σ, σ1, h1⟩, hc⟩ hF
    · rw [List.filter_append, List.filter_append, hf1, hf2]
      rfl
/-! ## The errors reported only grow -/

theorem err_count_append (σ : Acx) (d : Diag) :
    err_count { σ with sink := σ.sink ++ [d] } = err_count σ + (if d.is_err then 1 else 0) := by
  unfold err_count
  simp only [List.filter_append, List.length_append]
  cases h : d.is_err <;> simp [List.filter, h]

theorem ErrInv.same_sink {c : Nat} {σ σ' : Acx} (h : σ'.sink = σ.sink) (hI : ErrInv c () σ) :
    ErrInv c () σ' := by
  unfold ErrInv err_count at *
  rw [h]
  exact hI

theorem err_exprClosed (c : Nat) : ExprClosed (ErrInv c ()) where
  err := by
    intro msg σ a σ' hI hm
    rw [span_err_eff] at hm
    simp only [Option.some.injEq, Prod.mk.injEq] at hm
    rw [← hm.2]
    unfold ErrInv at *
    rw [err_count_append]
    omega
  diag := by
    intro msg σ a σ' hI hm
    rw [span_diag_eff] at hm
    simp only [Option.some.injEq, Prod.mk.injEq] at hm
    rw [← hm.2]
    unfold ErrInv at *
    rw [err_count_append]
    omega
  insn := by
    intro op a b c _ σ r σ' hI hm
    obtain ⟨k, blk, -, -, -, rfl⟩ := INSN_eff hm
    exact hI
  fcall := by
    intro a b c σ r σ' hI hm
    obtain ⟨k, blk, -, -, -, rfl⟩ := INSN_eff hm
    exact hI
  capture := by
    intro idx σ r σ' hI hm
    rcases capture_var_eff hm with rfl | ⟨v, -, -, rfl⟩
    · exact hI
    · exact hI
  push_type := by
    intro t σ r σ' hI hm
    rw [push_type_eff] at hm
    simp only [Option.some.injEq, Prod.mk.injEq] at hm
    rw [← hm.2]
    exact hI

theorem err_stmtClosed (c : Nat) : StmtClosed (ErrInv c) id (fun _ => True) where
  expr := fun _ => err_exprClosed c
  fresh := by
    intro j op a b c σ r σ' hI hm
    obtain ⟨k, blk, -, -, rfl, rfl⟩ := INSN_eff hm
    exact ⟨hI, _, rfl, trivial⟩
  set_b := by
    intro j k o _ σ r σ' hI hm
    obtain ⟨x, -, rfl⟩ := set_b_eff hm
    exact hI
  set_c := by
    intro j k o _ σ r σ' hI hm
    obtain ⟨x, -, rfl⟩ := set_c_eff hm
    exact hI
  new_bb := by
    intro j σ r σ' hI hm
    obtain ⟨cfs, -, rfl⟩ := new_current_bb_eff hm
    exact hI
  ret := by
    intro j σ r σ' hI hm
    rcases set_ret_assigned_eff hm with ⟨-, rfl⟩ | ⟨i, cf, -, -, rfl⟩
    · exact hI
    · exact hI
  enter := by
    intro j σ r σ' hI hm
    rw [stab_enter_eff] at hm
    simp only [Option.some.injEq, Prod.mk.injEq] at hm
    rw [← hm.2]
    exact hI
  leave := by
    intro j σ r σ' hI hm
    rw [stab_leave_eff] at hm
    simp only [Option.some.injEq, Prod.mk.injEq] at hm
    rw [← hm.2]
    exact hI

theorem err_progClosed (c : Nat) : ProgClosed (ErrInv c) id (fun _ => True) where
  stmt := err_stmtClosed c
  core := by
    intro j σ σ' hc hI
    exact ErrInv.same_sink hc.2.2.2.1 hI
  insn_new := by
    intro j i σ r σ' hI hm
    rw [insn_new_eff] at hm
    simp only [Option.some.injEq, Prod.mk.injEq] at hm
    rw [← hm.2]
    exact hI
  push_var := by
    intro j v _ σ r σ' hI hm
    rw [push_var_eff] at hm
    simp only [Option.some.injEq, Prod.mk.injEq] at hm
    rw [← hm.2]
    exact hI
  top := by
    intro j f σ r σ' hI hm
    obtain ⟨sc, hsc, rfl⟩ := modify_top_scope_eff hm
    exact hI

/-! ## The entry of a function while its nested subprograms are analysed -/

theorem get?_lt {α : Type} (l : List α) (i : Nat) (a : α) (h : l.get? i = some a) :
    i < l.length := by
  by_contra hc
  rw [List.get?_eq_none.mpr (Nat.le_of_not_lt hc)] at h
  cases h

theorem get?_snoc {α : Type} (l : List α) (x a : α) (i : Nat)
    (h : (l ++ [x]).get? i = some a) : l.get? i = some a ∨ (i = l.length ∧ a = x) := by
  by_cases hi : i < l.length
  · rw [get?_append_lt _ _ _ hi] at h
    exact Or.inl h
  · rw [List.get?_eq_getElem?, List.getElem?_append_right (Nat.le_of_not_lt hi)] at h
    have h0 : i - l.length = 0 := by
      by_contra hc
      rw [List.getElem?_eq_none (by simp; omega)] at h
      cases h
    rw [h0] at h
    simp at h
    exact Or.inr ⟨by omega, h.symm⟩

theorem get?_snoc_last {α : Type} (l : List α) (x : α) : (l ++ [x]).get? l.length = some x := by
  simp

theorem lookup_mem {β : Type} :
    ∀ (l : List (String × β)) (a : String) (b : β), l.lookup a = some b → (a, b) ∈ l
  | [], _, _, h => by simp [List.lookup] at h
  | (k, v) :: rest, a, b, h => by
    by_cases e : a = k
    · subst e
      simp [List.lookup] at h
      subst h
      exact List.mem_cons_self _ _
    · have e' : (a == k) = false := by simpa using e
      rw [List.lookup, e'] at h
      exact List.mem_cons_of_mem _ (lookup_mem rest a b h)

theorem lookup_append_isSome {β : Type} (l : List (String × β)) (a : String) (b : β) :
    ((l ++ [(a, b)]).lookup a).isSome = true := by
  induction l with
  | nil => simp [List.lookup]
  | cons kv rest ih =>
    obtain ⟨k, v⟩ := kv
    by_cases e : a = k
    · subst e
      simp [List.lookup]
    · have e' : (a == k) = false := by simpa using e
      simp only [List.cons_append, List.lookup, e']
      exact ih

theorem funcs_avoid_snoc (L fidx : Nat) (init : List StabScope) (x : StabScope) :
    funcs_avoid L fidx (init ++ [x]) ↔
      funcs_avoid L fidx init ∧ (L ≤ init.length → ∀ nk ∈ x.funcs, nk.2 ≠ fidx) := by
  unfold funcs_avoid
  constructor
  · intro h
    refine ⟨fun i sc hi hg => h i sc hi ?_, fun hL => h init.length x hL (get?_snoc_last _ _)⟩
    rw [get?_append_lt _ _ _ (get?_lt _ _ _ hg)]
    exact hg
  · rintro ⟨h1, h2⟩ i sc hi hg
    rcases get?_snoc _ _ _ _ hg with h3 | ⟨h3, h4⟩
    · exact h1 i sc hi h3
    · rw [h4]
      exact h2 (by omega)

theorem EntryInv.of_types {fidx : Nat} {name : String} {σ σ' : Acx}
    (h : σ'.st.types = σ.st.types) (hI : EntryInv fidx name σ) : EntryInv fidx name σ' := by
  unfold EntryInv at *
  rw [h]
  exact hI

theorem EntryInv.push {fidx : Nat} {name : String} {σ : Acx} (t : StabType)
    (hI : EntryInv fidx name σ) :
    EntryInv fidx name { σ with st := { σ.st with types := σ.st.types ++ [t] } } := by
  obtain ⟨ft, h1, h2⟩ := hI
  exact ⟨ft, by rw [get?_append_lt _ _ _ (get?_lt _ _ _ h1)]; exact h1, h2⟩

theorem EntryInv.lt {fidx : Nat} {name : String} {σ : Acx} (hI : EntryInv fidx name σ) :
    fidx < σ.st.types.length := by
  obtain ⟨ft, h1, -⟩ := hI
  exact get?_lt _ _ _ h1

theorem FuncInv.same_func {fidx : Nat} {name : String} {L : Nat} {p : FuncPtr} {k : Nat}
    {σ σ' : Acx} (h1 : σ'.st.chain = σ.st.chain) (h2 : σ'.st.types = σ.st.types)
    (h3 : σ'.current_func = σ.current_func) (hI : FuncInv fidx name L p k σ) :
    FuncInv fidx name L p k σ' := by
  obtain ⟨a, b, c, d⟩ := hI
  exact ⟨by rw [h1]; exact a, by rw [h1]; exact b, EntryInv.of_types h2 c, by rw [h3]; exact d⟩

theorem func_exprClosed (fidx : Nat) (name : String) (L : Nat) (p : FuncPtr) (k : Nat) :
    ExprClosed (FuncInv fidx name L p k) where
  err := by
    intro msg σ a σ' hI hm
    rw [span_err_eff] at hm
    simp only [Option.some.injEq, Prod.mk.injEq] at hm
    rw [← hm.2]
    exact hI
  diag := by
    intro msg σ a σ' hI hm
    rw [span_diag_eff] at hm
    simp only [Option.some.injEq, Prod.mk.injEq] at hm
    rw [← hm.2]
    exact hI
  insn := by
    intro op a b c _ σ r σ' hI hm
    obtain ⟨k, blk, -, -, -, rfl⟩ := INSN_eff hm
    exact hI
  fcall := by
    intro a b c σ r σ' hI hm
    obtain ⟨k, blk, -, -, -, rfl⟩ := INSN_eff hm
    exact hI
  capture := by
    intro idx σ r σ' hI hm
    rcases capture_var_eff hm with rfl | ⟨v, -, -, rfl⟩
    · exact hI
    · exact hI
  push_type := by
    intro t σ r σ' hI hm
    rw [push_type_eff] at hm
    simp only [Option.some.injEq, Prod.mk.injEq] at hm
    rw [← hm.2]
    obtain ⟨a, b, c, d⟩ := hI
    exact ⟨a, b, EntryInv.push t c, d⟩

theorem func_stmtCore (fidx : Nat) (name : String) (L : Nat) (p : FuncPtr) :
    StmtCore (FuncInv fidx name L p) Nat.succ (fun _ => True) where
  expr := fun k => func_exprClosed fidx name L p k
  fresh := by
    intro j op a b c σ r σ' hI hm
    obtain ⟨k, blk, -, -, rfl, rfl⟩ := INSN_eff hm
    exact ⟨hI, _, rfl, trivial⟩
  set_b := by
    intro j k o _ σ r σ' hI hm
    obtain ⟨x, -, rfl⟩ := set_b_eff hm
    exact hI
  set_c := by
    intro j k o _ σ r σ' hI hm
    obtain ⟨x, -, rfl⟩ := set_c_eff hm
    exact hI
  new_bb := by
    intro j σ r σ' hI hm
    obtain ⟨cfs, -, rfl⟩ := new_current_bb_eff hm
    exact hI
  enter := by
    intro j σ r σ' hI hm
    rw [stab_enter_eff] at hm
    simp only [Option.some.injEq, Prod.mk.injEq] at hm
    rw [← hm.2]
    obtain ⟨a, b, c, d⟩ := hI
    refine ⟨?_, ?_, c, d⟩
    · show (σ.st.chain ++ [_]).length = _
      rw [List.length_append, a]
      rfl
    · show funcs_avoid L fidx (σ.st.chain ++ [_])
      rw [funcs_avoid_snoc]
      exact ⟨b, fun _ nk hnk => by cases hnk⟩
  leave := by
    intro j σ r σ' hI hm
    rw [stab_leave_eff] at hm
    simp only [Option.some.injEq, Prod.mk.injEq] at hm
    rw [← hm.2]
    obtain ⟨a, b, c, d⟩ := hI
    refine ⟨?_, ?_, c, d⟩
    · show σ.st.chain.dropLast.length = _
      rw [List.length_dropLast, a]
      rfl
    · show funcs_avoid L fidx σ.st.chain.dropLast
      cases hl : σ.st.chain.getLast? with
      | none =>
        rw [List.getLast?_eq_none_iff] at hl
        rw [hl] at a
        simp only [List.length_nil] at a
        omega
      | some x =>
        have hx := List.dropLast_append_getLast? x hl
        rw [← hx, funcs_avoid_snoc] at b
        exact b.1

theorem func_stmtClosed (fidx : Nat) (name : String) (L : Nat) (p : FuncPtr)
    (hp : p ≠ FuncPtr.entry fidx) :
    StmtClosed (FuncInv fidx name L p) Nat.succ (fun _ => True) where
  toStmtCore := func_stmtCore fidx name L p
  ret := by
    intro j σ r σ' hI hm
    rcases set_ret_assigned_eff hm with ⟨-, rfl⟩ | ⟨i, cf, hi, -, rfl⟩
    · exact hI
    · obtain ⟨a, b, ⟨ft, c1, c2⟩, d⟩ := hI
      have hne : i ≠ fidx := by
        intro e
        rw [d, e] at hi
        exact hp hi
      refine ⟨a, b, ⟨ft, ?_, c2⟩, d⟩
      show (σ.st.types.set i _).get? fidx = some ft
      rw [get?_set_other _ _ _ _ hne]
      exact c1

theorem FuncInv.top {fidx : Nat} {name : String} {L : Nat} {p : FuncPtr} {k : Nat} {σ : Acx}
    {sc x : StabScope} (hI : FuncInv fidx name L p k σ) (hsc : σ.st.chain.getLast? = some sc)
    (hx : ∀ nk ∈ x.funcs, nk ∈ sc.funcs ∨ nk.2 ≠ fidx) :
    FuncInv fidx name L p k
      { σ with st := { σ.st with chain := σ.st.chain.dropLast ++ [x] } } := by
  obtain ⟨a, b, c, d⟩ := hI
  have hc := List.dropLast_append_getLast? sc hsc
  rw [← hc, funcs_avoid_snoc] at b
  have hlen : σ.st.chain.dropLast.length + 1 = L + 1 + k := by
    rw [← a]
    conv => rhs; rw [← hc]
    simp
  refine ⟨?_, ?_, c, d⟩
  · show (σ.st.chain.dropLast ++ [x]).length = _
    rw [List.length_append, List.length_singleton]
    exact hlen
  · show funcs_avoid L fidx (σ.st.chain.dropLast ++ [x])
    rw [funcs_avoid_snoc]
    refine ⟨b.1, fun hL nk hnk => ?_⟩
    rcases hx nk hnk with h1 | h1
    · exact b.2 hL nk h1
    · exact h1

theorem func_declClosed (fidx : Nat) (name : String) (L : Nat) (p : FuncPtr) (k : Nat) :
    DeclClosed (FuncInv fidx name L p k) where
  expr := func_exprClosed fidx name L p k
  core := by
    intro σ σ' hc hI
    exact FuncInv.same_func (by rw [hc.1.1]) (by rw [hc.1.1]) hc.2 hI
  insn_new := by
    intro i σ r σ' hI hm
    rw [insn_new_eff] at hm
    simp only [Option.some.injEq, Prod.mk.injEq] at hm
    rw [← hm.2]
    exact hI
  push_var := by
    intro v _ σ r σ' hI hm
    rw [push_var_eff] at hm
    simp only [Option.some.injEq, Prod.mk.injEq] at hm
    rw [← hm.2]
    exact hI
  top := by
    intro f hf σ r σ' hI hm
    obtain ⟨sc, hsc, rfl⟩ := modify_top_scope_eff hm
    exact FuncInv.top hI hsc fun nk hnk => Or.inl (by rw [hf sc] at hnk; exact hnk)

theorem top_scope_eq {σ σ' : Acx} {sc : StabScope} (h : top_scope σ = some (sc, σ')) :
    σ.st.chain.getLast? = some sc ∧ σ = σ' := by
  unfold top_scope at h
  split at h
  · simp at h
  · rename_i x hx
    simp only [Option.some.injEq, Prod.mk.injEq] at h
    exact ⟨by rw [hx, h.1], h.2⟩

/-- After `stab_add_func`, the innermost scope binds the name; inside the
subprogram of the entry `fidx` the new binding does not name that entry. -/
theorem stab_add_func_func (fidx : Nat) (name : String) (L : Nat) (p : FuncPtr) (k : Nat)
    (n : String) (head : AstHead) :
    Triple (FuncInv fidx name L p k) (stab_add_func n head)
      fun _ σ => FuncInv fidx name L p k σ ∧ top_binds n σ := by
  intro σ r σ' hI hm
  unfold stab_add_func at hm
  obtain ⟨sc, σ1, h1, h2⟩ := bind_eq_some.mp hm
  clear hm
  obtain ⟨hsc, rfl⟩ := top_scope_eq h1
  by_cases hd : (sc.funcs.lookup n).isSome = true
  · rw [if_pos hd] at h2
    rw [span_err_eff] at h2
    simp only [Option.some.injEq, Prod.mk.injEq] at h2
    rw [← h2.2]
    exact ⟨hI, sc, hsc, hd⟩
  · rw [if_neg hd] at h2
    obtain ⟨formals, σ2, h3, h4⟩ := bind_eq_some.mp h2
    obtain ⟨retty, σ3, h5, h6⟩ := bind_eq_some.mp h4
    obtain ⟨c, σ4, h7, h8⟩ := bind_eq_some.mp h6
    obtain ⟨idx, σ5, h9, h10⟩ := bind_eq_some.mp h8
    have hd := func_declClosed fidx name L p k
    have I2 := stab_formals_inv hd _ σ formals σ2 hI h3
    have I3 := stab_resolve_type_inv hd _ _ σ2 retty σ3 I2 h5
    have I4 := cfunc_new_inv hd σ3 c σ4 I3 h7
    have I5 := hd.expr.push_type _ σ4 idx σ5 I4 h9
    rw [push_type_eff] at h9
    simp only [Option.some.injEq, Prod.mk.injEq] at h9
    have hidx : idx ≠ fidx := by
      rw [← h9.1]
      exact Nat.ne_of_gt I4.2.2.1.lt
    obtain ⟨sc5, hsc5, rfl⟩ := modify_top_scope_eff h10
    refine ⟨FuncInv.top I5 hsc5 fun nk hnk => ?_,
      ({ sc5 with funcs := sc5.funcs ++ [(n, idx)] }), ?_,
      lookup_append_isSome sc5.funcs n idx⟩
    · rcases List.mem_append.mp hnk with h | h
      · exact Or.inl h
      · rw [List.mem_singleton.mp h]
        exact Or.inr hidx
    · show (σ5.st.chain.dropLast ++ [_]).getLast? = _
      simp

theorem resolve_top {st : Stab} {sc : StabScope} {n : String}
    (hsc : st.chain.getLast? = some sc) (hb : (sc.funcs.lookup n).isSome = true) :
    stab_resolve_func st n = sc.funcs.lookup n := by
  unfold stab_resolve_func
  rw [← List.dropLast_append_getLast? sc hsc]
  obtain ⟨idx, hidx⟩ := Option.isSome_iff_exists.mp hb
  simp [List.findSome?_cons, hidx]

/-- What `enter_subprog` does to the context: the function that the name
resolves to becomes the current function, and the function that was current is
returned. -/
theorem enter_subprog_eff {n : String} {head : AstHead} {σ σ' : Acx} {saved : FuncPtr}
    (h : enter_subprog n head σ = some (saved, σ')) :
    ∃ kd, stab_resolve_func σ.st n = some kd ∧ saved = σ.current_func ∧ σ'.st = σ.st ∧
      σ'.current_func = FuncPtr.entry kd ∧ σ'.sink = σ.sink := by
  unfold enter_subprog at h
  obtain ⟨σ0, σ1, h1, h2⟩ := bind_eq_some.mp h
  clear h
  obtain ⟨rfl, rfl⟩ := getAcx_eq h1
  obtain ⟨kd, σ2, h3, h4⟩ := bind_eq_some.mp h2
  obtain ⟨hr, rfl⟩ := orAbort_eq h3
  obtain ⟨u1, σ3, h5, h6⟩ := bind_eq_some.mp h4
  rw [modifyAcx_eff] at h5
  simp only [Option.some.injEq, Prod.mk.injEq] at h5
  obtain ⟨cf, σ4, h7, h8⟩ := bind_eq_some.mp h6
  obtain ⟨e4, -⟩ := deref_func_eq h7
  obtain ⟨sf, σ5, h9, h10⟩ := bind_eq_some.mp h8
  obtain ⟨e5, -⟩ := deref_func_eq h9
  obtain ⟨sc, σ6, h11, h12⟩ := bind_eq_some.mp h10
  have e6 := deref_cfunc_readonly _ _ _ _ h11
  obtain ⟨c, σ7, h13, h14⟩ := bind_eq_some.mp h12
  have e7 := deref_cfunc_readonly _ _ _ _ h13
  obtain ⟨u2, σ8, h15, h16⟩ := bind_eq_some.mp h14
  obtain ⟨kc, -, e8⟩ := store_cfunc_eff h15
  obtain ⟨u3, σ9, h17, h18⟩ := bind_eq_some.mp h16
  rw [modifyAcx_eff] at h17
  simp only [Option.some.injEq, Prod.mk.injEq] at h17
  obtain ⟨e10, e11⟩ := pure_eq_some.mp h18
  have e3 := h5.2
  have e9 := h17.2
  subst e11 e9 e8 e7 e6 e5 e4 e3
  exact ⟨kd, hr, e10.symm, rfl, rfl, rfl⟩

theorem Triple.apply {α : Type} {P : Acx → Prop} {m : M α} {Q : α → Acx → Prop}
    (h : Triple P m Q) {σ σ' : Acx} {a : α} (hP : P σ) (hm : m σ = some (a, σ')) : Q a σ' :=
  h σ a σ' hP hm

/-- Inside the subprogram of the entry `fidx`, a name bound by the innermost
scope resolves to another entry. -/
theorem func_entry_ne {fidx : Nat} {name : String} {L : Nat} {p : FuncPtr} {k : Nat}
    {σ : Acx} {n : String} {kd : Nat} (hI : FuncInv fidx name L p k σ) (hb : top_binds n σ)
    (hr : stab_resolve_func σ.st n = some kd) : kd ≠ fidx := by
  obtain ⟨sc, hsc, hl⟩ := hb
  rw [resolve_top hsc hl] at hr
  have hmem := lookup_mem _ _ _ hr
  obtain ⟨a, b, -, -⟩ := hI
  have hc := List.dropLast_append_getLast? sc hsc
  rw [← hc, funcs_avoid_snoc] at b
  have hlen : σ.st.chain.dropLast.length + 1 = L + 1 + k := by
    rw [← a]
    conv => rhs; rw [← hc]
    simp
  exact b.2 (by omega) _ hmem

theorem set_current_func_func (fidx : Nat) (name : String) (L : Nat) (p q : FuncPtr) (k : Nat) :
    Triple (FuncInv fidx name L p k) (modifyAcx fun σ => { σ with current_func := q })
      fun _ => FuncInv fidx name L q k := by
  intro σ r σ' hI hm
  rw [modifyAcx_eff] at hm
  simp only [Option.some.injEq, Prod.mk.injEq] at hm
  rw [← hm.2]
  obtain ⟨a, b, c, -⟩ := hI
  exact ⟨a, b, c, rfl⟩

mutual
/-- The analysis of a subprogram nested in the subprogram of the entry `fidx`
leaves that entry as it is: the nested subprogram has an entry of its own. -/
theorem analyze_subprog_func (ops : SymOps) (u : Indet) (fidx : Nat) (name : String)
    (L : Nat) :
    ∀ (d : SubDecl) (p : FuncPtr) (k : Nat),
      Triple (fun σ => FuncInv fidx name L p k σ ∧ top_binds d.name σ)
        (analyze_subprog ops u d) fun _ => FuncInv fidx name L p k
  | SubDecl.mk n head types decls subprogs body, p, k => by
    intro σ r σ' hI hm
    rw [analyze_subprog] at hm
    obtain ⟨saved, σ1, h1, h2⟩ := bind_eq_some.mp hm
    clear hm
    obtain ⟨kd, hr, hs, hst, hcur, -⟩ := enter_subprog_eff h1
    have hkd : kd ≠ fidx := func_entry_ne hI.1 hI.2 hr
    have hsaved : saved = p := by rw [hs, hI.1.2.2.2]
    have I1 : FuncInv fidx name L (FuncPtr.entry kd) k σ1 := by
      obtain ⟨⟨a, b, c, -⟩, -⟩ := hI
      exact ⟨by rw [hst]; exact a, by rw [hst]; exact b,
        EntryInv.of_types (by rw [hst]) c, hcur⟩
    have hd := fun j => func_declClosed fidx name L (FuncPtr.entry kd) j
    have hsC := func_stmtClosed fidx name L (FuncPtr.entry kd)
      (fun e => hkd (FuncPtr.entry.inj e))
    rw [hsaved] at h2
    refine Triple.apply (?_ : Triple (FuncInv fidx name L (FuncPtr.entry kd) k) _
      (fun _ => FuncInv fidx name L p k)) I1 h2
    exact Triple.bind (hsC.enter k) fun _ =>
      Triple.step (add_types_inv (hd _) _) fun _ =>
      Triple.step (add_decls_inv (hd _) _ _) fun _ =>
      Triple.step (add_decls_inv (hd _) _ _) fun _ =>
      Triple.step (stab_resolve_type_inv (hd _) _ _) fun rt =>
      Triple.step (stab_add_var_inv (hd _) _ _ _) fun _ =>
      Triple.step Inv.top_scope fun top =>
      Triple.step (push_locs_inv (hd _) _) fun _ =>
      Triple.step (analyze_subprogs_func ops u fidx name L subprogs _ _) fun _ =>
      Triple.step Inv.top_scope fun top =>
      Triple.step (display_prelude_inv (hd _) _ _ _) fun _ =>
      Triple.step (analyze_stmt_inv hsC ops u body _) fun _ =>
      Triple.step (emit_ret_inv (hd _)) fun _ =>
      Triple.bind (set_current_func_func fidx name L _ p _) fun _ =>
      (func_stmtCore fidx name L p).leave k
theorem analyze_subprogs_func (ops : SymOps) (u : Indet) (fidx : Nat) (name : String)
    (L : Nat) :
    ∀ (l : SubDeclList) (p : FuncPtr) (k : Nat),
      Inv (FuncInv fidx name L p k) (analyze_subprogs ops u l)
  | SubDeclList.nil, p, k => by
    rw [analyze_subprogs]
    exact Inv.pure _
  | SubDeclList.cons d rest, p, k => by
    rw [analyze_subprogs]
    exact Triple.bind (stab_add_func_func fidx name L p k _ _) fun _ =>
      Triple.bind (analyze_subprog_func ops u fidx name L d p k) fun _ =>
      analyze_subprogs_func ops u fidx name L rest p k
end

/-! ## The body of a function that does not assign to its name -/

theorem root_is_of_path {name : String} {e : Expr} {p : AstPath}
    (hp : e.path_member = some p) (hq : root_is name e = false) :
    p.components.head? ≠ some name := by
  cases e <;> simp [Expr.path_member] at hp <;> subst hp <;> simpa [root_is] using hq

theorem check_assignability_tail_func (ops : SymOps) (fidx : Nat) (name : String) (L k : Nat)
    (e : Expr) (hq : root_is name e = false) :
    Inv (FuncInv fidx name L (FuncPtr.entry fidx) k) (check_assignability_tail ops e) := by
  intro σ r σ' hI hm
  unfold check_assignability_tail at hm
  obtain ⟨σ0, σ1, h1, h2⟩ := bind_eq_some.mp hm
  clear hm
  obtain ⟨rfl, rfl⟩ := getAcx_eq h1
  obtain ⟨cf, σ2, h3, h4⟩ := bind_eq_some.mp h2
  obtain ⟨rfl, hcf⟩ := deref_func_eq h3
  obtain ⟨p, σ3, h5, h6⟩ := bind_eq_some.mp h4
  obtain ⟨hp, rfl⟩ := orAbort_eq h5
  obtain ⟨elt, σ4, h7, h8⟩ := bind_eq_some.mp h6
  obtain ⟨helt, rfl⟩ := orAbort_eq h7
  obtain ⟨u1, σ5, h9, h10⟩ := bind_eq_some.mp h8
  have I5 := ite_unit_inv ((func_exprClosed fidx name L (FuncPtr.entry fidx) k).err _)
    σ u1 σ5 hI h9
  have hname : cf.name = name := by
    obtain ⟨-, -, ⟨ft, c1, c2, -⟩, d⟩ := hI
    rcases hcf with ⟨e1, -⟩ | ⟨i, e1, e2⟩
    · rw [d] at e1
      cases e1
    · rw [d] at e1
      have e3 := FuncPtr.entry.inj e1
      rw [← e3, c1] at e2
      rw [← Option.some.inj e2]
      exact c2
  have hne : ¬ cf.name = elt := by
    rw [hname]
    intro e1
    rw [← e1] at helt
    exact root_is_of_path hp hq helt
  rw [if_neg hne] at h10
  obtain ⟨-, rfl⟩ := pure_eq_some.mp h10
  exact I5

theorem check_assignability_path_func (ops : SymOps) (fidx : Nat) (name : String) (L k : Nat)
    (p : AstPath) (hq : root_is name (Expr.PATH p) = false) :
    Inv (FuncInv fidx name L (FuncPtr.entry fidx) k) (check_assignability_path ops p) := by
  unfold check_assignability_path
  refine Inv.seq Inv.getAcx fun σ => ?_
  split
  · exact Inv.pure _
  · exact Inv.seq (check_assignability_tail_func ops fidx name L k _ hq) fun _ => Inv.pure _

theorem check_assignability_tail_deref (ops : SymOps) (d : Expr) (σ : Acx) :
    check_assignability_tail ops (Expr.DEREF d) σ = none := by
  cases h : check_assignability_tail ops (Expr.DEREF d) σ with
  | none => rfl
  | some r =>
    exfalso
    obtain ⟨r1, σ'⟩ := r
    unfold check_assignability_tail at h
    obtain ⟨σ0, σ1, h1, h2⟩ := bind_eq_some.mp h
    obtain ⟨cf, σ2, h3, h4⟩ := bind_eq_some.mp h2
    obtain ⟨p, σ3, h5, h6⟩ := bind_eq_some.mp h4
    obtain ⟨hp, -⟩ := orAbort_eq h5
    simp [Expr.path_member] at hp

/-- Inside the function of the entry `fidx`, `check_assignability` leaves the
entry's `ret_assigned` false on an lvalue whose root is not the function's
name. -/
theorem check_assignability_func (ops : SymOps) (fidx : Nat) (name : String) (L k : Nat) :
    ∀ lv : Expr, root_is name lv = false →
      Inv (FuncInv fidx name L (FuncPtr.entry fidx) k) (check_assignability ops lv)
  | Expr.PATH p, hq => by
    rw [check_assignability]
    exact check_assignability_path_func ops fidx name L k p hq
  | Expr.IDX p e, hq => by
    rw [check_assignability]
    refine Inv.seq Inv.getAcx fun σ => ?_
    split
    · exact Inv.pure _
    · exact Inv.seq (check_assignability_path_func ops fidx name L k p hq) fun _ =>
        Inv.seq (check_assignability_tail_func ops fidx name L k _ hq) fun _ => Inv.pure _
  | Expr.DEREF d, _ => by
    rw [check_assignability]
    refine Inv.seq Inv.getAcx fun σ => ?_
    split
    · exact Inv.pure _
    · intro σ1 r σ' _ hm
      obtain ⟨root, σ2, -, h2⟩ := bind_eq_some.mp hm
      obtain ⟨u1, σ3, h3, -⟩ := bind_eq_some.mp h2
      rw [check_assignability_tail_deref] at h3
      cases h3
  | Expr.APP _ _, _ => by
    rw [check_assignability]
    refine Inv.seq Inv.getAcx fun σ => ?_
    split
    · exact Inv.pure _
    · exact Triple.abort
  | Expr.BIN _ _ _, _ => by
    rw [check_assignability]
    refine Inv.seq Inv.getAcx fun σ => ?_
    split
    · exact Inv.pure _
    · exact Triple.abort
  | Expr.LIT _, _ => by
    rw [check_assignability]
    refine Inv.seq Inv.getAcx fun σ => ?_
    split
    · exact Inv.pure _
    · exact Triple.abort
  | Expr.UN _ _, _ => by
    rw [check_assignability]
    refine Inv.seq Inv.getAcx fun σ => ?_
    split
    · exact Inv.pure _
    · exact Triple.abort
  | Expr.ADDROF _, _ => by
    rw [check_assignability]
    refine Inv.seq Inv.getAcx fun σ => ?_
    split
    · exact Inv.pure _
    · exact Triple.abort
  | Expr.OTHER, _ => by
    rw [check_assignability]
    refine Inv.seq Inv.getAcx fun σ => ?_
    split
    · exact Inv.pure _
    · exact Triple.abort

theorem Inv.and {α : Type} {I J : Acx → Prop} {m : M α} (h1 : Inv I m) (h2 : Inv J m) :
    Inv (fun σ => I σ ∧ J σ) m :=
  fun σ a σ' hI hm => ⟨h1 σ a σ' hI.1 hm, h2 σ a σ' hI.2 hm⟩

/-- When the current function is a SUB_FUNCTION whose `ret_assigned` is false,
`emit_ret` reports an error. -/
theorem emit_ret_err (fidx : Nat) (name : String) (L k c : Nat) :
    Triple (fun σ => FuncInv fidx name L (FuncPtr.entry fidx) k σ ∧ ErrInv c () σ) emit_ret
      fun _ => ErrInv (c + 1) () := by
  intro σ r σ' hI hm
  unfold emit_ret at hm
  obtain ⟨σ0, σ1, h1, h2⟩ := bind_eq_some.mp hm
  clear hm
  obtain ⟨rfl, rfl⟩ := getAcx_eq h1
  obtain ⟨cf, σ2, h3, h4⟩ := bind_eq_some.mp h2
  obtain ⟨rfl, hcf⟩ := deref_func_eq h3
  obtain ⟨u1, σ3, h5, h6⟩ := bind_eq_some.mp h4
  have hflag : ¬ cf.ty.func_ret_assigned = true ∧ cf.ty.func_type = SubKind.SUB_FUNCTION := by
    obtain ⟨⟨-, -, ⟨ft, c1, -, c3, c4⟩, d⟩, -⟩ := hI
    rcases hcf with ⟨e1, -⟩ | ⟨i, e1, e2⟩
    · rw [d] at e1
      cases e1
    · rw [d] at e1
      have e3 := FuncPtr.entry.inj e1
      rw [← e3, c1] at e2
      rw [← Option.some.inj e2]
      exact ⟨by rw [c4]; decide, c3⟩
  rw [if_pos hflag, span_err_eff] at h5
  simp only [Option.some.injEq, Prod.mk.injEq] at h5
  have I3 : ErrInv (c + 1) () σ3 := by
    rw [← h5.2]
    have hc := hI.2
    unfold ErrInv at *
    rw [err_count_append]
    simp only [Diag.is_err, if_true]
    omega
  have hE := err_exprClosed (c + 1)
  refine Inv.run ?_ I3 h6
  split
  · exact Inv.seq (Inv.orAbort _) fun _ => Inv.seq (Inv.STAB_VAR _) fun _ =>
      Inv.seq (hE.insn_all _ _ _ _) fun _ => Inv.pure _
  · exact Inv.seq (hE.insn_all _ _ _ _) fun _ => Inv.pure _

theorem funcs_avoid_start (fidx : Nat) (chain : List StabScope) :
    funcs_avoid chain.length fidx chain := by
  intro i sc hi hg
  have := get?_lt _ _ _ hg
  omega

/-- If the entry of a function has `ret_assigned` false when `analyze_subprog`
starts on it and no assignment of the body has the function's name as root, an
error is reported. -/
theorem analyze_subprog_reports (ops : SymOps) (u : Indet) (n : String) (head : AstHead)
    (types : List AstTypeDecl) (decls : List AstDecls) (subprogs : SubDeclList) (body : Stmt)
    (σ σ' : Acx) (fidx : Nat)
    (hr : stab_resolve_func σ.st n = some fidx) (hE : EntryInv fidx n σ)
    (hb : assigns_root n body = false)
    (h : analyze_subprog ops u (SubDecl.mk n head types decls subprogs body) σ = some ((), σ')) :
    err_count σ + 1 ≤ err_count σ' := by
  rw [analyze_subprog] at h
  obtain ⟨saved, σ1, h1, h2⟩ := bind_eq_some.mp h
  clear h
  obtain ⟨kd, hr1, -, hst, hcur, hsink⟩ := enter_subprog_eff h1
  rw [hr] at hr1
  have hkd := Option.some.inj hr1
  obtain ⟨u1, σ2, h3, h4⟩ := bind_eq_some.mp h2
  rw [stab_enter_eff] at h3
  simp only [Option.some.injEq, Prod.mk.injEq] at h3
  have I2 : FuncInv fidx n σ.st.chain.length (FuncPtr.entry fidx) 0 σ2 ∧
      ErrInv (err_count σ) () σ2 := by
    rw [← h3.2]
    refine ⟨⟨?_, ?_, EntryInv.of_types (by rw [hst]) hE, by rw [hcur, hkd]⟩, ?_⟩
    · show (σ1.st.chain ++ [_]).length = _
      rw [hst]
      simp
    · show funcs_avoid _ fidx (σ1.st.chain ++ [_])
      rw [hst, funcs_avoid_snoc]
      exact ⟨funcs_avoid_start fidx _, fun _ nk hnk => by cases hnk⟩
    · show err_count σ ≤ (List.filter Diag.is_err σ1.sink).length
      rw [hsink]
      exact Nat.le_refl _
  have hd := func_declClosed fidx n σ.st.chain.length (FuncPtr.entry fidx) 0
  have hc := func_stmtCore fidx n σ.st.chain.length (FuncPtr.entry fidx)
  have gP := err_progClosed (err_count σ)
  have gd := gP.decl ()
  have gP1 := err_progClosed (err_count σ + 1)
  refine Triple.apply (?_ : Triple (fun σ0 =>
    FuncInv fidx n σ.st.chain.length (FuncPtr.entry fidx) 0 σ0 ∧ ErrInv (err_count σ) () σ0) _
    (fun _ => ErrInv (err_count σ + 1) ())) I2 h4
  exact Triple.step (Inv.and (add_types_inv hd _) (add_types_inv gd _)) fun _ =>
    Triple.step (Inv.and (add_decls_inv hd _ _) (add_decls_inv gd _ _)) fun _ =>
    Triple.step (Inv.and (add_decls_inv hd _ _) (add_decls_inv gd _ _)) fun _ =>
    Triple.step (Inv.and (stab_resolve_type_inv hd _ _) (stab_resolve_type_inv gd _ _)) fun _ =>
    Triple.step (Inv.and (stab_add_var_inv hd _ _ _) (stab_add_var_inv gd _ _ _)) fun _ =>
    Triple.step (Inv.and Inv.top_scope Inv.top_scope) fun _ =>
    Triple.step (Inv.and (push_locs_inv hd _) (push_locs_inv gd _)) fun _ =>
    Triple.step (Inv.and (analyze_subprogs_func ops u fidx n _ subprogs _ _)
      (analyze_subprogs_inv gP ops u subprogs ())) fun _ =>
    Triple.step (Inv.and Inv.top_scope Inv.top_scope) fun _ =>
    Triple.step (Inv.and (display_prelude_inv hd _ _ _) (display_prelude_inv gd _ _ _)) fun _ =>
    Triple.step (Inv.and
      (analyze_stmt_lv hc ops u (root_is n)
        (fun j lv hq => check_assignability_func ops fidx n _ j lv hq) body 0 hb)
      (analyze_stmt_inv gP.stmt ops u body ())) fun _ =>
    Triple.bind (emit_ret_err fidx n _ 0 _) fun _ =>
    Triple.step (modifyAcx_inv_of_core gP1 () _ fun _ => ⟨rfl, rfl, rfl, rfl, rfl⟩) fun _ =>
    gP1.stmt.leave ()
/-! ## Running a computation forwards -/

theorem bind_eval {α β : Type} {m : M α} {f : α → M β} {σ σ1 : Acx} {a : α}
    (h : m σ = some (a, σ1)) : (m >>= f) σ = f a σ1 := by
  show M.bind m f σ = _
  unfold M.bind
  rw [h]

theorem STAB_TYPE_eval {idx : Nat} {σ : Acx} {t : StabType} (h : σ.st.types.get? idx = some t) :
    STAB_TYPE idx σ = some (t, σ) := by
  unfold STAB_TYPE
  rw [h]

/-- The value and the effect of `size_of_type` on an entry of the type table, by
the entry's tag. -/
theorem size_of_type_eval (idx : Nat) (σ : Acx) (t : StabType)
    (h : σ.st.types.get? idx = some t) :
    size_of_type idx σ =
      match t.ty.tag with
      | TypeTag.TYPE_ARRAY => some (8, σ)
      | TypeTag.TYPE_BOOLEAN => some (1, σ)
      | TypeTag.TYPE_CHAR => some (1, σ)
      | TypeTag.TYPE_FUNCTION => some (8, σ)
      | TypeTag.TYPE_INTEGER => some (8, σ)
      | TypeTag.TYPE_POINTER => some (8, σ)
      | TypeTag.TYPE_REAL => some (8, σ)
      | TypeTag.TYPE_RECORD => some (64, σ)
      | TypeTag.TYPE_REF => some (0, { σ with sink := σ.sink ++
          [Diag.err "What is a TYPE_REF doing in size_of_type?"] })
      | TypeTag.TYPE_STRING => some (8, σ)
      | TypeTag.TYPE_VOID => some (1, σ) := by
  unfold size_of_type
  rw [bind_eval (STAB_TYPE_eval h)]
  cases t.ty.tag <;> rfl

/-- What `size_of_type` reports: the error of the `TYPE_REF` case, for an entry
of that tag, and nothing otherwise. -/
theorem size_of_type_sink {idx : Nat} {σ σ' : Acx} {n : Int}
    (h : size_of_type idx σ = some (n, σ')) :
    ∃ t, σ.st.types.get? idx = some t ∧
      σ'.sink = σ.sink ++ (if t.ty.tag = TypeTag.TYPE_REF then
        [Diag.err "What is a TYPE_REF doing in size_of_type?"] else []) := by
  have h0 := h
  unfold size_of_type at h0
  obtain ⟨t, σ1, h1, -⟩ := bind_eq_some.mp h0
  obtain ⟨hg, -⟩ := STAB_TYPE_eq h1
  refine ⟨t, hg, ?_⟩
  rw [size_of_type_eval idx σ t hg] at h
  cases htag : t.ty.tag <;> simp only [htag] at h <;>
    simp only [Option.some.injEq, Prod.mk.injEq] at h <;> rw [← h.2] <;> simp

theorem ite_err_sink {c : Prop} [Decidable c] {msg : String} {σ σ' : Acx} {r : Unit}
    (h : (if c then span_err msg else pure ()) σ = some (r, σ')) :
    σ'.insns = σ.insns ∧ σ'.st = σ.st ∧
      σ'.sink = σ.sink ++ (if c then [Diag.err msg] else []) := by
  by_cases hc : c
  · rw [if_pos hc, span_err_eff] at h
    simp only [Option.some.injEq, Prod.mk.injEq] at h
    rw [← h.2, if_pos hc]
    exact ⟨rfl, rfl, rfl⟩
  · rw [if_neg hc] at h
    obtain ⟨-, rfl⟩ := pure_eq_some.mp h
    rw [if_neg hc, List.append_nil]
    exact ⟨rfl, rfl, rfl⟩

theorem INSN_sink {op : Opcode} {a b c : Operand} {σ σ' : Acx} {r : InsnPtr}
    (h : INSN op a b c σ = some (r, σ')) : σ'.sink = σ.sink := by
  obtain ⟨k, blk, -, -, -, rfl⟩ := INSN_eff h
  rfl

/-- What the lowering of an assignment appends after the analysis of its
rvalue: the error of the type check when the types are not equal, and, in
every case, the store. -/
theorem assign_effect (ops : SymOps) (u : Indet) (lvalue rvalue : Expr) (σ σ' : Acx)
    (h : analyze_stmt ops u (Stmt.ASSIGN lvalue rvalue) σ = some ((), σ')) :
    ∃ (lty rty : Resu) (root : Option AstPath) (σl σc σr : Acx) (n : Int) (t : StabType),
      analyze_expr ops lvalue σ = some (lty, σl) ∧
      check_assignability ops lvalue σl = some (root, σc) ∧
      analyze_expr ops rvalue σc = some (rty, σr) ∧
      σr.st.types.get? rty.type = some t ∧
      σ'.insns = σr.insns ++ [{ op := Opcode.ST, a := Operand.insn lty.op,
                                b := Operand.insn rty.op, c := Operand.int n }] ∧
      σ'.sink = σr.sink ++
        (if ops.types_eq σr.st rty.type lty.type = true then []
          else [Diag.err "cannot assign incompatible type"]) ++
        (if t.ty.tag = TypeTag.TYPE_REF then
          [Diag.err "What is a TYPE_REF doing in size_of_type?"] else []) := by
  rw [analyze_stmt] at h
  obtain ⟨lty, σl, h1, h2⟩ := bind_eq_some.mp h
  clear h
  obtain ⟨root, σc, h3, h4⟩ := bind_eq_some.mp h2
  obtain ⟨rty, σr, h5, h6⟩ := bind_eq_some.mp h4
  obtain ⟨σ0, σ1, h7, h8⟩ := bind_eq_some.mp h6
  obtain ⟨rfl, rfl⟩ := getAcx_eq h7
  obtain ⟨u1, σ2, h9, h10⟩ := bind_eq_some.mp h8
  obtain ⟨n, σ3, h11, h12⟩ := bind_eq_some.mp h10
  obtain ⟨i, σ4, h13, h14⟩ := bind_eq_some.mp h12
  obtain ⟨-, rfl⟩ := pure_eq_some.mp h14
  obtain ⟨e2i, e2t, e2s⟩ := ite_err_sink h9
  obtain ⟨e3i, e3t⟩ := size_of_type_fr h11
  obtain ⟨t, ht, e3s⟩ := size_of_type_sink h11
  obtain ⟨-, e4i, -⟩ := INSN_fr h13
  have e4s := INSN_sink h13
  refine ⟨lty, rty, root, σl, σc, σr, n, t, h1, h3, h5, by rw [← e2t]; exact ht, ?_, ?_⟩
  · rw [e4i, e3i, e2i]
  · rw [e4s, e3s, e2s]
    by_cases hc : ops.types_eq σr.st rty.type lty.type = true
    · rw [if_neg (not_not.mpr hc), if_pos hc]
    · rw [if_pos hc, if_neg hc]

theorem set_ret_assigned_sink {σ σ' : Acx} {r : Unit} (h : set_ret_assigned σ = some (r, σ')) :
    σ'.sink = σ.sink := by
  rcases set_ret_assigned_eff h with ⟨-, rfl⟩ | ⟨i, cf, -, -, rfl⟩ <;> rfl

/-- What `check_assignability` reports on a path: the error of an assignment to
a non-local, when the current function is a SUB_FUNCTION and the root of the
path is not one of its locals, and nothing otherwise. -/
theorem check_assignability_path_sink (ops : SymOps) (p : AstPath) (σ σ' : Acx)
    (root : Option AstPath) (cf : StabType) (elt : String)
    (hnull : σ.current_func ≠ FuncPtr.null)
    (hcf : deref_func σ.current_func σ = some (cf, σ))
    (helt : p.components.head? = some elt)
    (h : check_assignability ops (Expr.PATH p) σ = some (root, σ')) :
    σ'.sink = σ.sink ++
      (if cf.ty.func_type = SubKind.SUB_FUNCTION ∧ ops.has_local_var σ.st elt = false then
        [Diag.err "assigned to non-local in function"] else []) := by
  rw [check_assignability] at h
  unfold check_assignability_path at h
  obtain ⟨σ0, σ1, h1, h2⟩ := bind_eq_some.mp h
  clear h
  obtain ⟨rfl, rfl⟩ := getAcx_eq h1
  rw [if_neg hnull] at h2
  obtain ⟨u1, σ2, h3, h4⟩ := bind_eq_some.mp h2
  obtain ⟨-, rfl⟩ := pure_eq_some.mp h4
  unfold check_assignability_tail at h3
  obtain ⟨σ0, σ3, h5, h6⟩ := bind_eq_some.mp h3
  obtain ⟨rfl, rfl⟩ := getAcx_eq h5
  obtain ⟨cf1, σ4, h7, h8⟩ := bind_eq_some.mp h6
  rw [hcf] at h7
  simp only [Option.some.injEq, Prod.mk.injEq] at h7
  obtain ⟨rfl, rfl⟩ := h7
  obtain ⟨p1, σ5, h9, h10⟩ := bind_eq_some.mp h8
  obtain ⟨hp1, rfl⟩ := orAbort_eq h9
  have hp : p1 = p := by
    simp only [Expr.path_member, Option.some.injEq] at hp1
    exact hp1.symm
  subst hp
  obtain ⟨elt1, σ6, h11, h12⟩ := bind_eq_some.mp h10
  obtain ⟨he1, rfl⟩ := orAbort_eq h11
  rw [helt] at he1
  have he := Option.some.inj he1
  subst he
  obtain ⟨u2, σ7, h13, h14⟩ := bind_eq_some.mp h12
  obtain ⟨-, -, e7⟩ := ite_err_sink h13
  have e8 : σ2.sink = σ7.sink := by
    split at h14
    · exact set_ret_assigned_sink h14
    · obtain ⟨-, rfl⟩ := pure_eq_some.mp h14
      rfl
  rw [e8, e7]
  by_cases hc : cf.ty.func_type = SubKind.SUB_FUNCTION ∧ ops.has_local_var σ.st elt = false
  · rw [if_pos hc, if_pos]
    exact ⟨hc.1, by rw [hc.2]; decide⟩
  · rw [if_neg hc, if_neg]
    rintro ⟨a, b⟩
    exact hc ⟨a, by simpa using b⟩

/-- What the lowering of a dereference does after the analysis of its path: it
reports an error when the type of the path is not a pointer, and appends a load
from the address of the path, of the size of the type of the path. -/
theorem deref_effect (ops : SymOps) (d : Expr) (σ σ' : Acx) (r : Resu)
    (h : analyze_expr ops (Expr.DEREF d) σ = some (r, σ')) :
    ∃ (p : AstPath) (pathty : Resu) (σ1 : Acx) (st : StabType) (n : Int),
      d.path_member = some p ∧
      type_of_path ops p σ = some (pathty, σ1) ∧
      σ1.st.types.get? pathty.type = some st ∧
      (size_of_type pathty.type σ1).map Prod.fst = some n ∧
      r = { op := InsnPtr.ptr σ1.insns.length, type := st.ty.pointer } ∧
      σ'.insns = σ1.insns ++ [{ op := Opcode.LD, a := Operand.insn pathty.op,
                                b := Operand.int n, c := Operand.null }] ∧
      σ'.sink = σ1.sink ++
        (if st.ty.tag ≠ TypeTag.TYPE_POINTER then [Diag.err "tried to dereference non-pointer"]
          else []) ++
        (if st.ty.tag = TypeTag.TYPE_REF then
          [Diag.err "What is a TYPE_REF doing in size_of_type?"] else []) := by
  rw [analyze_expr] at h
  obtain ⟨p, σ0, h1, h2⟩ := bind_eq_some.mp h
  clear h
  obtain ⟨hp, rfl⟩ := orAbort_eq h1
  obtain ⟨pathty, σ1, h3, h4⟩ := bind_eq_some.mp h2
  obtain ⟨st, σ2, h5, h6⟩ := bind_eq_some.mp h4
  obtain ⟨hst, rfl⟩ := STAB_TYPE_eq h5
  obtain ⟨u1, σ3, h7, h8⟩ := bind_eq_some.mp h6
  obtain ⟨n, σ4, h9, h10⟩ := bind_eq_some.mp h8
  obtain ⟨i, σ5, h11, h12⟩ := bind_eq_some.mp h10
  obtain ⟨hr, rfl⟩ := pure_eq_some.mp h12
  obtain ⟨e3i, e3t, e3s⟩ := ite_err_sink h7
  obtain ⟨e4i, e4t⟩ := size_of_type_fr h9
  obtain ⟨t, ht, e4s⟩ := size_of_type_sink h9
  obtain ⟨hi, e5i, -⟩ := INSN_fr h11
  have e5s := INSN_sink h11
  have htt : t = st := by
    rw [e3t, hst] at ht
    exact (Option.some.inj ht).symm
  subst htt
  refine ⟨p, pathty, σ1, t, n, hp, h3, hst, size_of_type_transfer h9 (by rw [e3t]), ?_, ?_, ?_⟩
  · rw [← hr, hi, e4i, e3i]
  · rw [e5i, e4i, e3i]
  · rw [e5s, e4s, e3s]

/-- What the loop of the read branch of `analyze_magic` does for one argument: it
reports an error when the argument is not of lvalue form, analyses the
argument, and appends one `FCALL` of the callee chosen for the argument's
type, with the argument's result as operand. -/
theorem magic_read_step (ops : SymOps) (e : Expr) (rest : ExprList) (σ σ' : Acx)
    (h : magic_read_args ops (ExprList.cons e rest) σ = some ((), σ')) :
    ∃ (r : Resu) (σ1 : Acx) (callee : String) (σ2 : Acx),
      analyze_expr ops e { σ with sink := σ.sink ++
        (if not_lvalue_form e = true then
          [Diag.err "but read/ln must be called with lvalues"] else []) } = some (r, σ1) ∧
      read_callee r.type = some callee ∧
      INSN Opcode.FCALL (Operand.str callee) (Operand.vec [r]) Operand.null σ1
        = some (InsnPtr.ptr σ1.insns.length, σ2) ∧
      σ2.insns = σ1.insns ++ [read_fcall (r, callee)] ∧
      σ2.sink = σ1.sink ∧
      magic_read_args ops rest σ2 = some ((), σ') := by
  rw [magic_read_args] at h
  obtain ⟨u1, σ0, h1, h2⟩ := bind_eq_some.mp h
  clear h
  obtain ⟨r, σ1, h3, h4⟩ := bind_eq_some.mp h2
  obtain ⟨callee, σx, h5, h6⟩ := bind_eq_some.mp h4
  obtain ⟨hc, rfl⟩ := orAbort_eq h5
  obtain ⟨i, σ2, h7, h8⟩ := bind_eq_some.mp h6
  obtain ⟨hi, e2i, -⟩ := INSN_fr h7
  have hσ0 : σ0 = { σ with sink := σ.sink ++
      (if not_lvalue_form e = true then
        [Diag.err "but read/ln must be called with lvalues"] else []) } := by
    by_cases hl : not_lvalue_form e = true
    · rw [if_pos hl, span_err_eff] at h1
      simp only [Option.some.injEq, Prod.mk.injEq] at h1
      rw [← h1.2, if_pos hl]
    · rw [if_neg hl] at h1
      obtain ⟨-, rfl⟩ := pure_eq_some.mp h1
      rw [if_neg hl, List.append_nil]
  rw [hσ0] at h3
  rw [hi] at h7
  exact ⟨r, σ1, callee, σ2, h3, hc, h7, e2i, INSN_sink h7, h8⟩

/-! ## The blocks of an `if` without else -/

theorem get?_set_same {α : Type} (l : List α) (k : Nat) (x : α) (h : k < l.length) :
    (l.set k x).get? k = some x := by
  simp [List.get?_eq_getElem?, List.getElem?_set_self, h]

theorem ite_err_eff {c : Prop} [Decidable c] {msg : String} {σ σ' : Acx} {r : Unit}
    (h : (if c then span_err msg else pure ()) σ = some (r, σ')) :
    σ' = { σ with sink := σ.sink ++ (if c then [Diag.err msg] else []) } := by
  by_cases hc : c
  · rw [if_pos hc, span_err_eff] at h
    simp only [Option.some.injEq, Prod.mk.injEq] at h
    rw [← h.2, if_pos hc]
  · rw [if_neg hc] at h
    obtain ⟨-, rfl⟩ := pure_eq_some.mp h
    rw [if_neg hc, List.append_nil]

theorem INSN_blk {op : Opcode} {a b c : Operand} {σ σ' : Acx} {r : InsnPtr}
    (h : INSN op a b c σ = some (r, σ')) :
    r = InsnPtr.ptr σ.insns.length ∧
      σ'.insns = σ.insns ++ [{ op := op, a := a, b := b, c := c }] ∧
      σ'.current_bb = σ.current_bb ∧
      ∃ k blk, σ.current_bb = some k ∧ σ.bbs.get? k = some blk ∧
        σ'.bbs = σ.bbs.set k { insns := blk.insns ++ [InsnPtr.ptr σ.insns.length] } := by
  obtain ⟨k, blk, h1, h2, rfl, rfl⟩ := INSN_eff h
  exact ⟨rfl, rfl, rfl, k, blk, h1, h2, rfl⟩

theorem new_current_bb_blk {σ σ' : Acx} {r : Nat} (h : new_current_bb σ = some (r, σ')) :
    r = σ.bbs.length ∧ σ'.insns = σ.insns ∧ σ'.bbs = σ.bbs ++ [{ insns := [] }] ∧
      σ'.current_bb = some σ.bbs.length := by
  obtain ⟨cfs, rfl, rfl⟩ := new_current_bb_eff h
  exact ⟨rfl, rfl, rfl, rfl⟩

theorem set_b_blk {k : Nat} {o : Operand} {σ σ' : Acx} {r : Unit}
    (h : set_b (InsnPtr.ptr k) o σ = some (r, σ')) :
    ∃ x, σ.insns.get? k = some x ∧ σ'.insns = σ.insns.set k { x with b := o } ∧
      σ'.bbs = σ.bbs ∧ σ'.current_bb = σ.current_bb := by
  obtain ⟨x, hx, rfl⟩ := set_b_eff h
  exact ⟨x, hx, rfl, rfl, rfl⟩

theorem set_c_blk {k : Nat} {o : Operand} {σ σ' : Acx} {r : Unit}
    (h : set_c (InsnPtr.ptr k) o σ = some (r, σ')) :
    ∃ x, σ.insns.get? k = some x ∧ σ'.insns = σ.insns.set k { x with c := o } ∧
      σ'.bbs = σ.bbs ∧ σ'.current_bb = σ.current_bb := by
  obtain ⟨x, hx, rfl⟩ := set_c_eff h
  exact ⟨x, hx, rfl, rfl, rfl⟩

/-- The lowering of an `if` without else: after the condition, the block `L0` of
the then-branch is created and the then-branch lowered in it; then the tail
`BR` of the then-branch, a block `L1` that holds a single `BR`, and the join
block `L1 + 1`, which is current; the conditional `BR` gets the targets `L0`
and `L1`, the two tail `BR`s the join block. -/
theorem ite_no_else (ops : SymOps) (u : Indet) (cond : Expr) (then_ : Stmt) (σ σ' : Acx)
    (h : analyze_stmt ops u (Stmt.ITE cond then_ Stmt.NULL) σ = some ((), σ')) :
    ∃ (cty : Resu) (σc σ3 σt : Acx),
      analyze_expr ops cond σ = some (cty, σc) ∧
      σ3.insns.length = σc.insns.length + 1 ∧
      σ3.bbs.length = σc.bbs.length + 1 ∧
      σ3.current_bb = some σc.bbs.length ∧
      analyze_stmt ops u then_ σ3 = some ((), σt) ∧
      σ'.insns.get? σc.insns.length =
        some { op := Opcode.BR, a := Operand.insn cty.op, b := Operand.label σc.bbs.length,
               c := Operand.label σt.bbs.length } ∧
      σ'.insns.get? σt.insns.length =
        some { op := Opcode.BR, a := Operand.tt, b := Operand.label (σt.bbs.length + 1),
               c := Operand.null } ∧
      σ'.insns.get? (σt.insns.length + 1) =
        some { op := Opcode.BR, a := Operand.tt, b := Operand.label (σt.bbs.length + 1),
               c := Operand.null } ∧
      σ'.insns.length = σt.insns.length + 2 ∧
      σ'.bbs.length = σt.bbs.length + 2 ∧
      σ'.bbs.get? σt.bbs.length = some { insns := [InsnPtr.ptr (σt.insns.length + 1)] } ∧
      σ'.bbs.get? (σt.bbs.length + 1) = some { insns := [] } ∧
      σ'.current_bb = some (σt.bbs.length + 1) := by
  rw [analyze_stmt] at h
  obtain ⟨cty, σc, h1, h2⟩ := bind_eq_some.mp h
  clear h
  obtain ⟨u1, σ1, h3, h4⟩ := bind_eq_some.mp h2
  obtain ⟨i1, σ2, h5, h6⟩ := bind_eq_some.mp h4
  obtain ⟨l0, σ3, h7, h8⟩ := bind_eq_some.mp h6
  obtain ⟨⟨⟩, σt, h9, h10⟩ := bind_eq_some.mp h8
  obtain ⟨i2, σ5, h11, h12⟩ := bind_eq_some.mp h10
  obtain ⟨l1, σ6, h13, h14⟩ := bind_eq_some.mp h12
  obtain ⟨u3, σ7, h15, h16⟩ := bind_eq_some.mp h14
  rw [analyze_stmt] at h15
  obtain ⟨-, rfl⟩ := pure_eq_some.mp h15
  obtain ⟨i3, σ8, h17, h18⟩ := bind_eq_some.mp h16
  obtain ⟨l2, σ9, h19, h20⟩ := bind_eq_some.mp h18
  have e1 := ite_err_eff h3
  obtain ⟨rfl, a2, c2, k2, blk2, -, -, b2⟩ := INSN_blk h5
  obtain ⟨rfl, a3, b3, c3⟩ := new_current_bb_blk h7
  obtain ⟨P1, P2⟩ := analyze_stmt_inv (prefix_stmtClosed σ3.insns) ops u then_ () σ3 () σt
    (PrefixInv.start_prefix σ3) h9
  obtain ⟨rfl, a5, c5, k5, blk5, -, -, b5⟩ := INSN_blk h11
  obtain ⟨rfl, a6, b6, c6⟩ := new_current_bb_blk h13
  obtain ⟨rfl, a8, c8, k8, blk8, hk8, hb8, b8⟩ := INSN_blk h17
  obtain ⟨rfl, a9, b9, c9⟩ := new_current_bb_blk h19
  obtain ⟨u4, σ10, h21, h22⟩ := bind_eq_some.mp h20
  obtain ⟨u5, σ11, h23, h24⟩ := bind_eq_some.mp h22
  obtain ⟨u6, σ12, h25, h26⟩ := bind_eq_some.mp h24
  obtain ⟨x1, hx1, a10, b10, c10⟩ := set_b_blk h21
  obtain ⟨x2, hx2, a11, b11, c11⟩ := set_c_blk h23
  obtain ⟨x3, hx3, a12, b12, c12⟩ := set_b_blk h25
  obtain ⟨x4, hx4, a13, b13, c13⟩ := set_b_blk h26
  -- lengths and labels
  have n1 : σ1.insns.length = σc.insns.length := by rw [e1]
  have m1 : σ1.bbs.length = σc.bbs.length := by rw [e1]
  have m2 : σ2.bbs.length = σc.bbs.length := by rw [b2, List.length_set, m1]
  have n3 : σ3.insns.length = σc.insns.length + 1 := by
    rw [a3, a2, List.length_append, n1]
    rfl
  have m3 : σ3.bbs.length = σc.bbs.length + 1 := by
    rw [b3, List.length_append, m2]
    rfl
  have m5 : σ5.bbs.length = σt.bbs.length := by rw [b5, List.length_set]
  have n6 : σ6.insns.length = σt.insns.length + 1 := by
    rw [a6, a5, List.length_append]
    rfl
  have m6 : σ6.bbs.length = σt.bbs.length + 1 := by
    rw [b6, List.length_append, m5]
    rfl
  have m8 : σ8.bbs.length = σt.bbs.length + 1 := by rw [b8, List.length_set, m6]
  have hk : k8 = σt.bbs.length := by
    rw [c6, m5] at hk8
    exact (Option.some.inj hk8).symm
  have hblk : blk8 = { insns := [] } := by
    rw [hk, b6, ← m5, get?_snoc_last] at hb8
    exact (Option.some.inj hb8).symm
  -- the instructions before the patches
  have e9 : σ9.insns =
      (σt.insns ++ [⟨Opcode.BR, Operand.tt, Operand.null, Operand.null⟩]) ++
        [⟨Opcode.BR, Operand.tt, Operand.null, Operand.null⟩] := by
    rw [a9, a8, a6, a5]
  have l9 : σ9.insns.length = σt.insns.length + 2 := by
    rw [e9]
    simp
  have g1 : σ9.insns.get? σc.insns.length =
      some ⟨Opcode.BR, Operand.insn cty.op, Operand.null, Operand.null⟩ := by
    rw [e9, get?_append_lt _ _ _ (by simp; omega), get?_append_lt _ _ _ (by omega),
      P2 _ (by omega), a3, a2, ← n1, get?_snoc_last]
  have g2 : σ9.insns.get? σt.insns.length =
      some ⟨Opcode.BR, Operand.tt, Operand.null, Operand.null⟩ := by
    rw [e9, get?_append_lt _ _ _ (by simp), get?_snoc_last]
  have g3 : σ9.insns.get? (σt.insns.length + 1) =
      some ⟨Opcode.BR, Operand.tt, Operand.null, Operand.null⟩ := by
    rw [e9]
    have := get?_snoc_last
      (σt.insns ++ [(⟨Opcode.BR, Operand.tt, Operand.null, Operand.null⟩ : Insn)])
      (⟨Opcode.BR, Operand.tt, Operand.null, Operand.null⟩ : Insn)
    rw [List.length_append] at this
    exact this
  rw [n1] at hx1 hx2 a10 a11
  rw [n6] at hx4 a13
  rw [m2] at a10
  rw [m5] at a11
  rw [m8] at a12 a13
  have hne1 : σc.insns.length ≠ σt.insns.length := by omega
  have hne2 : σc.insns.length ≠ σt.insns.length + 1 := by omega
  have q1 : x1 = ⟨Opcode.BR, Operand.insn cty.op, Operand.null, Operand.null⟩ := by
    rw [g1] at hx1
    exact (Option.some.inj hx1).symm
  have q2 : x2 =
      ⟨Opcode.BR, Operand.insn cty.op, Operand.label σc.bbs.length, Operand.null⟩ := by
    rw [a10, get?_set_same _ _ _ (by omega), q1] at hx2
    exact (Option.some.inj hx2).symm
  have q3 : x3 = ⟨Opcode.BR, Operand.tt, Operand.null, Operand.null⟩ := by
    rw [a11, get?_set_other _ _ _ _ hne1, a10, get?_set_other _ _ _ _ hne1, g2] at hx3
    exact (Option.some.inj hx3).symm
  have q4 : x4 = ⟨Opcode.BR, Operand.tt, Operand.null, Operand.null⟩ := by
    rw [a12, get?_set_other _ _ _ _ (by omega), a11, get?_set_other _ _ _ _ hne2, a10,
      get?_set_other _ _ _ _ hne2, g3] at hx4
    exact (Option.some.inj hx4).symm
  have l10 : σ10.insns.length = σt.insns.length + 2 := by rw [a10, List.length_set, l9]
  have l11 : σ11.insns.length = σt.insns.length + 2 := by rw [a11, List.length_set, l10]
  have l12 : σ12.insns.length = σt.insns.length + 2 := by rw [a12, List.length_set, l11]
  refine ⟨cty, σc, σ3, σt, h1, n3, m3, by rw [c3, m2], h9, ?_, ?_, ?_, ?_, ?_, ?_, ?_, ?_⟩
  · rw [a13, get?_set_other _ _ _ _ (by omega), a12, get?_set_other _ _ _ _ (by omega), a11,
      get?_set_same _ _ _ (by omega), q2]
  · rw [a13, get?_set_other _ _ _ _ (by omega), a12, get?_set_same _ _ _ (by omega), q3]
  · rw [a13, get?_set_same _ _ _ (by omega), q4]
  · rw [a13, List.length_set, l12]
  · rw [b13, b12, b11, b10, b9, List.length_append, m8]
    rfl
  · rw [b13, b12, b11, b10, b9, get?_append_lt _ _ _ (by omega), b8, hk,
      get?_set_same _ _ _ (by omega), hblk, n6]
    rfl
  · rw [b13, b12, b11, b10, b9, ← m8, get?_snoc_last]
  · rw [c13, c12, c11, c10, c9, m8]

theorem analyze_magic_read (ops : SymOps) (which : Nat) (args : ExprList)
    (hw : which = MAGIC_READ ∨ which = MAGIC_READLN) :
    analyze_magic ops which args = magic_read_args ops args := by
  rw [analyze_magic]
  rcases hw with rfl | rfl
  · rw [if_neg (by decide), if_pos (by decide)]
  · rw [if_neg (by decide), if_pos (by decide)]

theorem not_lvalue_form_iff (e : Expr) :
    not_lvalue_form e = false ↔
      (∃ p, e = Expr.PATH p) ∨ (∃ p i, e = Expr.IDX p i) ∨ (∃ d, e = Expr.DEREF d) := by
  cases e <;> simp [not_lvalue_form]
/-! ## The current function while a subprogram is analysed -/

theorem CurInv.same_cur {fidx : Nat} {name : String} {kind : SubKind} {p : FuncPtr}
    {σ σ' : Acx} (h1 : σ'.st.types = σ.st.types) (h2 : σ'.current_func = σ.current_func)
    (hI : CurInv fidx name kind p σ) : CurInv fidx name kind p σ' := by
  obtain ⟨a, b⟩ := hI
  exact ⟨by rw [h2]; exact a, by rw [h1]; exact b⟩

theorem cur_exprClosed (fidx : Nat) (name : String) (kind : SubKind) (p : FuncPtr) :
    ExprClosed (CurInv fidx name kind p) where
  err := by
    intro msg σ a σ' hI hm
    rw [span_err_eff] at hm
    simp only [Option.some.injEq, Prod.mk.injEq] at hm
    rw [← hm.2]
    exact hI
  diag := by
    intro msg σ a σ' hI hm
    rw [span_diag_eff] at hm
    simp only [Option.some.injEq, Prod.mk.injEq] at hm
    rw [← hm.2]
    exact hI
  insn := by
    intro op a b c _ σ r σ' hI hm
    obtain ⟨k, blk, -, -, -, rfl⟩ := INSN_eff hm
    exact hI
  fcall := by
    intro a b c σ r σ' hI hm
    obtain ⟨k, blk, -, -, -, rfl⟩ := INSN_eff hm
    exact hI
  capture := by
    intro idx σ r σ' hI hm
    rcases capture_var_eff hm with rfl | ⟨v, -, -, rfl⟩
    · exact hI
    · exact hI
  push_type := by
    intro t σ r σ' hI hm
    rw [push_type_eff] at hm
    simp only [Option.some.injEq, Prod.mk.injEq] at hm
    rw [← hm.2]
    obtain ⟨a, ft, b, c⟩ := hI
    exact ⟨a, ft, by
      show (σ.st.types ++ [t]).get? fidx = some ft
      rw [get?_append_lt _ _ _ (get?_lt _ _ _ b)]
      exact b, c⟩

theorem cur_stmtClosed (fidx : Nat) (name : String) (kind : SubKind) (p : FuncPtr) :
    StmtClosed (fun _ : Unit => CurInv fidx name kind p) id (fun _ => True) where
  expr := fun _ => cur_exprClosed fidx name kind p
  fresh := by
    intro j op a b c σ r σ' hI hm
    obtain ⟨k, blk, -, -, rfl, rfl⟩ := INSN_eff hm
    exact ⟨hI, _, rfl, trivial⟩
  set_b := by
    intro j k o _ σ r σ' hI hm
    obtain ⟨x, -, rfl⟩ := set_b_eff hm
    exact hI
  set_c := by
    intro j k o _ σ r σ' hI hm
    obtain ⟨x, -, rfl⟩ := set_c_eff hm
    exact hI
  new_bb := by
    intro j σ r σ' hI hm
    obtain ⟨cfs, -, rfl⟩ := new_current_bb_eff hm
    exact hI
  enter := by
    intro j σ r σ' hI hm
    rw [stab_enter_eff] at hm
    simp only [Option.some.injEq, Prod.mk.injEq] at hm
    rw [← hm.2]
    exact hI
  leave := by
    intro j σ r σ' hI hm
    rw [stab_leave_eff] at hm
    simp only [Option.some.injEq, Prod.mk.injEq] at hm
    rw [← hm.2]
    exact hI
  ret := by
    intro j σ r σ' hI hm
    rcases set_ret_assigned_eff hm with ⟨-, rfl⟩ | ⟨i, cf, -, hcf, rfl⟩
    · exact hI
    · obtain ⟨a, ft, b, c1, c2⟩ := hI
      refine ⟨a, ?_⟩
      by_cases hi : i = fidx
      · rw [hi] at hcf
        rw [hcf] at b
        have hft := Option.some.inj b
        refine ⟨{ cf with ty := { cf.ty with func_ret_assigned := true } }, ?_, ?_, ?_⟩
        · show (σ.st.types.set i _).get? fidx = _
          rw [hi]
          exact get?_set_same _ _ _ (get?_lt _ _ _ hcf)
        · show cf.name = name
          rw [hft]
          exact c1
        · show cf.ty.func_type = kind
          rw [hft]
          exact c2
      · refine ⟨ft, ?_, c1, c2⟩
        show (σ.st.types.set i _).get? fidx = some ft
        rw [get?_set_other _ _ _ _ hi]
        exact b

theorem cur_declClosed (fidx : Nat) (name : String) (kind : SubKind) (p : FuncPtr) :
    DeclClosed (CurInv fidx name kind p) where
  expr := cur_exprClosed fidx name kind p
  core := by
    intro σ σ' hc hI
    exact CurInv.same_cur (by rw [hc.1.1]) hc.2 hI
  insn_new := by
    intro i σ r σ' hI hm
    rw [insn_new_eff] at hm
    simp only [Option.some.injEq, Prod.mk.injEq] at hm
    rw [← hm.2]
    exact hI
  push_var := by
    intro v _ σ r σ' hI hm
    rw [push_var_eff] at hm
    simp only [Option.some.injEq, Prod.mk.injEq] at hm
    rw [← hm.2]
    exact hI
  top := by
    intro f _ σ r σ' hI hm
    obtain ⟨sc, -, rfl⟩ := modify_top_scope_eff hm
    exact hI

theorem stab_add_func_cur (fidx : Nat) (name : String) (kind : SubKind) (p : FuncPtr)
    (n : String) (head : AstHead) :
    Inv (CurInv fidx name kind p) (stab_add_func n head) := by
  have hd := cur_declClosed fidx name kind p
  unfold stab_add_func
  refine Inv.seq Inv.top_scope fun sc => ?_
  split
  · exact hd.expr.err _
  · refine Inv.seq (stab_formals_inv hd _) fun _ =>
      Inv.seq (stab_resolve_type_inv hd _ _) fun _ =>
      Inv.seq (cfunc_new_inv hd) fun _ =>
      Inv.seq (hd.expr.push_type _) fun _ => ?_
    intro σ r σ' hI hm
    obtain ⟨sc, -, rfl⟩ := modify_top_scope_eff hm
    exact hI

theorem set_current_func_cur (fidx : Nat) (name : String) (kind : SubKind) (p q : FuncPtr) :
    Triple (CurInv fidx name kind p) (modifyAcx fun σ => { σ with current_func := q })
      fun _ => CurInv fidx name kind q := by
  intro σ r σ' hI hm
  rw [modifyAcx_eff] at hm
  simp only [Option.some.injEq, Prod.mk.injEq] at hm
  rw [← hm.2]
  exact ⟨rfl, hI.2⟩

mutual
/-- The analysis of a subprogram gives back the current function it found, and
leaves the name and the kind of every entry of the type table as they are. -/
theorem analyze_subprog_cur (ops : SymOps) (u : Indet) (fidx : Nat) (name : String)
    (kind : SubKind) :
    ∀ (d : SubDecl) (p : FuncPtr), Inv (CurInv fidx name kind p) (analyze_subprog ops u d)
  | SubDecl.mk n head types decls subprogs body, p => by
    intro σ r σ' hI hm
    rw [analyze_subprog] at hm
    obtain ⟨saved, σ1, h1, h2⟩ := bind_eq_some.mp hm
    clear hm
    obtain ⟨kd, -, hs, hst, hcur, -⟩ := enter_subprog_eff h1
    have hsaved : saved = p := by rw [hs, hI.1]
    have I1 : CurInv fidx name kind (FuncPtr.entry kd) σ1 :=
      ⟨hcur, by rw [hst]; exact hI.2⟩
    have hd := cur_declClosed fidx name kind (FuncPtr.entry kd)
    have hsC := cur_stmtClosed fidx name kind (FuncPtr.entry kd)
    rw [hsaved] at h2
    refine Triple.apply (?_ : Triple (CurInv fidx name kind (FuncPtr.entry kd)) _
      (fun _ => CurInv fidx name kind p)) I1 h2
    exact Triple.bind (hsC.enter ()) fun _ =>
      Triple.step (add_types_inv hd _) fun _ =>
      Triple.step (add_decls_inv hd _ _) fun _ =>
      Triple.step (add_decls_inv hd _ _) fun _ =>
      Triple.step (stab_resolve_type_inv hd _ _) fun rt =>
      Triple.step (stab_add_var_inv hd _ _ _) fun _ =>
      Triple.step Inv.top_scope fun top =>
      Triple.step (push_locs_inv hd _) fun _ =>
      Triple.step (analyze_subprogs_cur ops u fidx name kind subprogs _) fun _ =>
      Triple.step Inv.top_scope fun top =>
      Triple.step (display_prelude_inv hd _ _ _) fun _ =>
      Triple.step (analyze_stmt_inv hsC ops u body ()) fun _ =>
      Triple.step (emit_ret_inv hd) fun _ =>
      Triple.bind (set_current_func_cur fidx name kind _ p) fun _ =>
      (cur_stmtClosed fidx name kind p).leave ()
theorem analyze_subprogs_cur (ops : SymOps) (u : Indet) (fidx : Nat) (name : String)
    (kind : SubKind) :
    ∀ (l : SubDeclList) (p : FuncPtr), Inv (CurInv fidx name kind p) (analyze_subprogs ops u l)
  | SubDeclList.nil, p => by
    rw [analyze_subprogs]
    exact Inv.pure _
  | SubDeclList.cons d rest, p => by
    rw [analyze_subprogs]
    exact Inv.seq (stab_add_func_cur fidx name kind p _ _) fun _ =>
      Inv.seq (analyze_subprog_cur ops u fidx name kind d p) fun _ =>
      analyze_subprogs_cur ops u fidx name kind rest p
end

/-- What `emit_ret` emits: one `RET`, whose operand is the register operand of
the `loc` of the variable that the name of the current function resolves to
when that is a SUB_FUNCTION and the null register operand otherwise; the symbol
table is left as it is. -/
theorem emit_ret_effect {σ σ' : Acx} {r : Unit} (h : emit_ret σ = some (r, σ')) :
    ∃ cf l, deref_func σ.current_func σ = some (cf, σ) ∧
      σ'.insns = σ.insns ++ [⟨Opcode.RET, Operand.reg l, Operand.null, Operand.null⟩] ∧
      σ'.st = σ.st ∧
      (cf.ty.func_type = SubKind.SUB_FUNCTION →
        ∃ rv v, stab_resolve_var σ.st cf.name = some rv ∧ σ.st.vars.get? rv = some v ∧
          l = v.loc) ∧
      (cf.ty.func_type ≠ SubKind.SUB_FUNCTION → l = InsnPtr.null) := by
  unfold emit_ret at h
  obtain ⟨σ0, σ1, h1, h2⟩ := bind_eq_some.mp h
  clear h
  obtain ⟨rfl, rfl⟩ := getAcx_eq h1
  obtain ⟨cf, σ2, h3, h4⟩ := bind_eq_some.mp h2
  obtain ⟨rfl, -⟩ := deref_func_eq h3
  obtain ⟨u1, σ3, h5, h6⟩ := bind_eq_some.mp h4
  have e3 := ite_err_eff h5
  by_cases hk : cf.ty.func_type = SubKind.SUB_FUNCTION
  · rw [if_pos hk] at h6
    obtain ⟨rv, σ4, h7, h8⟩ := bind_eq_some.mp h6
    obtain ⟨hrv, rfl⟩ := orAbort_eq h7
    obtain ⟨v, σ5, h9, h10⟩ := bind_eq_some.mp h8
    obtain ⟨hv, rfl⟩ := STAB_VAR_eq h9
    obtain ⟨i, σ6, h11, h12⟩ := bind_eq_some.mp h10
    obtain ⟨k, blk, -, -, -, e6⟩ := INSN_eff h11
    obtain ⟨-, rfl⟩ := pure_eq_some.mp h12
    refine ⟨cf, v.loc, h3, ?_, ?_, fun _ => ⟨rv, v, hrv, ?_, rfl⟩, fun hn => absurd hk hn⟩
    · rw [e6, e3]
    · rw [e6, e3]
    · rw [e3] at hv
      exact hv
  · rw [if_neg hk] at h6
    obtain ⟨i, σ6, h11, h12⟩ := bind_eq_some.mp h6
    obtain ⟨k, blk, -, -, -, e6⟩ := INSN_eff h11
    obtain ⟨-, rfl⟩ := pure_eq_some.mp h12
    refine ⟨cf, InsnPtr.null, h3, ?_, ?_, fun hn => absurd hn hk, fun _ => rfl⟩
    · rw [e6, e3]
    · rw [e6, e3]

theorem M_bind_assoc {α β γ : Type} (m : M α) (f : α → M β) (g : β → M γ) :
    (m >>= f) >>= g = m >>= fun a => f a >>= g := by
  funext σ
  show M.bind (M.bind m f) g σ = M.bind m (fun a => M.bind (f a) g) σ
  unfold M.bind
  cases m σ with
  | none => rfl
  | some r => rfl

theorem M_bind_pure {α β : Type} (a : α) (f : α → M β) : (pure a : M α) >>= f = f a := by
  funext σ
  rfl

/-- The function `analyze_subprog` is `subprog_body` followed by
`subprog_return` on the value it returns. -/
theorem analyze_subprog_split (ops : SymOps) (u : Indet) (s : SubDecl) :
    analyze_subprog ops u s = subprog_body ops u s >>= fun saved => subprog_return saved := by
  obtain ⟨n, head, types, decls, subprogs, body⟩ := s
  rw [analyze_subprog]
  unfold subprog_body subprog_return
  simp only [M_bind_assoc, M_bind_pure]

/-- When the body of a subprogram has been analysed, the subprogram is the
current function, and its entry has kept its name and kind. -/
theorem subprog_body_cur (ops : SymOps) (u : Indet) (s : SubDecl) (σ σa : Acx)
    (saved : FuncPtr) (fidx : Nat) (ft : StabType)
    (hr : stab_resolve_func σ.st s.name = some fidx)
    (ht : σ.st.types.get? fidx = some ft)
    (hn : ft.name = s.name)
    (h : subprog_body ops u s σ = some (saved, σa)) :
    CurInv fidx s.name ft.ty.func_type (FuncPtr.entry fidx) σa := by
  obtain ⟨n, head, types, decls, subprogs, body⟩ := s
  unfold subprog_body at h
  obtain ⟨sv, σ1, h1, h2⟩ := bind_eq_some.mp h
  clear h
  obtain ⟨kd, hr1, -, hst, hcur, -⟩ := enter_subprog_eff h1
  have hr2 : stab_resolve_func σ.st n = some fidx := hr
  rw [hr2] at hr1
  have hkd : fidx = kd := Option.some.inj hr1
  have I1 : CurInv fidx n ft.ty.func_type (FuncPtr.entry fidx) σ1 :=
    ⟨by rw [hcur, hkd], ft, by rw [hst]; exact ht, hn, rfl⟩
  have hd := cur_declClosed fidx n ft.ty.func_type (FuncPtr.entry fidx)
  have hsC := cur_stmtClosed fidx n ft.ty.func_type (FuncPtr.entry fidx)
  refine Inv.run (?_ : Inv (CurInv fidx n ft.ty.func_type (FuncPtr.entry fidx)) _) I1 h2
  exact Inv.seq (hsC.enter ()) fun _ =>
    Inv.seq (add_types_inv hd _) fun _ =>
    Inv.seq (add_decls_inv hd _ _) fun _ =>
    Inv.seq (add_decls_inv hd _ _) fun _ =>
    Inv.seq (stab_resolve_type_inv hd _ _) fun rt =>
    Inv.seq (stab_add_var_inv hd _ _ _) fun _ =>
    Inv.seq Inv.top_scope fun top =>
    Inv.seq (push_locs_inv hd _) fun _ =>
    Inv.seq (analyze_subprogs_cur ops u fidx n _ subprogs _) fun _ =>
    Inv.seq Inv.top_scope fun top =>
    Inv.seq (display_prelude_inv hd _ _ _) fun _ =>
    Inv.seq (analyze_stmt_inv hsC ops u body ()) fun _ => Inv.pure _

/-- What `subprog_return` does in the subprogram of the entry `fidx`: it appends
one instruction, a `RET` whose operand is the `loc` of the variable the name
resolves to for a SUB_FUNCTION and null otherwise, gives back `saved` as the
current function and leaves the innermost scope. -/
theorem ret_tail (fidx : Nat) (name : String) (kind : SubKind) (saved : FuncPtr)
    (σa σ' : Acx) (r : Unit) (hI : CurInv fidx name kind (FuncPtr.entry fidx) σa)
    (hm : subprog_return saved σa = some (r, σ')) :
    ∃ l, σ'.insns = σa.insns ++ [⟨Opcode.RET, Operand.reg l, Operand.null, Operand.null⟩] ∧
      σ'.st.vars = σa.st.vars ∧ σ'.st.chain = σa.st.chain.dropLast ∧
      σ'.current_func = saved ∧
      (kind = SubKind.SUB_FUNCTION →
        ∃ rv v, stab_resolve_var σa.st name = some rv ∧ σa.st.vars.get? rv = some v ∧
          l = v.loc) ∧
      (kind ≠ SubKind.SUB_FUNCTION → l = InsnPtr.null) := by
  unfold subprog_return at hm
  obtain ⟨u1, σb, h1, h2⟩ := bind_eq_some.mp hm
  clear hm
  obtain ⟨u2, σc, h3, h4⟩ := bind_eq_some.mp h2
  rw [modifyAcx_eff] at h3
  simp only [Option.some.injEq, Prod.mk.injEq] at h3
  rw [stab_leave_eff] at h4
  simp only [Option.some.injEq, Prod.mk.injEq] at h4
  obtain ⟨cf, l, hcf, hins, hst, hfun, hproc⟩ := emit_ret_effect h1
  obtain ⟨hcur, ft, hft, hname, hkind⟩ := hI
  have hcf2 : cf = ft := by
    obtain ⟨-, hd⟩ := deref_func_eq hcf
    rcases hd with ⟨e1, -⟩ | ⟨i, e1, e2⟩
    · rw [hcur] at e1
      cases e1
    · rw [hcur] at e1
      rw [← FuncPtr.entry.inj e1, hft] at e2
      exact (Option.some.inj e2).symm
  rw [hcf2] at hfun hproc
  rw [hname, hkind] at hfun
  rw [hkind] at hproc
  have e1 : σ'.insns = σb.insns := by rw [← h4.2, ← h3.2]
  have e2 : σ'.st.vars = σb.st.vars := by rw [← h4.2, ← h3.2]
  have e3 : σ'.st.chain = σb.st.chain.dropLast := by rw [← h4.2, ← h3.2]
  have e4 : σ'.current_func = saved := by rw [← h4.2, ← h3.2]
  exact ⟨l, by rw [e1, hins], by rw [e2, hst], by rw [e3, hst], e4, hfun, hproc⟩
/-! ## The check of an assignment outside a function -/

theorem deref_func_entry {i : Nat} {t : StabType} {σ : Acx}
    (h : σ.st.types.get? i = some t) : deref_func (FuncPtr.entry i) σ = some (t, σ) := by
  simp only [deref_func, h]

/-- Setting `ret_assigned` reports nothing and leaves the current function and
its kind as they are. -/
theorem set_ret_assigned_kind {σ σ' : Acx} {r : Unit} {cf : StabType}
    (hcf : deref_func σ.current_func σ = some (cf, σ))
    (h : set_ret_assigned σ = some (r, σ')) :
    σ'.sink = σ.sink ∧ σ'.current_func = σ.current_func ∧
      ∃ cf', deref_func σ'.current_func σ' = some (cf', σ') ∧
        cf'.ty.func_type = cf.ty.func_type := by
  obtain ⟨-, hd⟩ := deref_func_eq hcf
  rcases set_ret_assigned_eff h with ⟨hl, rfl⟩ | ⟨i, cf0, hi, hget, rfl⟩
  · refine ⟨rfl, rfl, ?_⟩
    rcases hd with ⟨-, e2⟩ | ⟨j, e1, -⟩
    · refine ⟨{ σ.t with ty := { σ.t.ty with func_ret_assigned := true } }, ?_, ?_⟩
      · show deref_func σ.current_func _ = _
        rw [hl]
        rfl
      · rw [e2]
    · rw [hl] at e1
      cases e1
  · refine ⟨rfl, rfl, ?_⟩
    rcases hd with ⟨e1, -⟩ | ⟨j, e1, e2⟩
    · rw [hi] at e1
      cases e1
    · rw [hi] at e1
      rw [← FuncPtr.entry.inj e1, hget] at e2
      have hcf0 : cf0 = cf := Option.some.inj e2
      refine ⟨{ cf0 with ty := { cf0.ty with func_ret_assigned := true } }, ?_, ?_⟩
      · show deref_func σ.current_func _ = _
        rw [hi]
        exact deref_func_entry (get?_set_same _ _ _ (get?_lt _ _ _ hget))
      · rw [hcf0]

/-- Outside a SUB_FUNCTION the statements of `check_assignability` after its
switch report nothing. -/
theorem check_assignability_tail_proc (ops : SymOps) (e : Expr) (σ σ' : Acx) (r : Unit)
    (cf : StabType)
    (hcf : deref_func σ.current_func σ = some (cf, σ))
    (hk : cf.ty.func_type ≠ SubKind.SUB_FUNCTION)
    (h : check_assignability_tail ops e σ = some (r, σ')) :
    σ'.sink = σ.sink ∧ σ'.current_func = σ.current_func ∧
      ∃ cf', deref_func σ'.current_func σ' = some (cf', σ') ∧
        cf'.ty.func_type = cf.ty.func_type := by
  unfold check_assignability_tail at h
  obtain ⟨σ0, σ1, h1, h2⟩ := bind_eq_some.mp h
  clear h
  obtain ⟨rfl, rfl⟩ := getAcx_eq h1
  obtain ⟨cf1, σ2, h3, h4⟩ := bind_eq_some.mp h2
  rw [hcf] at h3
  simp only [Option.some.injEq, Prod.mk.injEq] at h3
  obtain ⟨rfl, rfl⟩ := h3
  obtain ⟨p1, σ3, h5, h6⟩ := bind_eq_some.mp h4
  obtain ⟨-, rfl⟩ := orAbort_eq h5
  obtain ⟨elt, σ4, h7, h8⟩ := bind_eq_some.mp h6
  obtain ⟨-, rfl⟩ := orAbort_eq h7
  obtain ⟨u1, σ5, h9, h10⟩ := bind_eq_some.mp h8
  rw [if_neg (fun hc => hk hc.1)] at h9
  obtain ⟨-, rfl⟩ := pure_eq_some.mp h9
  split at h10
  · exact set_ret_assigned_kind hcf h10
  · obtain ⟨-, rfl⟩ := pure_eq_some.mp h10
    exact ⟨rfl, rfl, cf, hcf, rfl⟩

/-- Outside a SUB_FUNCTION `check_assignability` on a path reports nothing. -/
theorem check_assignability_path_proc (ops : SymOps) (p : AstPath) (σ σ' : Acx)
    (root : Option AstPath) (cf : StabType)
    (hcf : deref_func σ.current_func σ = some (cf, σ))
    (hk : cf.ty.func_type ≠ SubKind.SUB_FUNCTION)
    (h : check_assignability_path ops p σ = some (root, σ')) :
    σ'.sink = σ.sink ∧ σ'.current_func = σ.current_func ∧
      ∃ cf', deref_func σ'.current_func σ' = some (cf', σ') ∧
        cf'.ty.func_type = cf.ty.func_type := by
  unfold check_assignability_path at h
  obtain ⟨σ0, σ1, h1, h2⟩ := bind_eq_some.mp h
  clear h
  obtain ⟨rfl, rfl⟩ := getAcx_eq h1
  split at h2
  · obtain ⟨-, rfl⟩ := pure_eq_some.mp h2
    exact ⟨rfl, rfl, cf, hcf, rfl⟩
  · obtain ⟨u1, σ2, h3, h4⟩ := bind_eq_some.mp h2
    obtain ⟨-, rfl⟩ := pure_eq_some.mp h4
    exact check_assignability_tail_proc ops _ σ σ2 u1 cf hcf hk h3

/-- Outside a SUB_FUNCTION `check_assignability` reports nothing, whatever the
lvalue. -/
theorem check_assignability_proc (ops : SymOps) :
    ∀ (lv : Expr) (σ σ' : Acx) (root : Option AstPath) (cf : StabType),
      deref_func σ.current_func σ = some (cf, σ) →
      cf.ty.func_type ≠ SubKind.SUB_FUNCTION →
      check_assignability ops lv σ = some (root, σ') → σ'.sink = σ.sink
  | Expr.PATH p, σ, σ', root, cf, hcf, hk, h => by
    rw [check_assignability] at h
    exact (check_assignability_path_proc ops p σ σ' root cf hcf hk h).1
  | Expr.IDX p e, σ, σ', root, cf, hcf, hk, h => by
    rw [check_assignability] at h
    obtain ⟨σ0, σ1, h1, h2⟩ := bind_eq_some.mp h
    clear h
    obtain ⟨rfl, rfl⟩ := getAcx_eq h1
    split at h2
    · obtain ⟨-, rfl⟩ := pure_eq_some.mp h2
      rfl
    · obtain ⟨rt, σ2, h3, h4⟩ := bind_eq_some.mp h2
      obtain ⟨u1, σ3, h5, h6⟩ := bind_eq_some.mp h4
      obtain ⟨-, rfl⟩ := pure_eq_some.mp h6
      obtain ⟨a, -, cf2, hcf2, hk2⟩ := check_assignability_path_proc ops p σ σ2 rt cf hcf hk h3
      obtain ⟨b, -, -⟩ := check_assignability_tail_proc ops _ σ2 σ3 u1 cf2 hcf2
        (by rw [hk2]; exact hk) h5
      rw [b, a]
  | Expr.DEREF d, σ, σ', root, cf, hcf, hk, h => by
    rw [check_assignability] at h
    obtain ⟨σ0, σ1, h1, h2⟩ := bind_eq_some.mp h
    clear h
    obtain ⟨rfl, rfl⟩ := getAcx_eq h1
    split at h2
    · obtain ⟨-, rfl⟩ := pure_eq_some.mp h2
      rfl
    · obtain ⟨rt, σ2, h3, h4⟩ := bind_eq_some.mp h2
      obtain ⟨u1, σ3, h5, h6⟩ := bind_eq_some.mp h4
      rw [check_assignability_tail_deref] at h5
      cases h5
  | Expr.APP _ _, σ, σ', root, cf, hcf, hk, h => by
    rw [check_assignability] at h
    obtain ⟨σ0, σ1, h1, h2⟩ := bind_eq_some.mp h
    obtain ⟨rfl, rfl⟩ := getAcx_eq h1
    split at h2
    · obtain ⟨-, rfl⟩ := pure_eq_some.mp h2
      rfl
    · cases h2
  | Expr.BIN _ _ _, σ, σ', root, cf, hcf, hk, h => by
    rw [check_assignability] at h
    obtain ⟨σ0, σ1, h1, h2⟩ := bind_eq_some.mp h
    obtain ⟨rfl, rfl⟩ := getAcx_eq h1
    split at h2
    · obtain ⟨-, rfl⟩ := pure_eq_some.mp h2
      rfl
    · cases h2
  | Expr.LIT _, σ, σ', root, cf, hcf, hk, h => by
    rw [check_assignability] at h
    obtain ⟨σ0, σ1, h1, h2⟩ := bind_eq_some.mp h
    obtain ⟨rfl, rfl⟩ := getAcx_eq h1
    split at h2
    · obtain ⟨-, rfl⟩ := pure_eq_some.mp h2
      rfl
    · cases h2
  | Expr.UN _ _, σ, σ', root, cf, hcf, hk, h => by
    rw [check_assignability] at h
    obtain ⟨σ0, σ1, h1, h2⟩ := bind_eq_some.mp h
    obtain ⟨rfl, rfl⟩ := getAcx_eq h1
    split at h2
    · obtain ⟨-, rfl⟩ := pure_eq_some.mp h2
      rfl
    · cases h2
  | Expr.ADDROF _, σ, σ', root, cf, hcf, hk, h => by
    rw [check_assignability] at h
    obtain ⟨σ0, σ1, h1, h2⟩ := bind_eq_some.mp h
    obtain ⟨rfl, rfl⟩ := getAcx_eq h1
    split at h2
    · obtain ⟨-, rfl⟩ := pure_eq_some.mp h2
      rfl
    · cases h2
  | Expr.OTHER, σ, σ', root, cf, hcf, hk, h => by
    rw [check_assignability] at h
    obtain ⟨σ0, σ1, h1, h2⟩ := bind_eq_some.mp h
    obtain ⟨rfl, rfl⟩ := getAcx_eq h1
    split at h2
    · obtain ⟨-, rfl⟩ := pure_eq_some.mp h2
      rfl
    · cases h2

/-! ## The sink only grows -/

theorem SinkInv.same_diags {base : List Diag} {σ σ' : Acx} (h : σ'.sink = σ.sink)
    (hI : SinkInv base σ) : SinkInv base σ' := by
  obtain ⟨more, hm⟩ := hI
  exact ⟨more, by rw [h, hm]⟩

theorem SinkInv.snoc_diag {base : List Diag} {σ : Acx} (d : Diag) (hI : SinkInv base σ) :
    SinkInv base { σ with sink := σ.sink ++ [d] } := by
  obtain ⟨more, hm⟩ := hI
  exact ⟨more ++ [d], by
    show σ.sink ++ [d] = _
    rw [hm, List.append_assoc]⟩

theorem sink_exprClosed (base : List Diag) : ExprClosed (SinkInv base) where
  err := by
    intro msg σ a σ' hI hm
    rw [span_err_eff] at hm
    simp only [Option.some.injEq, Prod.mk.injEq] at hm
    rw [← hm.2]
    exact SinkInv.snoc_diag _ hI
  diag := by
    intro msg σ a σ' hI hm
    rw [span_diag_eff] at hm
    simp only [Option.some.injEq, Prod.mk.injEq] at hm
    rw [← hm.2]
    exact SinkInv.snoc_diag _ hI
  insn := by
    intro op a b c _ σ r σ' hI hm
    obtain ⟨k, blk, -, -, -, rfl⟩ := INSN_eff hm
    exact hI
  fcall := by
    intro a b c σ r σ' hI hm
    obtain ⟨k, blk, -, -, -, rfl⟩ := INSN_eff hm
    exact hI
  capture := by
    intro idx σ r σ' hI hm
    rcases capture_var_eff hm with rfl | ⟨v, -, -, rfl⟩
    · exact hI
    · exact hI
  push_type := by
    intro t σ r σ' hI hm
    rw [push_type_eff] at hm
    simp only [Option.some.injEq, Prod.mk.injEq] at hm
    rw [← hm.2]
    exact hI

/-! ## Theorems -/

set_option maxRecDepth 100000 in
/-- C1 (evaluation at the failing input): in `for i := 1 to 10 do writeln(i)` the
`BR` that ends the head block (block 1, instruction 8) still has null successor
operands when `analyze` returns, the labels having been stored in the `LT`
instruction (instruction 7) instead; so not every `BR` of main has its
successors set. -/
theorem C1_for_head_br_unpatched :
    (analyze specOps u0 prog_for_writeln).map
        (fun σ => (σ.bbs.get? 1, σ.insns.get? 7, σ.insns.get? 8,
                   σ.cfuncs.map (cfg_labels_ok σ)))
      = some (some { insns := [InsnPtr.ptr 6, InsnPtr.ptr 7, InsnPtr.ptr 8] },
              some { op := Opcode.LT, a := Operand.insn (InsnPtr.ptr 6),
                     b := Operand.label 2, c := Operand.label 3 },
              some { op := Opcode.BR, a := Operand.insn (InsnPtr.ptr 7),
                     b := Operand.null, c := Operand.null },
              [false]) := by
  decide!

set_option maxRecDepth 100000 in
/-- C2 (evaluation at the failing input): for a body that is a single `while`,
main owns the blocks 0 (entry), 1 (head L0), 2 (body) and 3 (exit), the entry
block holds no instruction at all, and only block 0 is reachable from the
entry. -/
theorem C2_while_head_unreachable :
    (analyze specOps u0 prog_while).map
        (fun σ => (σ.cfuncs.map (fun cf => (cf.entry, cf.bbs)), σ.bbs.get? 0,
                   σ.cfuncs.map (fun cf => reach σ σ.bbs.length [cf.entry]),
                   σ.cfuncs.map (all_blocks_reachable σ)))
      = some ([(0, [0, 1, 2, 3])], some { insns := [] }, [[0]], [false]) := by
  decide!

set_option maxRecDepth 100000 in
/-- C6 (counterexample to the claim as stated): for the SUB_FUNCTION
`function f : integer; begin if b then f := 1 end`, `analyze_subprog` reports no
error, nor does `analyze` on the program that declares it, although the path
through the missing else branch passes through no assignment to `f`. -/
theorem C6_no_error_without_else :
    decl_half.head.type = SubKind.SUB_FUNCTION ∧
    err_count acx_before_half = 0 ∧
    (analyze_subprog specOps u0 decl_half acx_before_half).map (fun r => err_count r.2)
      = some 0 ∧
    (analyze specOps u0 prog_half).map (fun σ => σ.sink) = some [] ∧
    all_paths_assign decl_half.name decl_half.body = false := by
  decide!

/-- C6 (amended): if `analyze_subprog` is run on a subprogram whose name resolves
to a SUB_FUNCTION entry of that name with `ret_assigned` still false (as
`stab_add_func` leaves it), and it returns without having reported an error,
then the body contains, at some depth, an assignment statement whose lvalue is
a path or an indexed path with the function's name as root.  The assignment
need not lie on every path. -/
theorem C6_ret_assigned_somewhere (ops : SymOps) (u : Indet) (s : SubDecl) (σ σ' : Acx)
    (fidx : Nat) (ft : StabType)
    (hr : stab_resolve_func σ.st s.name = some fidx)
    (ht : σ.st.types.get? fidx = some ft)
    (hn : ft.name = s.name)
    (hk : ft.ty.func_type = SubKind.SUB_FUNCTION)
    (hf : ft.ty.func_ret_assigned = false)
    (h : analyze_subprog ops u s σ = some ((), σ'))
    (hne : err_count σ' ≤ err_count σ) :
    assigns_root s.name s.body = true := by
  obtain ⟨n, head, types, decls, subprogs, body⟩ := s
  cases hb : assigns_root n body with
  | true => exact hb
  | false =>
    have hrep := analyze_subprog_reports ops u n head types decls subprogs body σ σ' fidx hr
      ⟨ft, ht, hn, hk, hf⟩ hb h
    omega

set_option maxRecDepth 100000 in
/-- C6 (witness): `function f : integer; begin if b then f := 1 end` is analysed
without an error being reported, and its body contains an assignment to
`f`. -/
theorem C6_ret_assigned_somewhere_witness :
    ∃ σ' : Acx, analyze_subprog specOps u0 decl_half acx_before_half = some ((), σ') ∧
      err_count σ' ≤ err_count acx_before_half ∧
      assigns_root decl_half.name decl_half.body = true := by
  have hs : (analyze_subprog specOps u0 decl_half acx_before_half).isSome = true := by decide!
  obtain ⟨⟨⟨⟩, σ'⟩, h⟩ := Option.isSome_iff_exists.mp hs
  have he : (analyze_subprog specOps u0 decl_half acx_before_half).map
      (fun r => err_count r.2) = some 0 := by decide!
  rw [h] at he
  have he0 : err_count σ' = 0 := Option.some.inj he
  have hne : err_count σ' ≤ err_count acx_before_half := by
    rw [he0]
    exact Nat.zero_le _
  exact ⟨σ', h, hne, C6_ret_assigned_somewhere specOps u0 decl_half acx_before_half σ' 6
    entry_half (by decide!) (by decide!) rfl rfl rfl h hne⟩

theorem scope_result {σ σ' : Acx}
    (h : ScopeInv σ.scope_ops (σ.st.chain.length, 0) σ') :
    σ'.st.chain.length = σ.st.chain.length ∧
      ∃ w, σ'.scope_ops = σ.scope_ops ++ w ∧ depth_after 0 w = some 0 ∧
        w.count ScopeOp.enter = w.count ScopeOp.leave := by
  obtain ⟨h1, w, h2, h3⟩ := h
  refine ⟨h1, w, h2, h3, ?_⟩
  have := depth_after_count w 0 0 h3
  omega

theorem scope_start (σ : Acx) : ScopeInv σ.scope_ops (σ.st.chain.length, 0) σ :=
  ⟨rfl, [], by simp, rfl⟩

/-- C7: for every statement `s`, if `analyze_stmt` returns, the scope stack has
the depth it had before, and the scope operations performed in between never
leave below the starting depth (`depth_after 0 w` is defined), end at the
starting depth, and count as many `stab_enter` as `stab_leave`; the same holds
for `analyze_subprog` on every subprogram declaration. -/
theorem C7_scope_balanced (ops : SymOps) (u : Indet) :
    (∀ (s : Stmt) (σ σ' : Acx), analyze_stmt ops u s σ = some ((), σ') →
      σ'.st.chain.length = σ.st.chain.length ∧
      ∃ w, σ'.scope_ops = σ.scope_ops ++ w ∧ depth_after 0 w = some 0 ∧
        w.count ScopeOp.enter = w.count ScopeOp.leave) ∧
    (∀ (d : SubDecl) (σ σ' : Acx), analyze_subprog ops u d σ = some ((), σ') →
      σ'.st.chain.length = σ.st.chain.length ∧
      ∃ w, σ'.scope_ops = σ.scope_ops ++ w ∧ depth_after 0 w = some 0 ∧
        w.count ScopeOp.enter = w.count ScopeOp.leave) := by
  constructor
  · intro s σ σ' h
    exact scope_result
      (analyze_stmt_inv (scope_stmtClosed σ.scope_ops) ops u s _ σ () σ' (scope_start σ) h)
  · intro d σ σ' h
    exact scope_result
      (analyze_subprog_inv (scope_progClosed σ.scope_ops) ops u d _ σ () σ' (scope_start σ) h)

set_option maxRecDepth 100000 in
/-- C7 (witness): the statement `for i := 1 to 10 do ;` is lowered in the
context of a program body, and the run returns with the scope stack at the
depth it started from. -/
theorem C7_scope_balanced_witness :
    ∃ σ', analyze_stmt specOps u0 stmt_for_empty acx_sample = some ((), σ') ∧
      σ'.st.chain.length = acx_sample.st.chain.length ∧
      ∃ w, σ'.scope_ops = acx_sample.scope_ops ++ w ∧ depth_after 0 w = some 0 ∧
        w.count ScopeOp.enter = w.count ScopeOp.leave := by
  have hs : (analyze_stmt specOps u0 stmt_for_empty acx_sample).isSome = true := by decide!
  obtain ⟨⟨r, σ'⟩, h⟩ := Option.isSome_iff_exists.mp hs
  exact ⟨σ', h, (C7_scope_balanced specOps u0).1 stmt_for_empty acx_sample σ' h⟩

theorem DispInv_init (u : Indet) : DispInv (acx_init u) := by
  refine ⟨le_refl _, ?_, ?_⟩
  · intro i v hv
    simp [acx_init, stab_new] at hv
  · intro i j vi vj hi
    simp [acx_init, stab_new] at hi

/-- C5: when `analyze` returns, the display offsets of the captured variables
are pairwise distinct and each lies in `0 ≤ o < disp_offset` for the final
counter; and across every call of `type_of_path`, `analyze_stmt` and
`analyze_subprog` the counter does not decrease, a variable that is captured
keeps its display offset, and the two bounds stay true. -/
theorem C5_display_offsets (ops : SymOps) (u : Indet) :
    (∀ (prog : AstProgram) (acx : Acx), analyze ops u prog = some acx → DispInv acx) ∧
    (∀ (p : AstPath) (σ σ' : Acx) (r : Resu), type_of_path ops p σ = some (r, σ') →
      DispMono σ σ' ∧ (DispInv σ → DispInv σ')) ∧
    (∀ (s : Stmt) (σ σ' : Acx), analyze_stmt ops u s σ = some ((), σ') →
      DispMono σ σ' ∧ (DispInv σ → DispInv σ')) ∧
    (∀ (d : SubDecl) (σ σ' : Acx), analyze_subprog ops u d σ = some ((), σ') →
      DispMono σ σ' ∧ (DispInv σ → DispInv σ')) := by
  refine ⟨?_, ?_, ?_, ?_⟩
  · intro prog acx h
    unfold analyze at h
    split at h
    · cases h
    · rename_i r σ' hr
      simp only [Option.some.injEq] at h
      subst h
      exact (analyze_run_triple (disp_progClosed (acx_init u)) ops u prog () _ r _
        (DispSince.start_disp _) hr).2 (DispInv_init u)
  · intro p σ σ' r h
    exact type_of_path_inv (disp_exprClosed σ).toEmitClosed (disp_exprClosed σ).capture ops p σ r σ' (DispSince.start_disp σ) h
  · intro s σ σ' h
    exact analyze_stmt_inv (disp_stmtClosed σ) ops u s () σ () σ' (DispSince.start_disp σ) h
  · intro d σ σ' h
    exact analyze_subprog_inv (disp_progClosed σ) ops u d () σ () σ' (DispSince.start_disp σ) h

set_option maxRecDepth 100000 in
/-- C5 (witness): `analyze` returns on the program of scenario S1, in which `g`
is captured, and the display offsets of the context it returns satisfy the
bounds. -/
theorem C5_display_offsets_witness :
    ∃ acx, analyze specOps u0 prog_capture = some acx ∧ DispInv acx := by
  have hs : (analyze specOps u0 prog_capture).isSome = true := by decide!
  obtain ⟨acx, h⟩ := Option.isSome_iff_exists.mp hs
  exact ⟨acx, h, (C5_display_offsets specOps u0).1 prog_capture acx h⟩

set_option maxRecDepth 100000 in
/-- C8: for every path whose head identifier resolves to a variable `idx` that
is not a local (`has_local_var` is false), `type_of_path` leaves the variable
captured and returns as address the instruction `LD(ADD(IREG(SYMREF
"@display@"), ILIT(disp_offset * ABI_POINTER_ALIGN)), ABI_POINTER_SIZE)`; and in
the program of scenario S1 `g` (variable 0) is captured with `disp_offset = 0`
and the block of `Q` (block 1) holds, for `g := 1`, the instructions 2 to 6:
`SYMREF @display@`, `ADD(%2, 0)`, `LD(%3, 8)`, `LIT 1`, `ST(%4, %5, 8)`. -/
theorem C8_capture_through_display (ops : SymOps) :
    (∀ (p : AstPath) (σ σ' : Acx) (r : Resu) (name : String) (idx : Nat),
      p.components.head? = some name → stab_resolve_var σ.st name = some idx →
      ops.has_local_var σ.st name = false → type_of_path ops p σ = some (r, σ') →
      ∃ v kd ka kl, σ'.st.vars.get? idx = some v ∧ v.captured = true ∧
        r.op = InsnPtr.ptr kl ∧
        σ'.insns.get? kl = some { op := Opcode.LD, a := Operand.insn (InsnPtr.ptr ka),
                                  b := Operand.int ABI_POINTER_SIZE, c := Operand.null } ∧
        σ'.insns.get? ka = some { op := Opcode.ADD, a := Operand.reg (InsnPtr.ptr kd),
                                  b := Operand.ilit (v.disp_offset * ABI_POINTER_ALIGN),
                                  c := Operand.null } ∧
        σ'.insns.get? kd = some { op := Opcode.SYMREF, a := Operand.str "@display@",
                                  b := Operand.null, c := Operand.null }) ∧
    (analyze specOps u0 prog_capture).map
        (fun σ => ((σ.st.vars.get? 0).map (fun v => (v.name, v.captured, v.disp_offset)),
                   σ.bbs.get? 1, (σ.insns.drop 2).take 5))
      = some (some ("g", true, 0),
              some { insns := [InsnPtr.ptr 1, InsnPtr.ptr 2, InsnPtr.ptr 3, InsnPtr.ptr 4,
                               InsnPtr.ptr 5, InsnPtr.ptr 6, InsnPtr.ptr 7] },
              [ { op := Opcode.SYMREF, a := Operand.str "@display@", b := Operand.null,
                  c := Operand.null },
                { op := Opcode.ADD, a := Operand.reg (InsnPtr.ptr 2), b := Operand.ilit 0,
                  c := Operand.null },
                { op := Opcode.LD, a := Operand.insn (InsnPtr.ptr 3), b := Operand.int 8,
                  c := Operand.null },
                { op := Opcode.LIT, a := Operand.ilit 1, b := Operand.null, c := Operand.null },
                { op := Opcode.ST, a := Operand.insn (InsnPtr.ptr 4),
                  b := Operand.insn (InsnPtr.ptr 5), c := Operand.int 8 } ]) := by
  refine ⟨?_, by decide!⟩
  intro p σ σ' r name idx hn hr hl h
  exact type_of_path_nonlocal ops p σ σ' r name idx hn hr hl h

set_option maxRecDepth 100000 in
/-- C8 (witness): in the context in which the body of `Q` is lowered, `g`
resolves to variable 0, is not a local, and `type_of_path` returns on the path
`g`. -/
theorem C8_capture_through_display_witness :
    ∃ (r : Resu) (σ' : Acx),
      type_of_path specOps { components := ["g"] } acx_in_proc = some (r, σ') ∧
      ∃ v kd ka kl, σ'.st.vars.get? 0 = some v ∧ v.captured = true ∧
        r.op = InsnPtr.ptr kl ∧
        σ'.insns.get? kl = some { op := Opcode.LD, a := Operand.insn (InsnPtr.ptr ka),
                                  b := Operand.int ABI_POINTER_SIZE, c := Operand.null } ∧
        σ'.insns.get? ka = some { op := Opcode.ADD, a := Operand.reg (InsnPtr.ptr kd),
                                  b := Operand.ilit (v.disp_offset * ABI_POINTER_ALIGN),
                                  c := Operand.null } ∧
        σ'.insns.get? kd = some { op := Opcode.SYMREF, a := Operand.str "@display@",
                                  b := Operand.null, c := Operand.null } := by
  have hs : (type_of_path specOps { components := ["g"] } acx_in_proc).isSome = true := by
    decide!
  obtain ⟨⟨r, σ'⟩, h⟩ := Option.isSome_iff_exists.mp hs
  exact ⟨r, σ', h, (C8_capture_through_display specOps).1 { components := ["g"] } acx_in_proc
    σ' r "g" 0 (by decide) (by decide!) (by decide!) h⟩

set_option maxRecDepth 100000 in
/-- C9 (evaluation at the failing input): with `type R = record a : integer;
b : char; c : integer end; var r : R`, `type_of_path` on `r.c` returns the type
of `r` (type 6, whose tag is RECORD) and the `loc` of `r` (instruction 0, its
`ALLOC`) and emits nothing: the arena still holds that one instruction, and no
`ADD(r.loc, LIT 9)`. -/
theorem C9_record_field_not_resolved :
    (analyze specOps u0 prog_record).bind
        (fun σ => (type_of_path specOps { components := ["r", "c"] } σ).map
          (fun x => (x.1, (σ.st.vars.get? 0).map (fun v => v.loc),
                     (σ.st.types.get? x.1.type).map (fun t => t.ty.tag), x.2.insns)))
      = some ({ op := InsnPtr.ptr 0, type := 6 }, some (InsnPtr.ptr 0),
              some TypeTag.TYPE_RECORD,
              [{ op := Opcode.ALLOC, a := Operand.int 64, b := Operand.null,
                 c := Operand.null }]) := by
  decide!

set_option maxRecDepth 100000 in
/-- C10 (evaluation at the failing input): for `for i := 1 to 10 do ;` main owns
the blocks 0 (pre), 1 (head), 2 (body) and 3 (exit, the current block
afterwards); the pre block ends with `BR(true, label 1)` and the body block is
`ADD(%5, 1)`, `ST`, `BR(true, block 1)`; but the `BR` that ends the head block
(instruction 7) has null true and false targets, the labels of the body and of
the exit block being in the `LT` instruction (instruction 6). -/
theorem C10_for_head_targets_unset :
    (analyze specOps u0 prog_for_empty).map
        (fun σ => (σ.cfuncs.map (fun cf => cf.bbs), σ.current_bb, σ.bbs, σ.insns.drop 4))
      = some ([[0, 1, 2, 3]], some 3,
              [ { insns := [InsnPtr.ptr 0, InsnPtr.ptr 1, InsnPtr.ptr 2, InsnPtr.ptr 3,
                            InsnPtr.ptr 4] },
                { insns := [InsnPtr.ptr 5, InsnPtr.ptr 6, InsnPtr.ptr 7] },
                { insns := [InsnPtr.ptr 8, InsnPtr.ptr 9, InsnPtr.ptr 10] },
                { insns := [] } ],
              [ { op := Opcode.BR, a := Operand.tt, b := Operand.label 1, c := Operand.null },
                { op := Opcode.LD, a := Operand.insn (InsnPtr.ptr 2), b := Operand.int 8,
                  c := Operand.null },
                { op := Opcode.LT, a := Operand.insn (InsnPtr.ptr 5), b := Operand.label 2,
                  c := Operand.label 3 },
                { op := Opcode.BR, a := Operand.insn (InsnPtr.ptr 6), b := Operand.null,
                  c := Operand.null },
                { op := Opcode.ADD, a := Operand.insn (InsnPtr.ptr 5), b := Operand.ilit 1,
                  c := Operand.null },
                { op := Opcode.ST, a := Operand.insn (InsnPtr.ptr 2),
                  b := Operand.insn (InsnPtr.ptr 8), c := Operand.int 8 },
                { op := Opcode.BR, a := Operand.tt, b := Operand.bb 1, c := Operand.null } ]) := by
  decide!

set_option maxRecDepth 100000 in
/-- C3 (counterexample to the claim as stated): in `write(writeln())` the one
argument has the printable type VOID, and lowering the call of WRITE appends
an FCALL of `@write_newline@` before the FCALL of `@write_void@`; the same
instructions are what `analyze` produces for
`program p(input, output); begin write(writeln()) end.`, without reporting an
error. -/
theorem C3_write_nested_newline :
    (analyze_expr specOps (Expr.APP { components := ["writeln"] } ExprList.nil) acx_io).map
        (fun r => r.1.type) = some VOID_TYPE_IDX ∧
    (analyze_magic specOps MAGIC_WRITE args_nested acx_io).map (fun r => r.2.insns)
      = some [newline_fcall,
              write_fcall ({ op := InsnPtr.undef, type := VOID_TYPE_IDX }, "@write_void@")] ∧
    (analyze specOps u0 prog_write_nested).map (fun σ => (σ.insns, σ.sink))
      = some ([newline_fcall,
               write_fcall ({ op := InsnPtr.undef, type := VOID_TYPE_IDX }, "@write_void@")],
              []) := by
  decide!

/-- C3 (amended): for every argument list none of whose arguments is or contains
a call of a built-in, if lowering a call of WRITELN or WRITE returns, it has
appended instructions `new` whose FCALLs are, in argument order, one FCALL for
each argument, of the `@write_<tname>@` callee that `write_callee` gives for the
type of the result that analysing the argument returns in this run (in the
context reached when the arguments before it have been lowered,
`write_results`), with that result as operand, followed for WRITELN by exactly
one FCALL of `@write_newline@`, which is the last instruction; for WRITE no
`@write_newline@` FCALL is appended. -/
theorem C3_write_lowering (ops : SymOps) (which : Nat) (args : ExprList) (σ σ' : Acx)
    (hw : which = MAGIC_WRITELN ∨ which = MAGIC_WRITE)
    (hq : args_call_magic σ.st args = false)
    (h : analyze_magic ops which args σ = some ((), σ')) :
    ∃ (new : List Insn) (rs : List (Resu × String)),
      σ'.insns = σ.insns ++ new ∧
      write_results ops args σ rs ∧
      rs.length = args.toList.length ∧
      new.filter is_fcall
        = rs.map write_fcall ++ (if which = MAGIC_WRITELN then [newline_fcall] else []) ∧
      (which = MAGIC_WRITELN → new.getLast? = some newline_fcall) ∧
      (which = MAGIC_WRITE → newline_fcall ∉ new) := by
  rw [analyze_magic, if_pos hw] at h
  obtain ⟨u1, σ1, h1, h2⟩ := bind_eq_some.mp h
  clear h
  obtain ⟨n1, rs, hn1, hW, hF, hf1⟩ :=
    magic_write_args_quiet ops σ.st args σ σ1 hq (StInv.start_st σ) h1
  have hlen : rs.length = args.toList.length := hF.length_eq.symm
  by_cases hln : which = MAGIC_WRITELN
  · rw [if_pos hln] at h2
    obtain ⟨i, σ2, h3, h4⟩ := bind_eq_some.mp h2
    obtain ⟨-, rfl⟩ := pure_eq_some.mp h4
    obtain ⟨k, blk, -, -, -, rfl⟩ := INSN_eff h3
    refine ⟨n1 ++ [newline_fcall], rs, ?_, hW, hlen, ?_, ?_, ?_⟩
    · show σ1.insns ++ [newline_fcall] = _
      rw [hn1, List.append_assoc]
    · rw [List.filter_append, hf1, if_pos hln]
      rfl
    · intro _
      exact getLast?_append_one _ _
    · intro hwr
      rw [hln] at hwr
      exact absurd hwr (by decide)
  · rw [if_neg hln] at h2
    obtain ⟨-, rfl⟩ := pure_eq_some.mp h2
    refine ⟨n1, rs, hn1, hW, hlen, ?_, fun e => absurd e hln, ?_⟩
    · rw [hf1, if_neg hln, List.append_nil]
    · intro _ hmem
      have hmem2 : newline_fcall ∈ n1.filter is_fcall :=
        List.mem_filter.mpr ⟨hmem, rfl⟩
      rw [hf1] at hmem2
      obtain ⟨rc, -, hrc⟩ := List.mem_map.mp hmem2
      have hb := congrArg Insn.b hrc
      exact Operand.noConfusion hb

set_option maxRecDepth 100000 in
/-- C3 (witness): in the context of the body of a program that imports `input`
and `output`, `writeln(1, 2)` is lowered, its arguments call no built-in, and
the appended FCALLs are the two writes of the results of the run followed by
the newline; the instructions are `LIT 1`, the FCALL of `@write_integer@` on it,
`LIT 2`, the FCALL of `@write_integer@` on it, and the FCALL of
`@write_newline@`. -/
theorem C3_write_lowering_witness :
    args_call_magic acx_io.st args_lits = false ∧
    (∃ (σ' : Acx) (new : List Insn) (rs : List (Resu × String)),
      analyze_magic specOps MAGIC_WRITELN args_lits acx_io = some ((), σ') ∧
      σ'.insns = acx_io.insns ++ new ∧ write_results specOps args_lits acx_io rs ∧
      rs.length = 2 ∧
      new.filter is_fcall = rs.map write_fcall ++ [newline_fcall] ∧
      new.getLast? = some newline_fcall) ∧
    (analyze_magic specOps MAGIC_WRITELN args_lits acx_io).map (fun r => r.2.insns)
      = some [ { op := Opcode.LIT, a := Operand.ilit 1, b := Operand.null, c := Operand.null },
               write_fcall ({ op := InsnPtr.ptr 0, type := INTEGER_TYPE_IDX }, "@write_integer@"),
               { op := Opcode.LIT, a := Operand.ilit 2, b := Operand.null, c := Operand.null },
               write_fcall ({ op := InsnPtr.ptr 2, type := INTEGER_TYPE_IDX }, "@write_integer@"),
               newline_fcall ] := by
  have hs : (analyze_magic specOps MAGIC_WRITELN args_lits acx_io).isSome = true := by decide!
  obtain ⟨⟨⟨⟩, σ'⟩, h⟩ := Option.isSome_iff_exists.mp hs
  have hq : args_call_magic acx_io.st args_lits = false := by decide!
  obtain ⟨new, rs, h1, h2, h3, h4, h5, -⟩ :=
    C3_write_lowering specOps MAGIC_WRITELN args_lits acx_io σ' (Or.inl rfl) hq h
  refine ⟨hq, ⟨σ', new, rs, h, h1, h2, ?_, ?_, h5 rfl⟩, by decide!⟩
  · rw [h3]
    rfl
  · rw [h4, if_pos rfl]

set_option maxRecDepth 100000 in
/-- C4 (counterexample to the claim as stated): in `for i := (1 = 1) to 10 do ;`
the start value has type BOOLEAN, whose `size_of_type` is 1, and the store of
the initial value (instruction 5) stores that value (`%2`) with size operand
8, the size of INTEGER. The error "type of start not integer" is reported and
the store is emitted nevertheless. -/
theorem C4_for_store_size_counterexample :
    (analyze_expr specOps (Expr.BIN Tok.EQ (Expr.LIT 1) (Expr.LIT 1)) acx_sample).map Prod.fst
      = some { op := InsnPtr.ptr 2, type := BOOLEAN_TYPE_IDX } ∧
    (analyze_stmt specOps u0 stmt_for_bool acx_sample).bind
        (fun r => (size_of_type BOOLEAN_TYPE_IDX r.2).map Prod.fst) = some 1 ∧
    (analyze_stmt specOps u0 stmt_for_bool acx_sample).map (fun r => (r.2.insns.get? 5, r.2.sink))
      = some (some { op := Opcode.ST, a := Operand.insn (InsnPtr.ptr 4),
                     b := Operand.insn (InsnPtr.ptr 2), c := Operand.int 8 },
              [Diag.err "type of start not integer"]) := by
  decide!

/-- C4 (amended): the store that ends the lowering of an assignment has as size
operand `size_of_type` of the type of the analysed rvalue. In the lowering of a
`for` loop, the store of the initial value (the instruction after the ALLOC of
the counter) and the store of the incremented counter (the instruction after
the ADD of 1 to the loaded counter) have as size operand `size_of_type` of
INTEGER, the type of the counter; this is `size_of_type` of the type of the
start value when the start expression has type INTEGER. -/
theorem C4_store_sizes (ops : SymOps) (u : Indet) :
    (∀ (lvalue rvalue : Expr) (σ σ' : Acx),
      analyze_stmt ops u (Stmt.ASSIGN lvalue rvalue) σ = some ((), σ') →
      ∃ (lty rty : Resu) (root : Option AstPath) (σl σc σr : Acx) (n : Int),
        analyze_expr ops lvalue σ = some (lty, σl) ∧
        check_assignability ops lvalue σl = some (root, σc) ∧
        analyze_expr ops rvalue σc = some (rty, σr) ∧
        (size_of_type rty.type σr).map Prod.fst = some n ∧
        σ'.insns.getLast? = some { op := Opcode.ST, a := Operand.insn lty.op,
                                   b := Operand.insn rty.op, c := Operand.int n }) ∧
    (∀ (id : String) (start end_ : Expr) (body : Stmt) (σ σ' : Acx),
      analyze_stmt ops u (Stmt.FOR id start end_ body) σ = some ((), σ') →
      ∃ (sty ety : Resu) (σs σe : Acx) (n n2 : Int) (m : Nat),
        analyze_expr ops start σ = some (sty, σs) ∧
        analyze_expr ops end_ σs = some (ety, σe) ∧
        (size_of_type INTEGER_TYPE_IDX σe).map Prod.fst = some n ∧
        (sty.type = INTEGER_TYPE_IDX → (size_of_type sty.type σe).map Prod.fst = some n) ∧
        σ'.insns.get? (σe.insns.length + 1) =
          some { op := Opcode.ST, a := Operand.insn (InsnPtr.ptr σe.insns.length),
                 b := Operand.insn sty.op, c := Operand.int n } ∧
        (size_of_type INTEGER_TYPE_IDX σ').map Prod.fst = some n2 ∧
        σ'.insns.get? m =
          some { op := Opcode.ADD, a := Operand.insn (InsnPtr.ptr (σe.insns.length + 3)),
                 b := Operand.ilit 1, c := Operand.null } ∧
        σ'.insns.get? (m + 1) =
          some { op := Opcode.ST, a := Operand.insn (InsnPtr.ptr σe.insns.length),
                 b := Operand.insn (InsnPtr.ptr m), c := Operand.int n2 }) := by
  refine ⟨fun lvalue rvalue σ σ' h => assign_store ops u lvalue rvalue σ σ' h, ?_⟩
  intro id start end_ body σ σ' h
  obtain ⟨sty, ety, σs, σe, n, n2, m, h1, h2, h3, h4, h5, h6, h7⟩ :=
    for_stores ops u id start end_ body σ σ' h
  exact ⟨sty, ety, σs, σe, n, n2, m, h1, h2, h3, fun e => by rw [e]; exact h3, h4, h5, h6, h7⟩

set_option maxRecDepth 100000 in
/-- C4 (witness): the assignment `g := 1` is lowered in the context of the body
of `Q`, and `for i := 1 to 10 do ;` in the context of an empty main program;
their stores have the sizes the theorem states. -/
theorem C4_store_sizes_witness :
    (∃ (σ' : Acx) (lty rty : Resu) (σr : Acx) (n : Int),
      analyze_stmt specOps u0 stmt_assign_g acx_in_proc = some ((), σ') ∧
      (size_of_type rty.type σr).map Prod.fst = some n ∧
      σ'.insns.getLast? = some { op := Opcode.ST, a := Operand.insn lty.op,
                                 b := Operand.insn rty.op, c := Operand.int n }) ∧
    (∃ (σ' : Acx) (sty : Resu) (σe : Acx) (n : Int),
      analyze_stmt specOps u0 stmt_for_empty acx_sample = some ((), σ') ∧
      (size_of_type sty.type σe).map Prod.fst = some n ∧
      σ'.insns.get? (σe.insns.length + 1) =
        some { op := Opcode.ST, a := Operand.insn (InsnPtr.ptr σe.insns.length),
               b := Operand.insn sty.op, c := Operand.int n }) := by
  have hs1 : (analyze_stmt specOps u0 stmt_assign_g acx_in_proc).isSome = true := by decide!
  have hs2 : (analyze_stmt specOps u0 stmt_for_empty acx_sample).isSome = true := by decide!
  obtain ⟨⟨⟨⟩, σ1⟩, h1⟩ := Option.isSome_iff_exists.mp hs1
  obtain ⟨⟨⟨⟩, σ2⟩, h2⟩ := Option.isSome_iff_exists.mp hs2
  obtain ⟨lty, rty, -, -, -, σr, n, -, -, -, a4, a5⟩ :=
    (C4_store_sizes specOps u0).1 _ _ acx_in_proc σ1 h1
  obtain ⟨sty, ety, σs, σe, n1, n2, m, b1, b2, b3, b4, b5, -, -, -⟩ :=
    (C4_store_sizes specOps u0).2 _ _ _ _ acx_sample σ2 h2
  have hty : sty.type = INTEGER_TYPE_IDX := by
    have e : (analyze_expr specOps (Expr.LIT 1) acx_sample).map (fun r => r.1.type)
        = some INTEGER_TYPE_IDX := by decide!
    rw [b1] at e
    exact Option.some.inj e
  exact ⟨⟨σ1, lty, rty, σr, n, h1, a4, a5⟩, ⟨σ2, sty, σe, n1, h2, b4 hty, b5⟩⟩

set_option maxRecDepth 100000 in
/-- C11 (counterexample to the claim as stated): for `if b then x := 1` the
analysis appends three blocks to the block that holds the conditional BR: the
then block 1, an else block 2 that holds the single instruction 8, a
`BR(true, 3)`, and the join block 3.  The false target of the conditional BR
(instruction 4) is the else block 2, not the join block 3. -/
theorem C11_false_target_is_else_block :
    (analyze_stmt specOps u0 stmt_if_then acx_vars).map
        (fun r => (r.2.current_bb, r.2.bbs, r.2.insns.get? 4, r.2.insns.get? 8))
      = some (some 3,
              [ { insns := [InsnPtr.ptr 0, InsnPtr.ptr 1, InsnPtr.ptr 2, InsnPtr.ptr 3,
                            InsnPtr.ptr 4] },
                { insns := [InsnPtr.ptr 5, InsnPtr.ptr 6, InsnPtr.ptr 7] },
                { insns := [InsnPtr.ptr 8] },
                { insns := [] } ],
              some { op := Opcode.BR, a := Operand.insn (InsnPtr.ptr 0), b := Operand.label 1,
                     c := Operand.label 2 },
              some { op := Opcode.BR, a := Operand.tt, b := Operand.label 3,
                     c := Operand.null }) ∧
    (analyze specOps u0 (prog_vars stmt_if_then)).map
        (fun σ => (σ.cfuncs.map (fun cf => cf.bbs), σ.current_bb, σ.insns.get? 4))
      = some ([[0, 1, 2, 3]], some 3,
              some { op := Opcode.BR, a := Operand.insn (InsnPtr.ptr 0), b := Operand.label 1,
                     c := Operand.label 2 }) := by
  decide!

/-- C11 (amended): for every `if` statement with no else branch, after the
condition the analysis creates the then block `L0` and lowers the then-branch
in it, appends the tail BR of the then-branch, creates an else block `L1` that
holds a single BR, and creates the join block `L1 + 1`, which is the current
block afterwards.  The conditional BR has the true target `L0` and the false
target `L1` (the else block, not the join block); the tail BR of the
then-branch and the BR of the else block have the join block as target.  When
the then-branch creates no block, the three blocks created are `L0`, `L0 + 1`
and `L0 + 2`. -/
theorem C11_if_without_else (ops : SymOps) (u : Indet) (cond : Expr) (then_ : Stmt)
    (σ σ' : Acx)
    (h : analyze_stmt ops u (Stmt.ITE cond then_ Stmt.NULL) σ = some ((), σ')) :
    ∃ (cty : Resu) (σc σ3 σt : Acx),
      analyze_expr ops cond σ = some (cty, σc) ∧
      σ3.insns.length = σc.insns.length + 1 ∧
      σ3.bbs.length = σc.bbs.length + 1 ∧
      σ3.current_bb = some σc.bbs.length ∧
      analyze_stmt ops u then_ σ3 = some ((), σt) ∧
      σ'.insns.get? σc.insns.length =
        some { op := Opcode.BR, a := Operand.insn cty.op, b := Operand.label σc.bbs.length,
               c := Operand.label σt.bbs.length } ∧
      σ'.insns.get? σt.insns.length =
        some { op := Opcode.BR, a := Operand.tt, b := Operand.label (σt.bbs.length + 1),
               c := Operand.null } ∧
      σ'.insns.get? (σt.insns.length + 1) =
        some { op := Opcode.BR, a := Operand.tt, b := Operand.label (σt.bbs.length + 1),
               c := Operand.null } ∧
      σ'.insns.length = σt.insns.length + 2 ∧
      σ'.bbs.length = σt.bbs.length + 2 ∧
      σ'.bbs.get? σt.bbs.length = some { insns := [InsnPtr.ptr (σt.insns.length + 1)] } ∧
      σ'.bbs.get? (σt.bbs.length + 1) = some { insns := [] } ∧
      σ'.current_bb = some (σt.bbs.length + 1) ∧
      (σt.bbs.length = σ3.bbs.length →
        σ'.bbs.length = σc.bbs.length + 3 ∧ σ'.current_bb = some (σc.bbs.length + 2)) := by
  obtain ⟨cty, σc, σ3, σt, h1, h2, h3, h4, h5, h6, h7, h8, h9, h10, h11, h12, h13⟩ :=
    ite_no_else ops u cond then_ σ σ' h
  refine ⟨cty, σc, σ3, σt, h1, h2, h3, h4, h5, h6, h7, h8, h9, h10, h11, h12, h13, ?_⟩
  intro hnb
  rw [h10, h13, hnb, h3]
  exact ⟨rfl, rfl⟩

set_option maxRecDepth 100000 in
/-- C11 (witness): `if b then x := 1` is lowered in the context of the body of a
program that declares `b` and `x`; the conditional BR has the else block as
false target and the join block is current. -/
theorem C11_if_without_else_witness :
    ∃ (σ' : Acx) (cty : Resu) (σc σt : Acx),
      analyze_stmt specOps u0 stmt_if_then acx_vars = some ((), σ') ∧
      analyze_expr specOps (Expr.PATH { components := ["b"] }) acx_vars = some (cty, σc) ∧
      σ'.insns.get? σc.insns.length =
        some { op := Opcode.BR, a := Operand.insn cty.op, b := Operand.label σc.bbs.length,
               c := Operand.label σt.bbs.length } ∧
      σ'.bbs.get? σt.bbs.length = some { insns := [InsnPtr.ptr (σt.insns.length + 1)] } ∧
      σ'.current_bb = some (σt.bbs.length + 1) := by
  have hs : (analyze_stmt specOps u0 stmt_if_then acx_vars).isSome = true := by decide!
  obtain ⟨⟨⟨⟩, σ'⟩, h⟩ := Option.isSome_iff_exists.mp hs
  obtain ⟨cty, σc, σ3, σt, h1, -, -, -, -, h6, -, -, -, -, h11, -, h13, -⟩ :=
    C11_if_without_else specOps u0 _ _ acx_vars σ' h
  exact ⟨σ', cty, σc, σt, h, h1, h6, h11, h13⟩

set_option maxRecDepth 100000 in
/-- C12 (counterexample to the claim as stated): for `x := y` with `x` an integer
and `y` a real, the types are not equal, one error is reported, and the ST of
the assignment is appended nevertheless. -/
theorem C12_mismatch_still_stores :
    specOps.types_eq acx_vars.st REAL_TYPE_IDX INTEGER_TYPE_IDX = false ∧
    (analyze_stmt specOps u0 stmt_mismatch acx_vars).map
        (fun r => (r.2.sink, r.2.insns.drop acx_vars.insns.length))
      = some ([Diag.err "cannot assign incompatible type"],
              [{ op := Opcode.ST, a := Operand.insn (InsnPtr.ptr 1),
                 b := Operand.insn (InsnPtr.ptr 2), c := Operand.int 8 }]) ∧
    (analyze specOps u0 (prog_vars stmt_mismatch)).map (fun σ => (σ.sink, σ.insns.get? 4))
      = some ([Diag.err "cannot assign incompatible type"],
              some { op := Opcode.ST, a := Operand.insn (InsnPtr.ptr 1),
                     b := Operand.insn (InsnPtr.ptr 2), c := Operand.int 8 }) := by
  decide!

/-- C12 (amended): for every assignment statement, after the analysis of the
rvalue the lowering reports the error "cannot assign incompatible type" exactly
when the types of the rvalue and the lvalue are not equal under
`stab_types_eq`, and it appends exactly one instruction, the ST of the
assignment, whether the types are equal or not.  (The only other report is
that of `size_of_type` for an rvalue type of tag `TYPE_REF`.) -/
theorem C12_assign_reports_and_stores (ops : SymOps) (u : Indet) (lvalue rvalue : Expr)
    (σ σ' : Acx)
    (h : analyze_stmt ops u (Stmt.ASSIGN lvalue rvalue) σ = some ((), σ')) :
    ∃ (lty rty : Resu) (root : Option AstPath) (σl σc σr : Acx) (n : Int) (t : StabType),
      analyze_expr ops lvalue σ = some (lty, σl) ∧
      check_assignability ops lvalue σl = some (root, σc) ∧
      analyze_expr ops rvalue σc = some (rty, σr) ∧
      σr.st.types.get? rty.type = some t ∧
      σ'.insns = σr.insns ++ [{ op := Opcode.ST, a := Operand.insn lty.op,
                                b := Operand.insn rty.op, c := Operand.int n }] ∧
      σ'.sink = σr.sink ++
        (if ops.types_eq σr.st rty.type lty.type = true then []
          else [Diag.err "cannot assign incompatible type"]) ++
        (if t.ty.tag = TypeTag.TYPE_REF then
          [Diag.err "What is a TYPE_REF doing in size_of_type?"] else []) :=
  assign_effect ops u lvalue rvalue σ σ' h

set_option maxRecDepth 100000 in
/-- C12 (witness): `x := y`, with `x` an integer and `y` a real, is lowered; the
store is appended after the analysis of `y`. -/
theorem C12_assign_reports_and_stores_witness :
    ∃ (σ' σr : Acx) (lty rty : Resu) (n : Int),
      analyze_stmt specOps u0 stmt_mismatch acx_vars = some ((), σ') ∧
      σ'.insns = σr.insns ++ [{ op := Opcode.ST, a := Operand.insn lty.op,
                                b := Operand.insn rty.op, c := Operand.int n }] := by
  have hs : (analyze_stmt specOps u0 stmt_mismatch acx_vars).isSome = true := by decide!
  obtain ⟨⟨⟨⟩, σ'⟩, h⟩ := Option.isSome_iff_exists.mp hs
  obtain ⟨lty, rty, -, -, -, σr, n, -, -, -, -, -, h5, -⟩ :=
    C12_assign_reports_and_stores specOps u0 _ _ acx_vars σ' h
  exact ⟨σ', σr, lty, rty, n, h, h5⟩

set_option maxRecDepth 100000 in
/-- C13 (counterexample to the claim as stated): in the body of the procedure `Q`
of scenario S1, `g` is a global that is not a local of `Q`, and
`check_assignability` on `g` reports nothing; no diagnostic is reported for
the whole program either. -/
theorem C13_procedure_nonlocal_no_diag :
    (deref_func acx_in_proc.current_func acx_in_proc).map (fun r => r.1.ty.func_type)
      = some SubKind.SUB_PROCEDURE ∧
    specOps.has_local_var acx_in_proc.st "g" = false ∧
    (check_assignability specOps (Expr.PATH { components := ["g"] }) acx_in_proc).map
        (fun r => r.2.sink) = some [] ∧
    (analyze specOps u0 prog_capture).map (fun σ => σ.sink) = some [] := by
  decide!

/-- C13 (amended): `check_assignability` on a path whose root is `elt` reports
the error "assigned to non-local in function" exactly once when the current
function is a SUB_FUNCTION and `elt` is not one of its locals, and reports
nothing otherwise; and when the current subprogram is not a SUB_FUNCTION, as
inside a procedure, `check_assignability` reports nothing whatever the
lvalue. -/
theorem C13_nonlocal_error_only_in_function (ops : SymOps) :
    (∀ (p : AstPath) (σ σ' : Acx) (root : Option AstPath) (cf : StabType) (elt : String),
      σ.current_func ≠ FuncPtr.null →
      deref_func σ.current_func σ = some (cf, σ) →
      p.components.head? = some elt →
      check_assignability ops (Expr.PATH p) σ = some (root, σ') →
      σ'.sink = σ.sink ++
        (if cf.ty.func_type = SubKind.SUB_FUNCTION ∧ ops.has_local_var σ.st elt = false then
          [Diag.err "assigned to non-local in function"] else [])) ∧
    (∀ (lv : Expr) (σ σ' : Acx) (root : Option AstPath) (cf : StabType),
      deref_func σ.current_func σ = some (cf, σ) →
      cf.ty.func_type ≠ SubKind.SUB_FUNCTION →
      check_assignability ops lv σ = some (root, σ') →
      σ'.sink = σ.sink) :=
  ⟨fun p σ σ' root cf elt hnull hcf helt h =>
      check_assignability_path_sink ops p σ σ' root cf elt hnull hcf helt h,
    check_assignability_proc ops⟩

set_option maxRecDepth 100000 in
/-- C13 (witness): for the global `g`, the check inside the procedure `Q` reports
nothing, and the same check with `Q` declared as a function reports the
error. -/
theorem C13_nonlocal_error_only_in_function_witness :
    (∃ (root : Option AstPath) (σ' : Acx),
      check_assignability specOps (Expr.PATH { components := ["g"] }) acx_in_proc
        = some (root, σ') ∧ σ'.sink = acx_in_proc.sink) ∧
    (∃ (root : Option AstPath) (σ' : Acx),
      check_assignability specOps (Expr.PATH { components := ["g"] }) acx_in_func
        = some (root, σ') ∧
      σ'.sink = acx_in_func.sink ++ [Diag.err "assigned to non-local in function"]) := by
  have hs1 : (check_assignability specOps (Expr.PATH { components := ["g"] })
      acx_in_proc).isSome = true := by decide!
  have hs2 : (check_assignability specOps (Expr.PATH { components := ["g"] })
      acx_in_func).isSome = true := by decide!
  have hd1 : (deref_func acx_in_proc.current_func acx_in_proc).isSome = true := by decide!
  have hd2 : (deref_func acx_in_func.current_func acx_in_func).isSome = true := by decide!
  have hk1 : (deref_func acx_in_proc.current_func acx_in_proc).map
      (fun r => r.1.ty.func_type) = some SubKind.SUB_PROCEDURE := by decide!
  have hk2 : (deref_func acx_in_func.current_func acx_in_func).map
      (fun r => r.1.ty.func_type) = some SubKind.SUB_FUNCTION := by decide!
  have hl : specOps.has_local_var acx_in_func.st "g" = false := by decide!
  obtain ⟨⟨root1, σ1⟩, h1⟩ := Option.isSome_iff_exists.mp hs1
  obtain ⟨⟨root2, σ2⟩, h2⟩ := Option.isSome_iff_exists.mp hs2
  obtain ⟨⟨cf1, τ1⟩, d1⟩ := Option.isSome_iff_exists.mp hd1
  obtain ⟨⟨cf2, τ2⟩, d2⟩ := Option.isSome_iff_exists.mp hd2
  obtain ⟨e1, -⟩ := deref_func_eq d1
  obtain ⟨e2, -⟩ := deref_func_eq d2
  subst e1 e2
  rw [d1] at hk1
  rw [d2] at hk2
  have k1 : cf1.ty.func_type = SubKind.SUB_PROCEDURE := Option.some.inj hk1
  have k2 : cf2.ty.func_type = SubKind.SUB_FUNCTION := Option.some.inj hk2
  have r1 := (C13_nonlocal_error_only_in_function specOps).2 _ acx_in_proc
    σ1 root1 cf1 d1 (by rw [k1]; decide) h1
  have r2 := (C13_nonlocal_error_only_in_function specOps).1 { components := ["g"] }
    acx_in_func σ2 root2 cf2 "g" (by decide) d2 rfl h2
  rw [if_pos ⟨k2, hl⟩] at r2
  exact ⟨⟨root1, σ1, h1, r1⟩, ⟨root2, σ2, h2, r2⟩⟩

set_option maxRecDepth 100000 in
/-- C14 (evaluation at the failing inputs): importing `input` registers `writeln`
and `write`, importing `output` registers `readln` and `read`, and importing
`foo` registers `readln` and `read` and reports no error. -/
theorem C14_imports_inverted :
    (analyze specOps u0 (prog_imports ["input"])).map
        (fun σ => (σ.sink, (σ.st.types.drop 6).map (fun t => (t.name, t.magic))))
      = some ([], [("writeln", MAGIC_WRITELN), ("write", MAGIC_WRITE)]) ∧
    (analyze specOps u0 (prog_imports ["input"])).map
        (fun σ => σ.st.chain.map (fun sc => sc.funcs))
      = some [[("writeln", 6), ("write", 7)]] ∧
    (analyze specOps u0 (prog_imports ["output"])).map
        (fun σ => (σ.sink, (σ.st.types.drop 6).map (fun t => (t.name, t.magic))))
      = some ([], [("readln", MAGIC_READLN), ("read", MAGIC_READ)]) ∧
    (analyze specOps u0 (prog_imports ["output"])).map
        (fun σ => σ.st.chain.map (fun sc => sc.funcs))
      = some [[("readln", 6), ("read", 7)]] ∧
    (analyze specOps u0 (prog_imports ["foo"])).map
        (fun σ => (σ.sink, (σ.st.types.drop 6).map (fun t => (t.name, t.magic))))
      = some ([], [("readln", MAGIC_READLN), ("read", MAGIC_READ)]) ∧
    (analyze specOps u0 (prog_imports ["foo"])).map
        (fun σ => σ.st.chain.map (fun sc => sc.funcs))
      = some [[("readln", 6), ("read", 7)]] := by
  exact ⟨by decide!, by decide!, by decide!, by decide!, by decide!, by decide!⟩

set_option maxRecDepth 100000 in
/-- C15 (counterexample to the claim as stated): the one argument of
`read(a[f(read(x))])` has the tag EXPR_IDX and, as the operand of its FCALL
shows, the type INTEGER; lowering the call appends two FCALLs of
`@read_integer@`, one for `x` emitted while the argument is analysed and one for
the argument; no error is reported, only the `span_diag` line about the
argument of `f`. -/
theorem C15_nested_read_two_fcalls :
    not_lvalue_form expr_idx_nested = false ∧
    (analyze specOps u0 (prog_read Stmt.NULL)).bind
        (fun σ => (analyze_magic specOps MAGIC_READ args_read_nested σ).map
          (fun r => ((r.2.insns.drop σ.insns.length).filter is_fcall, r.2.sink)))
      = some ([read_fcall ({ op := InsnPtr.ptr 0, type := INTEGER_TYPE_IDX }, "@read_integer@"),
               read_fcall ({ op := InsnPtr.ptr 9, type := INTEGER_TYPE_IDX }, "@read_integer@")],
              [Diag.diag "type of argument %d doesn't match declaration;"]) := by
  exact ⟨by decide!, by decide!⟩

/-- C15 (amended): when a call of the READ or READLN magic is lowered, for each
argument `e` the error "but read/ln must be called with lvalues" is reported
exactly when the tag of `e` is none of EXPR_PATH, EXPR_IDX, EXPR_DEREF; then `e`
is analysed, and for a result of type INTEGER, REAL, STRING, BOOLEAN, CHAR or
VOID the FCALL of the matching `@read_<tname>@` callee, with the result of `e`
as operand, is appended after the lowering of `e`.  When `e` contains no call of
a built-in, the lowering of `e` appends no FCALL, so that the instructions
appended for the argument hold exactly one FCALL, the last of them.  The sink
afterwards holds what it held, then the lvalue error if it was reported, then
what the analysis of `e` has reported; the rest of the arguments is lowered
after it. -/
theorem C15_read_lowering (ops : SymOps) (which : Nat) (e : Expr) (rest : ExprList)
    (σ σ' : Acx)
    (hw : which = MAGIC_READ ∨ which = MAGIC_READLN)
    (hq : calls_magic σ.st e = false)
    (h : analyze_magic ops which (ExprList.cons e rest) σ = some ((), σ')) :
    (not_lvalue_form e = false ↔
      (∃ p, e = Expr.PATH p) ∨ (∃ p i, e = Expr.IDX p i) ∨ (∃ d, e = Expr.DEREF d)) ∧
    ∃ (r : Resu) (σ1 : Acx) (callee : String) (σ2 : Acx) (new : List Insn),
      analyze_expr ops e { σ with sink := σ.sink ++
        (if not_lvalue_form e = true then
          [Diag.err "but read/ln must be called with lvalues"] else []) } = some (r, σ1) ∧
      read_callee r.type = some callee ∧
      (r.type = INTEGER_TYPE_IDX → callee = "@read_integer@") ∧
      (r.type = REAL_TYPE_IDX → callee = "@read_real@") ∧
      (r.type = STRING_TYPE_IDX → callee = "@read_string@") ∧
      (r.type = BOOLEAN_TYPE_IDX → callee = "@read_bool@") ∧
      (r.type = CHAR_TYPE_IDX → callee = "@read_char@") ∧
      (r.type = VOID_TYPE_IDX → callee = "@read_void@") ∧
      INSN Opcode.FCALL (Operand.str callee) (Operand.vec [r]) Operand.null σ1
        = some (InsnPtr.ptr σ1.insns.length, σ2) ∧
      σ1.insns = σ.insns ++ new ∧ new.filter is_fcall = [] ∧
      σ2.insns = σ1.insns ++ [read_fcall (r, callee)] ∧
      σ2.insns = σ.insns ++ (new ++ [read_fcall (r, callee)]) ∧
      (new ++ [read_fcall (r, callee)]).filter is_fcall = [read_fcall (r, callee)] ∧
      σ2.sink = σ1.sink ∧
      (∃ more : List Diag, σ2.sink = σ.sink ++
        (if not_lvalue_form e = true then
          [Diag.err "but read/ln must be called with lvalues"] else []) ++ more) ∧
      analyze_magic ops which rest σ2 = some ((), σ') := by
  rw [analyze_magic_read ops which _ hw] at h
  obtain ⟨r, σ1, callee, σ2, h1, h2, h3, h4, h5, h6⟩ := magic_read_step ops e rest σ σ' h
  have hsink : ∃ more : List Diag, σ2.sink = σ.sink ++
      (if not_lvalue_form e = true then
        [Diag.err "but read/ln must be called with lvalues"] else []) ++ more := by
    obtain ⟨more, hm⟩ := analyze_expr_inv (sink_exprClosed _) ops e _ r σ1
      (⟨[], by rw [List.append_nil]⟩ : SinkInv (σ.sink ++
        (if not_lvalue_form e = true then
          [Diag.err "but read/ln must be called with lvalues"] else []))
        { σ with sink := σ.sink ++
          (if not_lvalue_form e = true then
            [Diag.err "but read/ln must be called with lvalues"] else []) }) h1
    exact ⟨more, by rw [h5, hm]⟩
  obtain ⟨-, new, hn, hf⟩ := analyze_expr_quiet ops σ.st σ.insns e hq
    { σ with sink := σ.sink ++
        (if not_lvalue_form e = true then
          [Diag.err "but read/ln must be called with lvalues"] else []) } r σ1
    (QuietInv.start _ (StInv.start_st _)) h1
  refine ⟨not_lvalue_form_iff e, r, σ1, callee, σ2, new, h1, h2, ?_, ?_, ?_, ?_, ?_, ?_, h3,
    hn, hf, h4, ?_, ?_, h5, hsink, by rw [analyze_magic_read ops which _ hw]; exact h6⟩
  case refine_7 =>
    rw [h4, hn, List.append_assoc]
  case refine_8 =>
    rw [List.filter_append, hf]
    rfl
  all_goals
    intro ht
    rw [ht] at h2
    exact (Option.some.inj h2).symm

set_option maxRecDepth 100000 in
/-- C15 (witness): `read(x, 1)` is lowered in the context of a program that
declares the integer `x`; the path `x` contains no call of a built-in, no error
is reported for it, and the one FCALL appended for it is that of
`@read_integer@`. -/
theorem C15_read_lowering_witness :
    calls_magic acx_vars.st (Expr.PATH { components := ["x"] }) = false ∧
    ∃ (σ' : Acx) (r : Resu) (σ1 σ2 : Acx) (new : List Insn),
      analyze_magic specOps MAGIC_READ args_read acx_vars = some ((), σ') ∧
      analyze_expr specOps (Expr.PATH { components := ["x"] }) acx_vars = some (r, σ1) ∧
      σ2.insns = acx_vars.insns ++ (new ++ [read_fcall (r, "@read_integer@")]) ∧
      (new ++ [read_fcall (r, "@read_integer@")]).filter is_fcall
        = [read_fcall (r, "@read_integer@")] := by
  have hs : (analyze_magic specOps MAGIC_READ args_read acx_vars).isSome = true := by decide!
  have hq : calls_magic acx_vars.st (Expr.PATH { components := ["x"] }) = false := by decide!
  obtain ⟨⟨⟨⟩, σ'⟩, h⟩ := Option.isSome_iff_exists.mp hs
  obtain ⟨-, r, σ1, callee, σ2, new, h1, -, h3, -, -, -, -, -, -, -, -, -, h4, h5, -, -, -⟩ :=
    C15_read_lowering specOps MAGIC_READ _ _ acx_vars σ' (Or.inl rfl) hq h
  have ht : (analyze_expr specOps (Expr.PATH { components := ["x"] }) acx_vars).map
      (fun r => r.1.type) = some INTEGER_TYPE_IDX := by decide!
  have h1' : analyze_expr specOps (Expr.PATH { components := ["x"] }) acx_vars
      = some (r, σ1) := h1
  rw [h1'] at ht
  rw [h3 (Option.some.inj ht)] at h4 h5
  exact ⟨hq, σ', r, σ1, σ2, new, h, h1', h4, h5⟩

/-- C16: for every entry of the type table, `size_of_type` returns 8 when the tag
is INTEGER, REAL, POINTER, FUNCTION, STRING or ARRAY, 1 when it is BOOLEAN, CHAR
or VOID, and 64 when it is RECORD, and reports nothing; when the tag is REF it
reports an error and returns 0. -/
theorem C16_size_of_type_table (idx : Nat) (σ : Acx) (t : StabType)
    (h : σ.st.types.get? idx = some t) :
    ((t.ty.tag = TypeTag.TYPE_INTEGER ∨ t.ty.tag = TypeTag.TYPE_REAL ∨
        t.ty.tag = TypeTag.TYPE_POINTER ∨ t.ty.tag = TypeTag.TYPE_FUNCTION ∨
        t.ty.tag = TypeTag.TYPE_STRING ∨ t.ty.tag = TypeTag.TYPE_ARRAY) →
      size_of_type idx σ = some (8, σ)) ∧
    ((t.ty.tag = TypeTag.TYPE_BOOLEAN ∨ t.ty.tag = TypeTag.TYPE_CHAR ∨
        t.ty.tag = TypeTag.TYPE_VOID) →
      size_of_type idx σ = some (1, σ)) ∧
    (t.ty.tag = TypeTag.TYPE_RECORD → size_of_type idx σ = some (64, σ)) ∧
    (t.ty.tag = TypeTag.TYPE_REF →
      size_of_type idx σ = some (0, { σ with sink := σ.sink ++
        [Diag.err "What is a TYPE_REF doing in size_of_type?"] })) := by
  have he := size_of_type_eval idx σ t h
  refine ⟨?_, ?_, ?_, ?_⟩
  · rintro (ht | ht | ht | ht | ht | ht) <;> rw [he, ht]
  · rintro (ht | ht | ht) <;> rw [he, ht]
  · intro ht
    rw [he, ht]
  · intro ht
    rw [he, ht]

set_option maxRecDepth 100000 in
/-- C16 (witness): in the initial table, entry 0 has the tag INTEGER and size 8,
entry 3 the tag BOOLEAN and size 1. -/
theorem C16_size_of_type_table_witness :
    size_of_type INTEGER_TYPE_IDX acx_sample = some (8, acx_sample) ∧
    size_of_type BOOLEAN_TYPE_IDX acx_sample = some (1, acx_sample) := by
  have hs0 : (acx_sample.st.types.get? INTEGER_TYPE_IDX).isSome = true := by decide!
  have hs3 : (acx_sample.st.types.get? BOOLEAN_TYPE_IDX).isSome = true := by decide!
  obtain ⟨t0, h0⟩ := Option.isSome_iff_exists.mp hs0
  obtain ⟨t3, h3⟩ := Option.isSome_iff_exists.mp hs3
  have g0 : (acx_sample.st.types.get? INTEGER_TYPE_IDX).map (fun t => t.ty.tag)
      = some TypeTag.TYPE_INTEGER := by decide!
  have g3 : (acx_sample.st.types.get? BOOLEAN_TYPE_IDX).map (fun t => t.ty.tag)
      = some TypeTag.TYPE_BOOLEAN := by decide!
  rw [h0] at g0
  rw [h3] at g3
  exact ⟨(C16_size_of_type_table INTEGER_TYPE_IDX acx_sample t0 h0).1
      (Or.inl (Option.some.inj g0)),
    (C16_size_of_type_table BOOLEAN_TYPE_IDX acx_sample t3 h3).2.1
      (Or.inl (Option.some.inj g3))⟩

set_option maxRecDepth 100000 in
/-- C17 (evaluation at the failing input): `P` declares the nested procedure `Q`.
The entry block of `P` (block 1) holds only the two allocations made before
the recursion; the instructions of the body of `P` (4, 5) and the RET of `P`
(6) are appended to block 2, the entry block of `Q`, after the RET of `Q`
(3). -/
theorem C17_body_in_nested_block :
    (analyze specOps u0 prog_nested).map
        (fun σ => (σ.cfuncs.map (fun cf => (cf.name, cf.entry, cf.bbs)), σ.bbs, σ.insns.drop 3))
      = some ([ (some "~!@__unassignable__@!~", 0, [0]), (some "P", 1, [1]),
                (some "Q", 2, [2]) ],
              [ { insns := [] },
                { insns := [InsnPtr.ptr 0, InsnPtr.ptr 1] },
                { insns := [InsnPtr.ptr 2, InsnPtr.ptr 3, InsnPtr.ptr 4, InsnPtr.ptr 5,
                            InsnPtr.ptr 6] } ],
              [ { op := Opcode.RET, a := Operand.reg InsnPtr.null, b := Operand.null,
                  c := Operand.null },
                { op := Opcode.LIT, a := Operand.ilit 1, b := Operand.null, c := Operand.null },
                { op := Opcode.ST, a := Operand.insn (InsnPtr.ptr 0),
                  b := Operand.insn (InsnPtr.ptr 4), c := Operand.int 8 },
                { op := Opcode.RET, a := Operand.reg InsnPtr.null, b := Operand.null,
                  c := Operand.null } ]) := by
  decide!

set_option maxRecDepth 100000 in
/-- C18 (counterexample to the claim as stated): `q` has the type `^boolean`; for
`q^` the result type is BOOLEAN, whose `size_of_type` is 1, and the load is
`LD(%3, 8)`, of the size of the pointer. -/
theorem C18_deref_loads_pointer_size :
    (size_of_type BOOLEAN_TYPE_IDX acx_vars).map Prod.fst = some 1 ∧
    (analyze_expr specOps expr_deref_q acx_vars).map
        (fun r => (r.1, r.2.sink, r.2.insns.drop acx_vars.insns.length))
      = some ({ op := InsnPtr.ptr 4, type := BOOLEAN_TYPE_IDX }, [],
              [{ op := Opcode.LD, a := Operand.insn (InsnPtr.ptr 3), b := Operand.int 8,
                 c := Operand.null }]) := by
  decide!

/-- C18 (amended): for every dereference expression whose path has the type
entry `st`, `analyze_expr` returns the result type `st.ty.pointer` (the pointee,
when `st` is a POINTER) and the instruction `LD(addr, n)`, where `addr` is the
address computed for the path and `n` is `size_of_type` of the type of the
path itself: 8 when that type is a POINTER, whatever the pointee.  The error
"tried to dereference non-pointer" is reported exactly when the type of the
path is not a POINTER. -/
theorem C18_deref_load_size (ops : SymOps) (d : Expr) (σ σ' : Acx) (r : Resu)
    (h : analyze_expr ops (Expr.DEREF d) σ = some (r, σ')) :
    ∃ (p : AstPath) (pathty : Resu) (σ1 : Acx) (st : StabType) (n : Int),
      d.path_member = some p ∧
      type_of_path ops p σ = some (pathty, σ1) ∧
      σ1.st.types.get? pathty.type = some st ∧
      (size_of_type pathty.type σ1).map Prod.fst = some n ∧
      (st.ty.tag = TypeTag.TYPE_POINTER → n = 8) ∧
      r = { op := InsnPtr.ptr σ1.insns.length, type := st.ty.pointer } ∧
      σ'.insns = σ1.insns ++ [{ op := Opcode.LD, a := Operand.insn pathty.op,
                                b := Operand.int n, c := Operand.null }] ∧
      σ'.sink = σ1.sink ++
        (if st.ty.tag ≠ TypeTag.TYPE_POINTER then [Diag.err "tried to dereference non-pointer"]
          else []) ++
        (if st.ty.tag = TypeTag.TYPE_REF then
          [Diag.err "What is a TYPE_REF doing in size_of_type?"] else []) := by
  obtain ⟨p, pathty, σ1, st, n, h1, h2, h3, h4, h5, h6, h7⟩ := deref_effect ops d σ σ' r h
  refine ⟨p, pathty, σ1, st, n, h1, h2, h3, h4, ?_, h5, h6, h7⟩
  intro ht
  rw [size_of_type_eval pathty.type σ1 st h3, ht] at h4
  exact (Option.some.inj h4).symm

set_option maxRecDepth 100000 in
/-- C18 (witness): `q^`, with `q` of type `^boolean`, is lowered to a load from
the address of `q`. -/
theorem C18_deref_load_size_witness :
    ∃ (r pathty : Resu) (σ1 σ' : Acx) (n : Int),
      analyze_expr specOps expr_deref_q acx_vars = some (r, σ') ∧
      type_of_path specOps { components := ["q"] } acx_vars = some (pathty, σ1) ∧
      σ'.insns = σ1.insns ++ [{ op := Opcode.LD, a := Operand.insn pathty.op,
                                b := Operand.int n, c := Operand.null }] := by
  have hs : (analyze_expr specOps expr_deref_q acx_vars).isSome = true := by decide!
  obtain ⟨⟨r, σ'⟩, h⟩ := Option.isSome_iff_exists.mp hs
  obtain ⟨p, pathty, σ1, st, n, h1, h2, -, -, -, -, h6, -⟩ :=
    C18_deref_load_size specOps _ acx_vars σ' r h
  have hp : p = { components := ["q"] } := by
    simp only [Expr.path_member, Option.some.injEq] at h1
    exact h1.symm
  rw [hp] at h2
  exact ⟨r, pathty, σ1, σ', n, h, h2, h6⟩

set_option maxRecDepth 100000 in
/-- C19 (evaluation at the failing input): for `-1` the operand has type INTEGER
and the error that the operand of a unary plus or minus is not a number is
reported; the result type is the operand's. -/
theorem C19_unary_minus_integer_rejected :
    (analyze_expr specOps (Expr.LIT 1) acx_sample).map (fun r => r.1.type)
      = some INTEGER_TYPE_IDX ∧
    (analyze_expr specOps (Expr.UN Tok.MINUS (Expr.LIT 1)) acx_sample).map
        (fun r => (r.1.type, r.2.sink))
      = some (INTEGER_TYPE_IDX, [Diag.err "tried to apply unary +/- to a non-number"]) := by
  decide!

set_option maxRecDepth 100000 in
/-- C20 (evaluation at the failing input): in `@x = @x` the two operands get the
new type entries 7 and 8, both pointers to INTEGER, which `stab_types_eq` holds
equal; the error "incompatible types for binary operation" is reported, for
the expression and for a program whose `if` has it as condition. -/
theorem C20_binary_compares_type_ids :
    (analyze_expr specOps expr_addr_eq acx_vars).map
        (fun r => (r.2.sink, (r.2.st.types.drop 7).map (fun t => (t.ty.tag, t.ty.pointer)),
          specOps.types_eq r.2.st 7 8))
      = some ([Diag.diag "left:", Diag.diag "right:",
               Diag.err "incompatible types for binary operation"],
              [(TypeTag.TYPE_POINTER, INTEGER_TYPE_IDX), (TypeTag.TYPE_POINTER, INTEGER_TYPE_IDX)],
              true) ∧
    (analyze specOps u0 (prog_vars (Stmt.ITE expr_addr_eq Stmt.NULL Stmt.NULL))).map
        (fun σ => σ.sink)
      = some [Diag.diag "left:", Diag.diag "right:",
              Diag.err "incompatible types for binary operation"] := by
  decide!

set_option maxRecDepth 100000 in
/-- C21 (evaluation at the failing input): for `@x` with `x : integer`,
`analyze_expr` returns the new type entry 7, a POINTER to INTEGER, and emits
nothing, but the value of the result is the unset `retv.op`, not instruction 1,
the address that analysing `x` gives; for `q := @b` that unset value is what the
`ST` stores. -/
theorem C21_addrof_value_unset :
    (analyze_expr specOps expr_addr_x acx_vars).map
        (fun r => (r.1, (r.2.st.types.get? r.1.type).map (fun t => (t.ty.tag, t.ty.pointer)),
                   r.2.insns.length))
      = some ({ op := InsnPtr.undef, type := 7 },
              some (TypeTag.TYPE_POINTER, INTEGER_TYPE_IDX), 4) ∧
    (analyze_expr specOps (Expr.PATH { components := ["x"] }) acx_vars).map (fun r => r.1)
      = some { op := InsnPtr.ptr 1, type := INTEGER_TYPE_IDX } ∧
    (analyze specOps u0 (prog_vars stmt_assign_addr)).map (fun σ => (σ.insns.drop 4, σ.sink))
      = some ([{ op := Opcode.ST, a := Operand.insn (InsnPtr.ptr 3),
                 b := Operand.insn InsnPtr.undef, c := Operand.int 8 }], []) := by
  exact ⟨by decide!, by decide!, by decide!⟩

set_option maxRecDepth 100000 in
/-- C22 (evaluation at the failing input): with `function f(a : integer) :
integer`, `x : integer` and `b : boolean`, the call `f(b)` reports no error: the
sink receives only the `span_diag` line about the argument, and the `CALL` is
emitted as for `f(x)`, which reports nothing; the call `f(x, x)` reports the
error about the number of arguments. -/
theorem C22_argument_mismatch_not_error :
    (analyze specOps u0 (prog_call Stmt.NULL)).bind
        (fun σ => (analyze_call specOps { components := ["f"] } args_b σ).map
          (fun r => (r.1, r.2.insns.drop σ.insns.length, r.2.sink, err_count r.2)))
      = some ({ op := InsnPtr.ptr 6, type := INTEGER_TYPE_IDX },
              [{ op := Opcode.CALL, a := Operand.cfunc (some 1),
                 b := Operand.vec [{ op := InsnPtr.ptr 1, type := BOOLEAN_TYPE_IDX }],
                 c := Operand.null }],
              [Diag.diag "type of argument %d doesn't match declaration;"], 0) ∧
    (analyze specOps u0 (prog_call Stmt.NULL)).bind
        (fun σ => (analyze_call specOps { components := ["f"] } args_x σ).map
          (fun r => (r.1, r.2.insns.drop σ.insns.length, r.2.sink)))
      = some ({ op := InsnPtr.ptr 6, type := INTEGER_TYPE_IDX },
              [{ op := Opcode.CALL, a := Operand.cfunc (some 1),
                 b := Operand.vec [{ op := InsnPtr.ptr 0, type := INTEGER_TYPE_IDX }],
                 c := Operand.null }], []) ∧
    (analyze specOps u0 (prog_call Stmt.NULL)).bind
        (fun σ => (analyze_call specOps { components := ["f"] } args_xx σ).map
          (fun r => r.2.sink))
      = some [Diag.err "wanted %ld, given %ld"] ∧
    (analyze specOps u0 (prog_call stmt_call_b)).map (fun σ => (σ.sink, err_count σ))
      = some ([Diag.diag "type of argument %d doesn't match declaration;"], 0) := by
  exact ⟨by decide!, by decide!, by decide!, by decide!⟩

set_option maxRecDepth 100000 in
/-- C23 (evaluation at the failing input): for `x.f` with `x : integer`, and for
`r.zz` with `r` of the type `record a : integer; b : char; c : integer end`,
`type_of_path` reports nothing and emits nothing; the two errors are reported
only for a component that is not the last one, as in `x.f.g` and `r.zz.w`. -/
theorem C23_last_component_unchecked :
    (type_of_path specOps { components := ["x", "f"] } acx_vars).map
        (fun r => (r.1, r.2.sink, r.2.insns.length))
      = some ({ op := InsnPtr.ptr 1, type := INTEGER_TYPE_IDX }, [], 4) ∧
    (analyze specOps u0 prog_record).bind
        (fun σ => (type_of_path specOps { components := ["r", "zz"] } σ).map
          (fun r => (r.1, r.2.sink, r.2.insns.length)))
      = some ({ op := InsnPtr.ptr 0, type := 6 }, [], 1) ∧
    (type_of_path specOps { components := ["x", "f", "g"] } acx_vars).map (fun r => r.2.sink)
      = some [Diag.err "tried to access field `%s` of non-record type"] ∧
    (analyze specOps u0 prog_record).bind
        (fun σ => (type_of_path specOps { components := ["r", "zz", "w"] } σ).map
          (fun r => r.2.sink))
      = some [Diag.err "could not find field `%s` in record"] := by
  exact ⟨by decide!, by decide!, by decide!, by decide!⟩

set_option maxRecDepth 100000 in
/-- C24 (evaluation at the failing input): the condition of `while 1 do ;` has
type INTEGER and that of `while 1 = 1 do ;` has type BOOLEAN, but whether the
error is reported follows the value found in the unwritten `cty.type`: when that
is the id of BOOLEAN neither statement reports it, when it is the id of INTEGER
both do. -/
theorem C24_while_tests_unset_cty :
    (analyze_expr specOps (Expr.LIT 1) acx_sample).map (fun r => r.1.type)
      = some INTEGER_TYPE_IDX ∧
    (analyze_stmt specOps u0 stmt_while_int acx_sample).map (fun r => r.2.sink) = some [] ∧
    (analyze_stmt specOps u_int stmt_while_int acx_sample).map (fun r => r.2.sink)
      = some [Diag.err "type of while condition not boolean"] ∧
    (analyze_expr specOps (Expr.BIN Tok.EQ (Expr.LIT 1) (Expr.LIT 1)) acx_sample).map
        (fun r => r.1.type)
      = some BOOLEAN_TYPE_IDX ∧
    (analyze_stmt specOps u0 stmt_while_eq acx_sample).map (fun r => r.2.sink) = some [] ∧
    (analyze_stmt specOps u_int stmt_while_eq acx_sample).map (fun r => r.2.sink)
      = some [Diag.err "type of while condition not boolean"] ∧
    (analyze specOps u_int prog_while).map (fun σ => σ.sink)
      = some [Diag.err "type of while condition not boolean"] := by
  exact ⟨by decide!, by decide!, by decide!, by decide!, by decide!, by decide!, by decide!⟩

set_option maxRecDepth 100000 in
/-- C25 (evaluation at the failing input): in `var i : integer; for i := 1 to 10
do writeln(i)` the cell of the loop is instruction 3, an `ALLOC` that the `ST` of
the start value (instruction 4) and the `LD` of the head (instruction 6) use,
but the argument of the `FCALL` in the body is instruction 0, the `loc` of the
global `i`: the scope of the loop binds nothing, and the symbol table holds the
one variable `i`. -/
theorem C25_induction_variable_unbound :
    (analyze specOps u0 prog_for_writeln).map
        (fun σ => (σ.insns.get? 3, σ.insns.get? 4, σ.insns.get? 6))
      = some (some { op := Opcode.ALLOC, a := Operand.int 8, b := Operand.null,
                     c := Operand.null },
              some { op := Opcode.ST, a := Operand.insn (InsnPtr.ptr 3),
                     b := Operand.insn (InsnPtr.ptr 1), c := Operand.int 8 },
              some { op := Opcode.LD, a := Operand.insn (InsnPtr.ptr 3), b := Operand.int 8,
                     c := Operand.null }) ∧
    (analyze specOps u0 prog_for_writeln).map
        (fun σ => (σ.insns.get? 9, σ.st.vars.map (fun v => (v.name, v.loc))))
      = some (some { op := Opcode.FCALL, a := Operand.str "@write_integer@",
                     b := Operand.vec [{ op := InsnPtr.ptr 0, type := INTEGER_TYPE_IDX }],
                     c := Operand.null },
              [("i", InsnPtr.ptr 0)]) := by
  exact ⟨by decide!, by decide!⟩

set_option maxRecDepth 100000 in
/-- C26 (counterexample): in `program p; var x : integer; b : boolean;
function f(a : integer) : integer; begin f := a end; begin end.` the
instructions are four `ALLOC`, the `ST` of the assignment and the `RET`: no `LD`
is emitted, and the operand of the `RET` is the register operand of instruction
3, the `ALLOC` that is the `loc` of the return slot `f`.  For the procedure `Q`
of `prog_capture` the `RET` (instruction 7) has the null register operand. -/
theorem C26_ret_operand_not_a_load :
    (analyze specOps u0 (prog_call Stmt.NULL)).map
        (fun σ => (σ.insns.map (fun i => i.op), σ.insns.getLast?, σ.insns.get? 3,
                   (σ.st.vars.get? 4).map (fun v => (v.name, v.loc))))
      = some ([Opcode.ALLOC, Opcode.ALLOC, Opcode.ALLOC, Opcode.ALLOC, Opcode.ST, Opcode.RET],
              some { op := Opcode.RET, a := Operand.reg (InsnPtr.ptr 3), b := Operand.null,
                     c := Operand.null },
              some { op := Opcode.ALLOC, a := Operand.int 8, b := Operand.null,
                     c := Operand.null },
              some ("f", InsnPtr.ptr 3)) ∧
    (analyze specOps u0 prog_capture).map (fun σ => σ.insns.get? 7)
      = some (some { op := Opcode.RET, a := Operand.reg InsnPtr.null, b := Operand.null,
                     c := Operand.null }) := by
  exact ⟨by decide!, by decide!⟩

/-- C26 (amended): if `analyze_subprog` is run on a subprogram whose name
resolves to an entry of the type table with that name, and it returns, then
`subprog_body` (all of `analyze_subprog` up to and including the analysis of the
body) has returned a context `σa`, and the instructions afterwards are those of
`σa` followed by one `RET`, the last instruction emitted.  For a SUB_FUNCTION
the operand of the `RET` is the register operand of the `loc` of the variable
that the function's name resolves to in `σa`, the return slot itself and not a
load of it; for a procedure it is the null register operand.  Afterwards the
innermost scope of `σa` is left and the former current function is current
again. -/
theorem C26_ret_operand_is_slot_loc (ops : SymOps) (u : Indet) (s : SubDecl) (σ σ' : Acx)
    (fidx : Nat) (ft : StabType)
    (hr : stab_resolve_func σ.st s.name = some fidx)
    (ht : σ.st.types.get? fidx = some ft)
    (hn : ft.name = s.name)
    (h : analyze_subprog ops u s σ = some ((), σ')) :
    ∃ (σa : Acx) (l : InsnPtr),
      subprog_body ops u s σ = some (σ.current_func, σa) ∧
      σ'.insns = σa.insns ++ [⟨Opcode.RET, Operand.reg l, Operand.null, Operand.null⟩] ∧
      σ'.st.vars = σa.st.vars ∧ σ'.st.chain = σa.st.chain.dropLast ∧
      σ'.current_func = σ.current_func ∧
      (ft.ty.func_type = SubKind.SUB_FUNCTION →
        ∃ rv v, stab_resolve_var σa.st s.name = some rv ∧ σa.st.vars.get? rv = some v ∧
          l = v.loc) ∧
      (ft.ty.func_type ≠ SubKind.SUB_FUNCTION → l = InsnPtr.null) := by
  rw [analyze_subprog_split] at h
  obtain ⟨saved, σa, hb, hret⟩ := bind_eq_some.mp h
  have hI := subprog_body_cur ops u s σ σa saved fidx ft hr ht hn hb
  have hsaved : saved = σ.current_func := by
    obtain ⟨n, head, types, decls, subprogs, body⟩ := s
    unfold subprog_body at hb
    obtain ⟨sv, σ1, h1, h2⟩ := bind_eq_some.mp hb
    obtain ⟨kd, -, hs, -, -, -⟩ := enter_subprog_eff h1
    obtain ⟨u1, σ2, -, h3⟩ := bind_eq_some.mp h2
    obtain ⟨u2, σ3, -, h4⟩ := bind_eq_some.mp h3
    obtain ⟨u3, σ4, -, h5⟩ := bind_eq_some.mp h4
    obtain ⟨u4, σ5, -, h6⟩ := bind_eq_some.mp h5
    obtain ⟨u5, σ6, -, h7⟩ := bind_eq_some.mp h6
    obtain ⟨u6, σ7, -, h8⟩ := bind_eq_some.mp h7
    obtain ⟨u7, σ8, -, h9⟩ := bind_eq_some.mp h8
    obtain ⟨u8, σ9, -, h10⟩ := bind_eq_some.mp h9
    obtain ⟨u9, σ10, -, h11⟩ := bind_eq_some.mp h10
    obtain ⟨u10, σ11, -, h12⟩ := bind_eq_some.mp h11
    obtain ⟨u11, σ12, -, h13⟩ := bind_eq_some.mp h12
    obtain ⟨u12, σ13, -, h14⟩ := bind_eq_some.mp h13
    obtain ⟨e, -⟩ := pure_eq_some.mp h14
    rw [← e, hs]
  rw [hsaved] at hb hret
  obtain ⟨l, a, b, c, d, e, f⟩ := ret_tail fidx s.name _ _ σa σ' () hI hret
  exact ⟨σa, l, hb, a, b, c, d, e, f⟩

set_option maxRecDepth 100000 in
/-- C26 (witness): `analyze_subprog` returns on `function f : integer; begin if
b then f := 1 end`, whose name resolves to entry 6 of the type table, a
SUB_FUNCTION: the operand of the `RET` is the `loc` of the variable that `f`
resolves to when the body has been analysed. -/
theorem C26_ret_operand_is_slot_loc_witness :
    ∃ (σ' σa : Acx) (l : InsnPtr) (rv : Nat) (v : StabVar),
      analyze_subprog specOps u0 decl_half acx_before_half = some ((), σ') ∧
      subprog_body specOps u0 decl_half acx_before_half
        = some (acx_before_half.current_func, σa) ∧
      σ'.insns = σa.insns ++ [⟨Opcode.RET, Operand.reg l, Operand.null, Operand.null⟩] ∧
      stab_resolve_var σa.st decl_half.name = some rv ∧ σa.st.vars.get? rv = some v ∧
      l = v.loc := by
  have hs : (analyze_subprog specOps u0 decl_half acx_before_half).isSome = true := by decide!
  obtain ⟨⟨⟨⟩, σ'⟩, h⟩ := Option.isSome_iff_exists.mp hs
  obtain ⟨σa, l, hb, hi, -, -, -, hf, -⟩ :=
    C26_ret_operand_is_slot_loc specOps u0 decl_half acx_before_half σ' 6
      entry_half (by decide!) (by decide!) rfl h
  obtain ⟨rv, v, a, b, c⟩ := hf rfl
  exact ⟨σ', σa, l, rv, v, h, hb, hi, a, b, c⟩

end Dragon
